import Mathlib

/-!
# JackLinuxFutex: the futex-backed activation primitive of jack2

Shallow embedding of `linux/JackLinuxFutex.cpp`.

* A handle (`JackLinuxFutex`) carries the fields the methods read and write.
* The operating system is an explicit `World`: which addresses are mapped to
  which shared object, the `int` word held by every shared object, the calling
  thread's `errno`, the list of futex system calls issued so far, a monotonic
  clock, the shared-memory namespace, the size of every object and the open
  descriptors.
* What the kernel answers to a `FUTEX_WAIT` call is not decided by the program;
  it is supplied from outside as a list of `ParkEvent`s, one per park call.
  Likewise `shm_open`, `ftruncate` and `mmap` succeed or fail as a `SysAnswer`
  says.
* `BuildName` is a function of a `NameCfg`, which holds what it takes from
  outside the file: `RewriteName`, the user id, the naming mode and the size
  of the name buffer.
-/

namespace Jack

/-! ## Constants of the platform -/

/-- Linux errno value of `EWOULDBLOCK` (the same number as `EAGAIN`). -/
def EWOULDBLOCK : Nat := 11

/-- Linux errno value of `ETIMEDOUT`. -/
def ETIMEDOUT : Nat := 110

/-- Linux errno value of `EINTR`. -/
def EINTR : Nat := 4

/-- The null pointer. -/
def NULL : Nat := 0

/-! ## Data model -/

/-- A `struct timespec`. -/
structure Timespec where
  tv_sec : Int
  tv_nsec : Int
deriving DecidableEq, Repr

/-- Nanoseconds denoted by a `timespec`. -/
def Timespec.toNanos (t : Timespec) : Int := t.tv_sec * 1000000000 + t.tv_nsec

/-- One `syscall(__NR_futex, ...)` as issued by the program. `priv` records
whether the `_PRIVATE` flavour of the operation was chosen. -/
inductive KCall where
  | futexWake (uaddr : Nat) (priv : Bool) (val : Int)
  | futexWait (uaddr : Nat) (priv : Bool) (val : Int) (timeout : Option Timespec)
deriving DecidableEq, Repr

/-- The method whose `jack_error` line was reached. -/
inductive LogMsg where
  | signalDeallocated (name : List Char)
  | waitDeallocated (name : List Char)
  | timedWaitDeallocated (name : List Char)
  | allocateFailed (name : List Char)
  | connectFailed (name : List Char)
deriving DecidableEq, Repr

/-- Modelled from the spec: the class declaration (`JackLinuxFutex.h`) is not
among the sources. The fields are the ones the methods of
`JackLinuxFutex.cpp` read and write, which are the attributes the data model
lists: the name, the shared-memory descriptor, the pointer to the mapped word
(`NULL` when the handle is deallocated), the private flag and the flush flag
of the `JackSynchro` base. -/
structure JackLinuxFutex where
  fName : List Char
  fSharedMem : Int
  fFutex : Nat
  fPrivate : Bool
  fFlush : Bool
deriving DecidableEq, Repr

/-- The part of the operating system the methods touch. -/
structure World where
  /-- address ↦ the shared object whose word can be accessed there (`none`:
  nothing can be accessed, the address is not mapped or lies past the end of
  the object mapped there) -/
  maps : Nat → Option Nat
  /-- shared object ↦ the `int` stored in it -/
  word : Nat → Int
  /-- the calling thread's `errno` -/
  errno : Nat
  /-- futex system calls issued so far, oldest first -/
  trace : List KCall
  /-- lines written through `jack_error`, oldest first -/
  log : List LogMsg
  /-- monotonic time in nanoseconds -/
  clock : Nat
  /-- the shared-memory namespace: name ↦ object -/
  names : List Char → Option Nat
  /-- shared object ↦ its size in bytes -/
  size : Nat → Nat
  /-- the calling process's open descriptors: descriptor ↦ object -/
  fds : Int → Option Nat
  /-- the identity the next new object gets -/
  nextObj : Nat

/-- What the kernel hands back from one park call. -/
inductive ParkRet where
  /-- the call returned 0 (woken up, possibly spuriously) -/
  | woke
  /-- the call returned -1 and stored `e` in `errno` -/
  | failed (e : Nat)
deriving DecidableEq, Repr

/-- Everything outside the program's control that happens during one park
call: the kernel's answer, the value other processes left in the shared word
in the meantime (`none`: they did not write it) and the time the call took. -/
structure ParkEvent where
  ret : ParkRet
  interfere : Option Int
  elapsed : Nat
deriving DecidableEq, Repr

/-- Result of running a method that may block. -/
inductive Outcome where
  /-- the method returned `b`; `rest` are the park events it did not use -/
  | returned (b : Bool) (h : JackLinuxFutex) (w : World) (rest : List ParkEvent)
  /-- the method is still inside a park call that has not come back -/
  | parked (h : JackLinuxFutex) (w : World)
  /-- the method dereferenced an address that is not mapped -/
  | fault

/-! ## Primitives -/

/-- The word a pointer designates, if the pointer is mapped. -/
def World.deref (w : World) (p : Nat) : Option Int :=
  (w.maps p).map w.word

/-- Store into a shared object. -/
def World.store (w : World) (o : Nat) (v : Int) : World :=
  { w with word := fun x => if x = o then v else w.word x }

/-- Model of `__sync_bool_compare_and_swap(p, oldval, newval)`; `none` when
`p` is not mapped. -/
def compareAndSwap (w : World) (p : Nat) (oldval newval : Int) : Option (Bool × World) :=
  match w.maps p with
  | none => none
  | some o => if w.word o = oldval then some (true, w.store o newval) else some (false, w)

/-- Modelled from the spec: `jack_error` (`JackError.h`) is not among the
sources. The failure is reported and nothing else happens: one more line in
the log. -/
def jack_error (w : World) (m : LogMsg) : World :=
  { w with log := w.log ++ [m] }

/-- Append a system call to the trace. -/
def World.issue (w : World) (c : KCall) : World :=
  { w with trace := w.trace ++ [c] }

/-- What other processes did to the word of object `o` during a park call. -/
def World.disturb (w : World) (o : Option Nat) (v : Option Int) : World :=
  match o, v with
  | some x, some y => w.store x y
  | _, _ => w

/-- Return of a `FUTEX_WAIT` system call: the value `syscall` returns and the
world after it (call traced, clock advanced, word as other processes left it,
`errno` set on failure). -/
def futexWaitReturn (w : World) (uaddr : Nat) (priv : Bool) (val : Int)
    (timeout : Option Timespec) (ev : ParkEvent) : Int × World :=
  let w1 := (w.issue (KCall.futexWait uaddr priv val timeout)).disturb (w.maps uaddr) ev.interfere
  let w2 := { w1 with clock := w1.clock + ev.elapsed }
  match ev.ret with
  | ParkRet.woke => (0, w2)
  | ParkRet.failed e => (-1, { w2 with errno := e })

/-! ## The methods -/

/-- `JackLinuxFutex::Signal` (lines 45-63). `none` is a memory fault. -/
def Signal (h : JackLinuxFutex) (w : World) : Option (Bool × JackLinuxFutex × World) :=
  if h.fFutex = NULL then
    some (false, h, jack_error w (LogMsg.signalDeallocated h.fName))
  else if h.fFlush then
    some (true, h, w)
  else
    match compareAndSwap w h.fFutex 0 1 with
    | none => none
    | some (false, w1) => some (true, h, w1)
    | some (true, w1) => some (true, h, w1.issue (KCall.futexWake h.fFutex h.fPrivate 1))

/-- `JackLinuxFutex::SignalAll` (lines 65-68). -/
def SignalAll (h : JackLinuxFutex) (w : World) : Option (Bool × JackLinuxFutex × World) :=
  Signal h w

/-- The `for (;;)` loop of `Wait` (lines 77-84) and of `TimedWait`
(lines 99-106); the two differ only in the timeout argument of the system
call (`NULL` against `&timeout`). -/
def waitLoop (h : JackLinuxFutex) (timeout : Option Timespec) :
    World → List ParkEvent → Outcome
  | w, [] =>
    match compareAndSwap w h.fFutex 1 0 with
    | none => Outcome.fault
    | some (true, w1) => Outcome.returned true h w1 []
    | some (false, w1) =>
      Outcome.parked h (w1.issue (KCall.futexWait h.fFutex h.fPrivate 0 timeout))
  | w, ev :: env =>
    match compareAndSwap w h.fFutex 1 0 with
    | none => Outcome.fault
    | some (true, w1) => Outcome.returned true h w1 (ev :: env)
    | some (false, w1) =>
      let r := futexWaitReturn w1 h.fFutex h.fPrivate 0 timeout ev
      if r.1 != 0 && r.2.errno != EWOULDBLOCK then
        Outcome.returned false h r.2 env
      else
        waitLoop h timeout r.2 env

/-- `JackLinuxFutex::Wait` (lines 70-85). -/
def Wait (h : JackLinuxFutex) (w : World) (env : List ParkEvent) : Outcome :=
  if h.fFutex = NULL then
    Outcome.returned false h (jack_error w (LogMsg.waitDeallocated h.fName)) env
  else
    waitLoop h none w env

/-- Conversion of a `long` to `unsigned int`. -/
def toUInt32 (x : Int) : Int := x % 4294967296

/-- Conversion of a `long` to `int`. -/
def toInt32 (x : Int) : Int := (x + 2147483648) % 4294967296 - 2147483648

/-- The `timespec` built at lines 94-97 from the `long usec`. -/
def timeoutOf (usec : Int) : Timespec :=
  let secs := toUInt32 (usec.tdiv 1000000)
  let nsecs := toInt32 (usec.tmod 1000000 * 1000)
  { tv_sec := secs, tv_nsec := nsecs }

/-- `JackLinuxFutex::TimedWait` (lines 87-107). -/
def TimedWait (h : JackLinuxFutex) (usec : Int) (w : World) (env : List ParkEvent) : Outcome :=
  if h.fFutex = NULL then
    Outcome.returned false h (jack_error w (LogMsg.timedWaitDeallocated h.fName)) env
  else
    waitLoop h (some (timeoutOf usec)) w env

/-- `JackLinuxFutex::MakePrivate` (lines 201-204). -/
def MakePrivate (h : JackLinuxFutex) (priv : Bool) : JackLinuxFutex :=
  { h with fPrivate := priv }

/-! ## Naming -/

/-- What `BuildName` takes from outside the file. `JackTools::RewriteName` and
`JackTools::GetUID` (`JackTools.h`) and the declaration of `fName`
(`JackLinuxFutex.h`) are not among the sources, so the rewriting function, the
`int` that `GetUID` returns and `sizeof(fName)` are parameters; `promiscuous`
says whether `getenv("JACK_PROMISCUOUS_SERVER")` is non-null. -/
structure NameCfg where
  rewriteName : List Char → List Char
  uid : Int
  promiscuous : Bool
  nameSize : Nat

/-- The character of a decimal digit. -/
def digitOf (d : Nat) : Char := Char.ofNat (48 + d)

/-- Decimal digits of `n`, most significant first; `fuel` bounds their number. -/
def digitsFuel : Nat → Nat → List Char
  | 0, _ => []
  | fuel + 1, n =>
    if n < 10 then [digitOf n] else digitsFuel fuel (n / 10) ++ [digitOf (n % 10)]

/-- A natural number in decimal. -/
def formatNat (n : Nat) : List Char := digitsFuel (n + 1) n

/-- What `printf` writes for `%d`. -/
def formatInt : Int → List Char
  | Int.ofNat n => formatNat n
  | Int.negSucc n => '-' :: formatNat (n + 1)

/-- What `snprintf(res, size, ...)` leaves in `res` when the formatted text is
`s`: at most `size - 1` characters of it (and the terminating zero), nothing
when `size` is 0. -/
def snprintf (res : List Char) (size : Nat) (s : List Char) : List Char :=
  if size = 0 then res else s.take (size - 1)

/-- `JackLinuxFutex::BuildName` (lines 34-43): the new content of `res`. The
client name is taken to fit the buffer `ext_client_name`. -/
def BuildName (cfg : NameCfg) (client_name server_name : List Char) (res : List Char)
    (size : Nat) : List Char :=
  let ext_client_name := cfg.rewriteName client_name
  if cfg.promiscuous then
    snprintf res size ("jack_sem.".toList ++ server_name ++ "_".toList ++ ext_client_name)
  else
    snprintf res size ("jack_sem.".toList ++ formatInt cfg.uid ++ "_".toList ++ server_name ++
      "_".toList ++ ext_client_name)

/-! ## The system calls of the lifecycle

What a call answers when it can go either way comes from outside
(`SysAnswer`); what is fixed by the system's rules is computed: `shm_open`
without `O_CREAT` fails on a name that is not published, with `O_CREAT` it
publishes a new empty object; `ftruncate` sets the size and new bytes read as
zero; `mmap` returns `MAP_FAILED` when it fails; a word can be accessed
through a mapping only when the object holds at least `sizeof(int)` bytes. -/

/-- Linux errno value of `ENOENT`. -/
def ENOENT : Nat := 2

/-- Linux errno value of `EBADF`. -/
def EBADF : Nat := 9

/-- The pointer `(void *) -1` on a 64-bit platform. -/
def MAP_FAILED : Nat := 18446744073709551615

/-- The size of an `int` in bytes. -/
def sizeofInt : Nat := 4

/-- The answer of the system to one call: success with the value it hands out
(a descriptor, an address) or failure with an error code. -/
inductive SysAnswer where
  | ok (v : Nat)
  | err (e : Nat)
deriving DecidableEq, Repr

/-- The answers to the system calls of one `Allocate` or `Connect`. -/
structure SysAnswers where
  shmOpen : SysAnswer
  ftruncate : SysAnswer
  mmap : SysAnswer
deriving DecidableEq, Repr

/-- `shm_open(name, O_RDWR [| O_CREAT], mode)`: the value returned and the
world after the call. -/
def shm_open (w : World) (name : List Char) (creat : Bool) (ans : SysAnswer) : Int × World :=
  match ans with
  | SysAnswer.err e => (-1, { w with errno := e })
  | SysAnswer.ok fd =>
    match w.names name with
    | some o => ((fd : Int), { w with fds := fun x => if x = (fd : Int) then some o else w.fds x })
    | none =>
      if creat then
        ((fd : Int),
          { w with names := fun x => if x = name then some w.nextObj else w.names x,
                   size := fun x => if x = w.nextObj then 0 else w.size x,
                   fds := fun x => if x = (fd : Int) then some w.nextObj else w.fds x,
                   nextObj := w.nextObj + 1 })
      else
        (-1, { w with errno := ENOENT })

/-- `ftruncate(fd, length)`: the value returned and the world after the call. -/
def ftruncate (w : World) (fd : Int) (length : Nat) (ans : SysAnswer) : Int × World :=
  match ans with
  | SysAnswer.err e => (-1, { w with errno := e })
  | SysAnswer.ok _ =>
    match w.fds fd with
    | none => (-1, { w with errno := EBADF })
    | some o =>
      (0, { w with size := fun x => if x = o then length else w.size x,
                   word := fun x => if x = o ∧ w.size o < sizeofInt then 0 else w.word x })

/-- `mmap(NULL, sizeof(int), PROT_READ|PROT_WRITE, MAP_SHARED|MAP_LOCKED, fd, 0)`:
the pointer returned and the world after the call. -/
def mmap (w : World) (fd : Int) (ans : SysAnswer) : Nat × World :=
  match ans with
  | SysAnswer.err e => (MAP_FAILED, { w with errno := e })
  | SysAnswer.ok a =>
    match w.fds fd with
    | none => (MAP_FAILED, { w with errno := EBADF })
    | some o =>
      (a, { w with maps := fun x =>
              if x = a then (if sizeofInt ≤ w.size o then some o else none) else w.maps x })

/-- `munmap(p, sizeof(int))`. -/
def munmap (w : World) (p : Nat) : World :=
  { w with maps := fun x => if x = p then none else w.maps x }

/-- `close(fd)`. -/
def close (w : World) (fd : Int) : World :=
  match w.fds fd with
  | none => { w with errno := EBADF }
  | some _ => { w with fds := fun x => if x = fd then none else w.fds x }

/-- `shm_unlink(name)`. -/
def shm_unlink (w : World) (name : List Char) : World :=
  match w.names name with
  | none => { w with errno := ENOENT }
  | some _ => { w with names := fun x => if x = name then none else w.names x }

/-! ## The methods of the lifecycle -/

/-- `JackLinuxFutex::Allocate` (lines 110-132). `none` is a memory fault. The
`jack_log` lines are not modelled. -/
def Allocate (cfg : NameCfg) (h : JackLinuxFutex) (name server_name : List Char) (value : Int)
    (w : World) (ans : SysAnswers) : Option (Bool × JackLinuxFutex × World) :=
  let h1 := { h with fName := BuildName cfg name server_name h.fName cfg.nameSize }
  let r1 := shm_open w h1.fName true ans.shmOpen
  let h2 := { h1 with fSharedMem := r1.1 }
  if h2.fSharedMem < 0 then
    some (false, h2, jack_error r1.2 (LogMsg.allocateFailed h2.fName))
  else
    let r2 := ftruncate r1.2 h2.fSharedMem sizeofInt ans.ftruncate
    let r3 := mmap r2.2 h2.fSharedMem ans.mmap
    let h3 := { h2 with fFutex := r3.1 }
    if h3.fFutex = NULL then
      let w4 := close (jack_error r3.2 (LogMsg.allocateFailed h3.fName)) h3.fSharedMem
      let h4 := { h3 with fSharedMem := -1 }
      some (false, h4, shm_unlink w4 h4.fName)
    else
      match r3.2.maps h3.fFutex with
      | none => none
      | some o => some (true, h3, r3.2.store o value)

/-- `JackLinuxFutex::ConnectInput` (lines 135-159). The `jack_log` lines are
not modelled. -/
def ConnectInput (cfg : NameCfg) (h : JackLinuxFutex) (name server_name : List Char)
    (w : World) (ans : SysAnswers) : Bool × JackLinuxFutex × World :=
  let h1 := { h with fName := BuildName cfg name server_name h.fName cfg.nameSize }
  if h1.fFutex ≠ NULL then
    (true, h1, w)
  else
    let r1 := shm_open w h1.fName false ans.shmOpen
    let h2 := { h1 with fSharedMem := r1.1 }
    if h2.fSharedMem < 0 then
      (false, h2, jack_error r1.2 (LogMsg.connectFailed h2.fName))
    else
      let r3 := mmap r1.2 h2.fSharedMem ans.mmap
      let h3 := { h2 with fFutex := r3.1 }
      if h3.fFutex = NULL then
        let w4 := close (jack_error r3.2 (LogMsg.connectFailed h3.fName)) h3.fSharedMem
        (false, { h3 with fSharedMem := -1 }, w4)
      else
        (true, h3, r3.2)

/-- `JackLinuxFutex::Connect` (lines 161-164). -/
def Connect (cfg : NameCfg) (h : JackLinuxFutex) (name server_name : List Char)
    (w : World) (ans : SysAnswers) : Bool × JackLinuxFutex × World :=
  ConnectInput cfg h name server_name w ans

/-- `JackLinuxFutex::ConnectOutput` (lines 166-169). -/
def ConnectOutput (cfg : NameCfg) (h : JackLinuxFutex) (name server_name : List Char)
    (w : World) (ans : SysAnswers) : Bool × JackLinuxFutex × World :=
  ConnectInput cfg h name server_name w ans

/-- `JackLinuxFutex::Disconnect` (lines 171-183). -/
def Disconnect (h : JackLinuxFutex) (w : World) : Bool × JackLinuxFutex × World :=
  if h.fFutex = NULL then
    (true, h, w)
  else
    let w1 := munmap w h.fFutex
    let h1 := { h with fFutex := NULL }
    let w2 := close w1 h1.fSharedMem
    (true, { h1 with fSharedMem := -1 }, w2)

/-- `JackLinuxFutex::Destroy` (lines 186-199). -/
def Destroy (h : JackLinuxFutex) (w : World) : JackLinuxFutex × World :=
  if h.fFutex = NULL then
    (h, w)
  else
    let w1 := munmap w h.fFutex
    let h1 := { h with fFutex := NULL }
    let w2 := close w1 h1.fSharedMem
    let h2 := { h1 with fSharedMem := -1 }
    (h2, shm_unlink w2 h2.fName)

/-! ## Vocabulary of the statements -/

/-- The handle is allocated: its pointer is not null and maps object `o`. -/
def Attached (h : JackLinuxFutex) (w : World) (o : Nat) : Prop :=
  h.fFutex ≠ NULL ∧ w.maps h.fFutex = some o

/-- Number of wake calls in a trace. -/
def wakeCount : List KCall → Nat
  | [] => 0
  | KCall.futexWake _ _ _ :: t => wakeCount t + 1
  | KCall.futexWait _ _ _ _ :: t => wakeCount t

/-- Number of park calls in a trace. -/
def parkCount : List KCall → Nat
  | [] => 0
  | KCall.futexWake _ _ _ :: t => parkCount t
  | KCall.futexWait _ _ _ _ :: t => parkCount t + 1

/-- The park call a handle issues from its wait loop. -/
def parkCall (h : JackLinuxFutex) (timeout : Option Timespec) : KCall :=
  KCall.futexWait h.fFutex h.fPrivate 0 timeout

/-- The kernel's answer is a failure with an error code other than
`EWOULDBLOCK`. -/
def ParkRet.hard : ParkRet → Bool
  | ParkRet.woke => false
  | ParkRet.failed e => e != EWOULDBLOCK

/-- The value a method returned, if it returned. -/
def Outcome.result? : Outcome → Option Bool
  | Outcome.returned b _ _ _ => some b
  | _ => none

/-- The world a method left behind, unless it faulted. -/
def Outcome.world? : Outcome → Option World
  | Outcome.returned _ _ w _ => some w
  | Outcome.parked _ w => some w
  | Outcome.fault => none

/-- The system calls issued up to the point the method reached. -/
def Outcome.trace? (r : Outcome) : Option (List KCall) :=
  r.world?.map World.trace

/-- Total time spent in the park calls answered by `evs`. -/
def elapsedSum : List ParkEvent → Nat
  | [] => 0
  | ev :: t => ev.elapsed + elapsedSum t

/-! ## One `Wait` raced against one `Signal`

The two methods are cut into their atomic steps (the entry test, the
compare-and-exchange, the system call) and a schedule decides whose step comes
next. The kernel side of `FUTEX_WAIT(uaddr, 0)` is the documented one: the word
is compared with 0 and the thread put to sleep in one atomic step, and the call
fails with `EWOULDBLOCK` at once when the word is not 0. `FUTEX_WAKE` wakes a
thread sleeping on the same futex key; a sleeping thread may also be woken for
no reason. -/

/-- Linux errno value of `EFAULT`. -/
def EFAULT : Nat := 14

/-- Where the thread inside `Wait` stands. -/
inductive WaitPc where
  /-- before the test of line 72 -/
  | entry
  /-- before the compare-and-exchange of line 79 -/
  | atCas
  /-- before the system call of line 82 -/
  | atPark
  /-- asleep inside the system call of line 82 -/
  | parked
  | returned (b : Bool)
  | faulted
deriving DecidableEq, Repr

/-- Where the thread inside `Signal` stands. -/
inductive SignalPc where
  /-- before the tests of lines 47 and 52 -/
  | entry
  /-- before the compare-and-exchange of line 56 -/
  | atCas
  /-- before the system call of line 61 -/
  | atWake
  | returned (b : Bool)
  | faulted
deriving DecidableEq, Repr

/-- Who moves next: the waiting thread, the signalling thread, or the kernel
waking the sleeper for no reason. -/
inductive Actor where
  | waiter
  | signaler
  | kernel
deriving DecidableEq, Repr

/-- State of the race. `errno` in `w` is the one of the waiting thread; the
signalling thread neither reads nor writes it. -/
structure Race where
  w : World
  waiter : WaitPc
  signaler : SignalPc

/-- The key under which the kernel queues a sleeper: the address for the
private flavour, the shared object otherwise. -/
def futexKey (w : World) (p : Nat) (priv : Bool) : Option (Bool × Nat) :=
  if priv then some (true, p) else (w.maps p).map (fun o => (false, o))

/-- A park call that does not put the thread to sleep: what the system call
returns goes through the test of line 82. -/
def parkReturns (hW : JackLinuxFutex) (st : Race) (ret : ParkRet) : Race :=
  let r := futexWaitReturn st.w hW.fFutex hW.fPrivate 0 none
    { ret := ret, interfere := none, elapsed := 0 }
  if r.1 != 0 && r.2.errno != EWOULDBLOCK then
    { st with w := r.2, waiter := WaitPc.returned false }
  else
    { st with w := r.2, waiter := WaitPc.atCas }

/-- One atomic step of `Wait` (lines 70-85). -/
def stepWaiter (hW : JackLinuxFutex) (st : Race) : Race :=
  match st.waiter with
  | WaitPc.entry =>
    if hW.fFutex = NULL then
      { st with w := jack_error st.w (LogMsg.waitDeallocated hW.fName),
                waiter := WaitPc.returned false }
    else
      { st with waiter := WaitPc.atCas }
  | WaitPc.atCas =>
    match compareAndSwap st.w hW.fFutex 1 0 with
    | none => { st with waiter := WaitPc.faulted }
    | some (true, w1) => { st with w := w1, waiter := WaitPc.returned true }
    | some (false, w1) => { st with w := w1, waiter := WaitPc.atPark }
  | WaitPc.atPark =>
    match st.w.deref hW.fFutex with
    | none => parkReturns hW st (ParkRet.failed EFAULT)
    | some v =>
      if v = 0 then
        { st with w := st.w.issue (parkCall hW none), waiter := WaitPc.parked }
      else
        parkReturns hW st (ParkRet.failed EWOULDBLOCK)
  | _ => st

/-- The sleeper is woken: its system call returns 0, the test of line 82 does
not fire and the loop goes round. -/
def wakeSleeper (st : Race) : Race :=
  match st.waiter with
  | WaitPc.parked => { st with waiter := WaitPc.atCas }
  | _ => st

/-- One atomic step of `Signal` (lines 45-63) issued through `hS`, the waiter
using `hW`. -/
def stepSignaler (hW hS : JackLinuxFutex) (st : Race) : Race :=
  match st.signaler with
  | SignalPc.entry =>
    if hS.fFutex = NULL then
      { st with w := jack_error st.w (LogMsg.signalDeallocated hS.fName),
                signaler := SignalPc.returned false }
    else if hS.fFlush then
      { st with signaler := SignalPc.returned true }
    else
      { st with signaler := SignalPc.atCas }
  | SignalPc.atCas =>
    match compareAndSwap st.w hS.fFutex 0 1 with
    | none => { st with signaler := SignalPc.faulted }
    | some (false, w1) => { st with w := w1, signaler := SignalPc.returned true }
    | some (true, w1) => { st with w := w1, signaler := SignalPc.atWake }
  | SignalPc.atWake =>
    let st1 : Race :=
      { st with w := st.w.issue (KCall.futexWake hS.fFutex hS.fPrivate 1),
                signaler := SignalPc.returned true }
    if futexKey st.w hS.fFutex hS.fPrivate = futexKey st.w hW.fFutex hW.fPrivate then
      wakeSleeper st1
    else
      st1
  | _ => st

/-- One step of the race. -/
def Race.step (hW hS : JackLinuxFutex) (st : Race) : Actor → Race
  | Actor.waiter => stepWaiter hW st
  | Actor.signaler => stepSignaler hW hS st
  | Actor.kernel => wakeSleeper st

/-- The race along a schedule. -/
def Race.run (hW hS : JackLinuxFutex) (st : Race) (sched : List Actor) : Race :=
  sched.foldl (Race.step hW hS) st

/-- Both calls are about to start. -/
def Race.init (w : World) : Race :=
  { w := w, waiter := WaitPc.entry, signaler := SignalPc.entry }

/-- Number of turns an actor gets in a schedule. -/
def turns (a : Actor) (sched : List Actor) : Nat := sched.count a

/-- What the proofs about the race look at: the two program counters, the
value of the shared word and the number of wake calls issued. -/
structure RaceView where
  signaler : SignalPc
  waiter : WaitPc
  word : Int
  wakes : Nat
deriving DecidableEq, Repr

/-- The view of a state of the race, `o` being the shared object. -/
def Race.view (o : Nat) (st : Race) : RaceView :=
  { signaler := st.signaler, waiter := st.waiter, word := st.w.word o,
    wakes := wakeCount st.w.trace }

/-- The step of the race as seen through the view, for two allocated handles of
one object with equal futex keys, the signalling one not flushing. -/
def RaceView.step (v : RaceView) : Actor → RaceView
  | Actor.waiter =>
    match v.waiter with
    | WaitPc.entry => { v with waiter := WaitPc.atCas }
    | WaitPc.atCas =>
      if v.word = 1 then { v with word := 0, waiter := WaitPc.returned true }
      else { v with waiter := WaitPc.atPark }
    | WaitPc.atPark =>
      if v.word = 0 then { v with waiter := WaitPc.parked }
      else { v with waiter := WaitPc.atCas }
    | _ => v
  | Actor.signaler =>
    match v.signaler with
    | SignalPc.entry => { v with signaler := SignalPc.atCas }
    | SignalPc.atCas =>
      if v.word = 0 then { v with word := 1, signaler := SignalPc.atWake }
      else { v with signaler := SignalPc.returned true }
    | SignalPc.atWake =>
      { v with signaler := SignalPc.returned true, wakes := v.wakes + 1,
               waiter := if v.waiter = WaitPc.parked then WaitPc.atCas else v.waiter }
    | _ => v
  | Actor.kernel =>
    { v with waiter := if v.waiter = WaitPc.parked then WaitPc.atCas else v.waiter }

/-- The view along a schedule. -/
def RaceView.run (v : RaceView) (sched : List Actor) : RaceView :=
  sched.foldl RaceView.step v

/-- The thread inside `Wait` is awake and has not returned. -/
def WaitPc.awake : WaitPc → Bool
  | WaitPc.entry => true
  | WaitPc.atCas => true
  | WaitPc.atPark => true
  | _ => false

/-- The states a race started on an idle word with `k` wake calls in the trace
can be in. -/
def RaceView.ok (k : Nat) (v : RaceView) : Prop :=
  match v.signaler with
  | SignalPc.entry => v.word = 0 ∧ v.wakes = k ∧ (v.waiter.awake = true ∨ v.waiter = WaitPc.parked)
  | SignalPc.atCas => v.word = 0 ∧ v.wakes = k ∧ (v.waiter.awake = true ∨ v.waiter = WaitPc.parked)
  | SignalPc.atWake =>
    v.wakes = k ∧ ((v.word = 1 ∧ (v.waiter.awake = true ∨ v.waiter = WaitPc.parked)) ∨
      (v.word = 0 ∧ v.waiter = WaitPc.returned true))
  | SignalPc.returned true =>
    v.wakes = k + 1 ∧ ((v.word = 1 ∧ v.waiter.awake = true) ∨
      (v.word = 0 ∧ v.waiter = WaitPc.returned true))
  | _ => False

/-- Steps the signalling thread still has to take. -/
def SignalPc.todo : SignalPc → Nat
  | SignalPc.entry => 3
  | SignalPc.atCas => 2
  | SignalPc.atWake => 1
  | _ => 0

/-- Steps the waiting thread needs at most once the signal is out. -/
def WaitPc.todo : WaitPc → Nat
  | WaitPc.entry => 2
  | WaitPc.atPark => 2
  | WaitPc.atCas => 1
  | _ => 0

/-- The value of a decimal digit character. -/
def digitVal (c : Char) : Nat := c.toNat - 48

/-- The number a string of decimal digits denotes. -/
def parseNat (l : List Char) : Nat := l.foldl (fun a c => a * 10 + digitVal c) 0

/-- The text `BuildName` formats before `snprintf` cuts it to the buffer. -/
def fullName (cfg : NameCfg) (client_name server_name : List Char) : List Char :=
  if cfg.promiscuous then
    "jack_sem.".toList ++ (server_name ++ '_' :: cfg.rewriteName client_name)
  else
    "jack_sem.".toList ++
      (formatInt cfg.uid ++ '_' :: (server_name ++ '_' :: cfg.rewriteName client_name))

/-- The two values the shared word is meant to take. -/
def isBit (v : Int) : Prop := v = 0 ∨ v = 1

/-- The states a race can be in when the word holds `x`, a value that is
neither 0 nor 1, and `k` wake calls are in the trace: the waiting thread is
awake and has not returned, the signalling thread never stands before a wake
call. -/
def RaceView.stuck (x : Int) (k : Nat) (v : RaceView) : Prop :=
  v.word = x ∧ v.wakes = k ∧ v.waiter.awake = true ∧
  (v.signaler = SignalPc.entry ∨ v.signaler = SignalPc.atCas ∨
    v.signaler = SignalPc.returned true)

/-! ## The io-audio driver: parameters of `driver_initialize`

`qnx/ioaudio/JackIoAudioDriver.cpp`. The declarations of the parameter and
argument records (`driver_interface.h`, `ioaudio_backend.h`) are not among the
sources; the records below hold the members the code reads and assigns. -/

/-- A `jack_driver_param_value_t`. It is a union in C; each field is the
value read through one of its members. -/
structure jack_driver_param_value_t where
  ui : Nat
  i : Int
  c : Char
  str : List Char
deriving DecidableEq, Repr

/-- A `jack_driver_param_t`: the option letter and its value. -/
structure jack_driver_param_t where
  character : Char
  value : jack_driver_param_value_t
deriving DecidableEq, Repr

/-- The dithering modes. -/
inductive DitherAlgorithm where
  | None
  | Rectangular
  | Shaped
  | Triangular
deriving DecidableEq, Repr

/-- The members of `ioaudio_driver_args_t` that `driver_initialize` assigns. -/
structure ioaudio_driver_args_t where
  srate : Nat
  frames_per_interrupt : Nat
  user_nperiods : Nat
  playback_pcm_name : List Char
  capture_pcm_name : List Char
  hw_monitoring : Int
  hw_metering : Int
  capture : Bool
  playback : Bool
  soft_mode : Int
  monitor : Int
  dither : DitherAlgorithm
  user_capture_nchnls : Nat
  user_playback_nchnls : Nat
  shorts_first : Int
  systemic_input_latency : Nat
  systemic_output_latency : Nat
  midi_driver : List Char
deriving DecidableEq, Repr

/-- `dither_opt` (lines 850-880): the mode stored through the pointer when the
function returns 0, `none` when it returns -1. -/
def dither_opt (c : Char) : Option DitherAlgorithm :=
  if c = '-' ∨ c = 'n' then some DitherAlgorithm.None
  else if c = 'r' then some DitherAlgorithm.Rectangular
  else if c = 's' then some DitherAlgorithm.Shaped
  else if c = 't' then some DitherAlgorithm.Triangular
  else none

/-- The `args` as lines 1111-1129 of `driver_initialize` set them up. -/
def initialArgs : ioaudio_driver_args_t :=
  { srate := 48000, frames_per_interrupt := 1024, user_nperiods := 2,
    playback_pcm_name := "pcmPreferredp".toList, capture_pcm_name := "pcmPreferredc".toList,
    hw_monitoring := 0, hw_metering := 0, capture := false, playback := false,
    soft_mode := 0, monitor := 0, dither := DitherAlgorithm.None,
    user_capture_nchnls := 0, user_playback_nchnls := 0, shorts_first := 0,
    systemic_input_latency := 0, systemic_output_latency := 0,
    midi_driver := "none".toList }

/-- The body of the loop of `driver_initialize`, the `switch` of lines
1139-1248: the `args` after one parameter, `none` when the function returns
`NULL` at line 1221. -/
def applyParam (args : ioaudio_driver_args_t) (param : jack_driver_param_t) :
    Option ioaudio_driver_args_t :=
  if param.character = 'C' then
    some { args with
      capture := true,
      capture_pcm_name :=
        if param.value.str ≠ "none".toList then param.value.str else args.capture_pcm_name }
  else if param.character = 'P' then
    some { args with
      playback := true,
      playback_pcm_name :=
        if param.value.str ≠ "none".toList then param.value.str else args.playback_pcm_name }
  else if param.character = 'D' then
    some { args with playback := true, capture := true }
  else if param.character = 'd' then
    if param.value.str ≠ "none".toList then
      some { args with playback_pcm_name := param.value.str,
                       capture_pcm_name := param.value.str }
    else some args
  else if param.character = 'H' then some { args with hw_monitoring := param.value.i }
  else if param.character = 'm' then some { args with monitor := param.value.i }
  else if param.character = 'M' then some { args with hw_metering := param.value.i }
  else if param.character = 'r' then some { args with srate := param.value.ui }
  else if param.character = 'p' then some { args with frames_per_interrupt := param.value.ui }
  else if param.character = 'n' then
    some { args with user_nperiods := if param.value.ui < 2 then 2 else param.value.ui }
  else if param.character = 's' then some { args with soft_mode := param.value.i }
  else if param.character = 'z' then
    match dither_opt param.value.c with
    | none => none
    | some d => some { args with dither := d }
  else if param.character = 'i' then some { args with user_capture_nchnls := param.value.ui }
  else if param.character = 'o' then some { args with user_playback_nchnls := param.value.ui }
  else if param.character = 'S' then some { args with shorts_first := param.value.i }
  else if param.character = 'I' then
    some { args with systemic_input_latency := param.value.ui }
  else if param.character = 'O' then
    some { args with systemic_output_latency := param.value.ui }
  else if param.character = 'X' then some { args with midi_driver := param.value.str }
  else some args

/-- The loop of lines 1134-1249 over the parameter list. -/
def parseLoop : List jack_driver_param_t → ioaudio_driver_args_t → Option ioaudio_driver_args_t
  | [], args => some args
  | param :: rest, args =>
    match applyParam args param with
    | none => none
    | some args1 => parseLoop rest args1

/-- Lines 1111-1256 of `driver_initialize`: the `args` it hands to `Open`,
`none` when it returns `NULL` before. -/
def driver_initialize_args (params : List jack_driver_param_t) : Option ioaudio_driver_args_t :=
  match parseLoop params initialArgs with
  | none => none
  | some args =>
    if !args.capture && !args.playback then
      some { args with capture := true, playback := true }
    else
      some args

/-- The parameter list has an option with this letter. -/
def hasOption (c : Char) (params : List jack_driver_param_t) : Prop :=
  ∃ p ∈ params, p.character = c

/-- A parameter with the letter `c` and the unsigned value `v`. -/
def demoParam (c : Char) (v : Nat) : jack_driver_param_t :=
  { character := c, value := { ui := v, i := v, c := 'n', str := "none".toList } }

/-! ## The io-audio driver: `SetBufferSize`

`JackIoAudioDriver::SetBufferSize` and `JackIoAudioDriver::UpdateLatencies`.
The backend (`ioaudio_backend.h`), the generic driver class `JackAudioDriver`
and the graph manager are not among the sources: the two functions of theirs
that `SetBufferSize` calls are parameters, and the calls that reach the backend
and the ports are recorded in the state. -/

/-- The members of the backend record `ioaudio_driver_t` that the driver class
reads, as numbers of frames; `hw` stands for the rest of the record. -/
structure ioaudio_driver_t where
  user_nperiods : Nat
  frame_rate : Nat
  frames_per_cycle : Nat
  capture_frame_latency : Nat
  playback_frame_latency : Nat
  hw : Nat
  deriving DecidableEq, Repr

/-- The two directions of a latency range. -/
inductive jack_latency_callback_mode_t where
  | JackCaptureLatency
  | JackPlaybackLatency
  deriving DecidableEq, Repr

/-- One call `GetPort(port)->SetLatencyRange(mode, &range)`, where
`range.min = range.max = range`. -/
structure LatencyCall where
  port : Nat
  mode : jack_latency_callback_mode_t
  range : Nat
  deriving DecidableEq, Repr

/-- One call `ioaudio_driver_reset_parameters(fDriver, nframes, nperiods, rate)`. -/
structure ResetCall where
  nframes : Nat
  nperiods : Nat
  rate : Nat
  deriving DecidableEq, Repr

/-- The state of a `JackIoAudioDriver` that `SetBufferSize` reads and writes:
the backend record behind `fDriver`, `fEngineControl->fBufferSize` and
`fEngineControl->fSyncMode`, the channel counts and port lists, and the records
of the `SetLatencyRange` calls received by the ports of `fGraphManager`, of the
calls of `ioaudio_driver_reset_parameters` and of the values given to
`jack_log`. -/
structure JackIoAudioDriver where
  fDriver : ioaudio_driver_t
  fBufferSize : Nat
  fSyncMode : Bool
  fCaptureChannels : Int
  fPlaybackChannels : Int
  fCapturePortList : Nat → Nat
  fPlaybackPortList : Nat → Nat
  fMonitorPortList : Nat → Nat
  fWithMonitorPorts : Bool
  latencies : List LatencyCall
  resets : List ResetCall
  jack_log : List Nat

/-- The code that `SetBufferSize` calls and that is not among the sources:
`ioaudio_driver_reset_parameters`, which receives the backend record with the
three numbers and answers a result with the record as it leaves it, and the
generic `JackAudioDriver::SetBufferSize`. -/
structure Backend where
  ioaudio_driver_reset_parameters :
    ioaudio_driver_t → Nat → Nat → Nat → Int × ioaudio_driver_t
  JackAudioDriver_SetBufferSize : JackIoAudioDriver → Nat → JackIoAudioDriver

/-- A value of type `jack_nframes_t`, which is `uint32_t`. -/
def toNframes (n : Nat) : Nat := n % 2 ^ 32

/-- The calls of the first loop of `UpdateLatencies`, one per capture channel. -/
def captureLatencies (d : JackIoAudioDriver) : List LatencyCall :=
  (List.range d.fCaptureChannels.toNat).map fun i =>
    { port := d.fCapturePortList i
      mode := jack_latency_callback_mode_t.JackCaptureLatency
      range := toNframes (d.fDriver.frames_per_cycle + d.fDriver.capture_frame_latency) }

/-- The calls of one turn of the second loop of `UpdateLatencies`: the
playback port, then the monitor port when there are monitor ports. The
subtraction `user_nperiods - 1` is unsigned. -/
def playbackLatency (d : JackIoAudioDriver) (i : Nat) : List LatencyCall :=
  { port := d.fPlaybackPortList i
    mode := jack_latency_callback_mode_t.JackPlaybackLatency
    range := toNframes (d.fDriver.frames_per_cycle * toNframes (d.fDriver.user_nperiods + 2 ^ 32 - 1)
      + (if d.fSyncMode then 0 else d.fBufferSize) + d.fDriver.playback_frame_latency) } ::
  (if d.fWithMonitorPorts then
    [{ port := d.fMonitorPortList i
       mode := jack_latency_callback_mode_t.JackCaptureLatency
       range := toNframes d.fDriver.frames_per_cycle }]
  else [])

/-- The calls of the second loop of `UpdateLatencies`. -/
def playbackLatencies (d : JackIoAudioDriver) : List LatencyCall :=
  ((List.range d.fPlaybackChannels.toNat).map (playbackLatency d)).flatten

/-- `JackIoAudioDriver::UpdateLatencies`. -/
def JackIoAudioDriver.UpdateLatencies (d : JackIoAudioDriver) : JackIoAudioDriver :=
  { d with latencies := d.latencies ++ captureLatencies d ++ playbackLatencies d }

/-- `JackIoAudioDriver::SetBufferSize(buffer_size)`: the result and the state
it leaves. -/
def JackIoAudioDriver.SetBufferSize (env : Backend) (d : JackIoAudioDriver)
    (buffer_size : Nat) : Int × JackIoAudioDriver :=
  let d0 := { d with jack_log := d.jack_log ++ [buffer_size] }
  let r := env.ioaudio_driver_reset_parameters d0.fDriver buffer_size
    d0.fDriver.user_nperiods d0.fDriver.frame_rate
  let d1 := { d0 with
    fDriver := r.2
    resets := d0.resets ++ [⟨buffer_size, d0.fDriver.user_nperiods, d0.fDriver.frame_rate⟩] }
  if r.1 = 0 then
    (r.1, (env.JackAudioDriver_SetBufferSize d1 buffer_size).UpdateLatencies)
  else
    let r2 := env.ioaudio_driver_reset_parameters d1.fDriver d1.fBufferSize
      d1.fDriver.user_nperiods d1.fDriver.frame_rate
    (r.1, { d1 with
      fDriver := r2.2
      resets := d1.resets ++ [⟨d1.fBufferSize, d1.fDriver.user_nperiods, d1.fDriver.frame_rate⟩] })

/-- A backend record at 48000 frames per second with 2 periods of 1024 frames. -/
def demoHw : ioaudio_driver_t :=
  { user_nperiods := 2, frame_rate := 48000, frames_per_cycle := 1024,
    capture_frame_latency := 0, playback_frame_latency := 0, hw := 0 }

/-- A driver with 2 capture and 2 playback channels on the record `demoHw`. -/
def demoDriver : JackIoAudioDriver :=
  { fDriver := demoHw, fBufferSize := 1024, fSyncMode := false,
    fCaptureChannels := 2, fPlaybackChannels := 2,
    fCapturePortList := fun i => 1 + i, fPlaybackPortList := fun i => 3 + i,
    fMonitorPortList := fun i => 5 + i, fWithMonitorPorts := false,
    latencies := [], resets := [], jack_log := [] }

/-- A backend whose hardware takes at most 4096 frames per period: the reset
stores the three numbers and answers 0 up to that size and -1 above it, and
the generic driver stores the buffer size. -/
def demoBackend : Backend :=
  { ioaudio_driver_reset_parameters := fun hw n np fr =>
      (if n ≤ 4096 then 0 else -1,
       { hw with frames_per_cycle := n, user_nperiods := np, frame_rate := fr })
    JackAudioDriver_SetBufferSize := fun d n => { d with fBufferSize := n } }

/-- The server side handle of the scenario "srv_cli". -/
def demoServer : JackLinuxFutex :=
  { fName := "jack_sem.1000_default_srv_cli".toList, fSharedMem := 3, fFutex := 4096,
    fPrivate := false, fFlush := false }

/-- The client side handle of the scenario "srv_cli": another mapping of the
same object. -/
def demoClient : JackLinuxFutex :=
  { fName := "jack_sem.1000_default_srv_cli".toList, fSharedMem := 5, fFutex := 8192,
    fPrivate := false, fFlush := false }

/-- A world in which object 7, published as "jack_sem.1000_default_srv_cli"
and open as descriptors 3 and 5, is mapped at 4096 and at 8192 and holds `v`. -/
def demoWorld (v : Int) : World :=
  { maps := fun p => if p = 4096 ∨ p = 8192 then some 7 else none,
    word := fun _ => v, errno := 0, trace := [], log := [], clock := 0,
    names := fun n => if n = "jack_sem.1000_default_srv_cli".toList then some 7 else none,
    size := fun _ => 4,
    fds := fun fd => if fd = 3 ∨ fd = 5 then some 7 else none,
    nextObj := 8 }

/-- A naming environment for the scenario: user 1000, default mode, a buffer
of 256 bytes, a `RewriteName` that leaves its argument as it is. -/
def demoCfg : NameCfg :=
  { rewriteName := fun n => n, uid := 1000, promiscuous := false, nameSize := 256 }

/-- A handle as the constructor leaves it: nothing mapped, no descriptor. -/
def demoFresh : JackLinuxFutex :=
  { fName := [], fSharedMem := -1, fFutex := NULL, fPrivate := false, fFlush := false }

/-- Answers of a system in which every call succeeds: descriptor 9, a mapping
at 12288. -/
def demoAnswers : SysAnswers :=
  { shmOpen := SysAnswer.ok 9, ftruncate := SysAnswer.ok 0, mmap := SysAnswer.ok 12288 }

/-- Answers of a system in which `shm_open` succeeds and `mmap` fails with
`ENOMEM`. -/
def demoNoMap : SysAnswers :=
  { shmOpen := SysAnswer.ok 9, ftruncate := SysAnswer.ok 0, mmap := SysAnswer.err 12 }

/-- A park call that comes back with 0 after 40 ms although nobody touched
the word (a spurious wake). -/
def evSpurious : ParkEvent := { ret := ParkRet.woke, interfere := none, elapsed := 40000000 }

/-- A park call that runs into its timeout after 50 ms. -/
def evTimeout : ParkEvent :=
  { ret := ParkRet.failed ETIMEDOUT, interfere := none, elapsed := 50000000 }

/-- A park call interrupted by a signal handler after 1 ms. -/
def evInterrupted : ParkEvent :=
  { ret := ParkRet.failed EINTR, interfere := none, elapsed := 1000000 }

/-- A park call woken after 1 ms by a `Signal` of another process, which left
the word at 1. -/
def evSignalled : ParkEvent := { ret := ParkRet.woke, interfere := some 1, elapsed := 1000000 }

/-! ## Basic facts about the primitives -/

theorem wakeCount_append (a b : List KCall) : wakeCount (a ++ b) = wakeCount a + wakeCount b := by
  induction a with
  | nil => simp [wakeCount]
  | cons c t ih => cases c <;> simp [wakeCount, ih, Nat.add_right_comm]

theorem parkCount_append (a b : List KCall) : parkCount (a ++ b) = parkCount a + parkCount b := by
  induction a with
  | nil => simp [parkCount]
  | cons c t ih => cases c <;> simp [parkCount, ih, Nat.add_right_comm]

@[simp] theorem store_maps (w : World) (o : Nat) (v : Int) : (w.store o v).maps = w.maps := rfl
@[simp] theorem store_trace (w : World) (o : Nat) (v : Int) : (w.store o v).trace = w.trace := rfl
@[simp] theorem store_errno (w : World) (o : Nat) (v : Int) : (w.store o v).errno = w.errno := rfl
@[simp] theorem store_log (w : World) (o : Nat) (v : Int) : (w.store o v).log = w.log := rfl
@[simp] theorem store_clock (w : World) (o : Nat) (v : Int) : (w.store o v).clock = w.clock := rfl
@[simp] theorem store_word_same (w : World) (o : Nat) (v : Int) : (w.store o v).word o = v := by
  simp [World.store]
@[simp] theorem issue_maps (w : World) (c : KCall) : (w.issue c).maps = w.maps := rfl
@[simp] theorem issue_word (w : World) (c : KCall) : (w.issue c).word = w.word := rfl
@[simp] theorem issue_trace (w : World) (c : KCall) : (w.issue c).trace = w.trace ++ [c] := rfl
@[simp] theorem issue_errno (w : World) (c : KCall) : (w.issue c).errno = w.errno := rfl
@[simp] theorem issue_log (w : World) (c : KCall) : (w.issue c).log = w.log := rfl
@[simp] theorem issue_clock (w : World) (c : KCall) : (w.issue c).clock = w.clock := rfl

theorem cas_hit (w : World) (p o : Nat) (a b : Int) (hm : w.maps p = some o)
    (hv : w.word o = a) : compareAndSwap w p a b = some (true, w.store o b) := by
  simp [compareAndSwap, hm, hv]

theorem cas_miss (w : World) (p o : Nat) (a b : Int) (hm : w.maps p = some o)
    (hv : w.word o ≠ a) : compareAndSwap w p a b = some (false, w) := by
  simp [compareAndSwap, hm, hv]

/-- A wait loop that finds the word at 1 consumes it at once. -/
theorem waitLoop_pending (h : JackLinuxFutex) (t : Option Timespec) (w : World) (o : Nat)
    (env : List ParkEvent) (hm : w.maps h.fFutex = some o) (hv : w.word o = 1) :
    waitLoop h t w env = Outcome.returned true h (w.store o 0) env := by
  cases env <;> simp [waitLoop, cas_hit w h.fFutex o 1 0 hm hv]

/-! ## The park call -/

theorem futexWaitReturn_maps (w : World) (p : Nat) (pr : Bool) (v : Int)
    (t : Option Timespec) (ev : ParkEvent) : (futexWaitReturn w p pr v t ev).2.maps = w.maps := by
  unfold futexWaitReturn World.disturb
  cases ev.ret <;> cases w.maps p <;> cases ev.interfere <;> rfl

theorem futexWaitReturn_trace (w : World) (p : Nat) (pr : Bool) (v : Int)
    (t : Option Timespec) (ev : ParkEvent) :
    (futexWaitReturn w p pr v t ev).2.trace = w.trace ++ [KCall.futexWait p pr v t] := by
  unfold futexWaitReturn World.disturb
  cases ev.ret <;> cases w.maps p <;> cases ev.interfere <;> rfl

theorem futexWaitReturn_clock (w : World) (p : Nat) (pr : Bool) (v : Int)
    (t : Option Timespec) (ev : ParkEvent) :
    (futexWaitReturn w p pr v t ev).2.clock = w.clock + ev.elapsed := by
  unfold futexWaitReturn World.disturb
  cases ev.ret <;> cases w.maps p <;> cases ev.interfere <;> rfl

theorem futexWaitReturn_log (w : World) (p : Nat) (pr : Bool) (v : Int)
    (t : Option Timespec) (ev : ParkEvent) : (futexWaitReturn w p pr v t ev).2.log = w.log := by
  unfold futexWaitReturn World.disturb
  cases ev.ret <;> cases w.maps p <;> cases ev.interfere <;> rfl

theorem futexWaitReturn_word (w : World) (p o : Nat) (pr : Bool) (v : Int)
    (t : Option Timespec) (ev : ParkEvent) (hm : w.maps p = some o) :
    (futexWaitReturn w p pr v t ev).2.word o = ev.interfere.getD (w.word o) := by
  unfold futexWaitReturn World.disturb
  rw [hm]
  cases ev.ret <;> cases ev.interfere <;> simp [World.store, World.issue]

theorem futexWaitReturn_errno (w : World) (p : Nat) (pr : Bool) (v : Int)
    (t : Option Timespec) (ev : ParkEvent) (e : Nat) (he : ev.ret = ParkRet.failed e) :
    (futexWaitReturn w p pr v t ev).2.errno = e := by
  unfold futexWaitReturn
  rw [he]

/-- The test of lines 82 and 104 fires exactly on a hard failure. -/
theorem futexWaitReturn_test (w : World) (p : Nat) (pr : Bool) (v : Int)
    (t : Option Timespec) (ev : ParkEvent) :
    ((futexWaitReturn w p pr v t ev).1 != 0 &&
      (futexWaitReturn w p pr v t ev).2.errno != EWOULDBLOCK) = ev.ret.hard := by
  unfold futexWaitReturn
  cases h : ev.ret <;> simp [ParkRet.hard]

/-! ## One turn of the wait loop -/

theorem waitLoop_unmapped (h : JackLinuxFutex) (t : Option Timespec) (w : World)
    (env : List ParkEvent) (hm : w.maps h.fFutex = none) :
    waitLoop h t w env = Outcome.fault := by
  cases env <;> simp [waitLoop, compareAndSwap, hm]

theorem waitLoop_nil_miss (h : JackLinuxFutex) (t : Option Timespec) (w : World) (o : Nat)
    (hm : w.maps h.fFutex = some o) (hv : w.word o ≠ 1) :
    waitLoop h t w [] = Outcome.parked h (w.issue (parkCall h t)) := by
  simp [waitLoop, cas_miss w h.fFutex o 1 0 hm hv, parkCall]

theorem waitLoop_cons_hard (h : JackLinuxFutex) (t : Option Timespec) (w : World) (o : Nat)
    (ev : ParkEvent) (env : List ParkEvent)
    (hm : w.maps h.fFutex = some o) (hv : w.word o ≠ 1) (hh : ev.ret.hard = true) :
    waitLoop h t w (ev :: env) =
      Outcome.returned false h (futexWaitReturn w h.fFutex h.fPrivate 0 t ev).2 env := by
  simp only [waitLoop, cas_miss w h.fFutex o 1 0 hm hv, futexWaitReturn_test, hh, if_true]

theorem waitLoop_cons_benign (h : JackLinuxFutex) (t : Option Timespec) (w : World) (o : Nat)
    (ev : ParkEvent) (env : List ParkEvent)
    (hm : w.maps h.fFutex = some o) (hv : w.word o ≠ 1) (hh : ev.ret.hard = false) :
    waitLoop h t w (ev :: env) =
      waitLoop h t (futexWaitReturn w h.fFutex h.fPrivate 0 t ev).2 env := by
  simp [waitLoop, cas_miss w h.fFutex o 1 0 hm hv, futexWaitReturn_test, hh]

/-! ## Whole runs of the wait loop -/

/-- What is known when the wait loop returns: the events it used, the calls it
issued, the time it took, and which of its two exits it took. -/
theorem waitLoop_returned (h : JackLinuxFutex) (t : Option Timespec) (o : Nat) :
    ∀ (env : List ParkEvent) (w : World) (b : Bool) (h' : JackLinuxFutex) (w' : World)
      (rest : List ParkEvent),
      w.maps h.fFutex = some o →
      waitLoop h t w env = Outcome.returned b h' w' rest →
      h' = h ∧ w'.maps = w.maps ∧ w'.log = w.log ∧ ∃ used, env = used ++ rest ∧
        w'.trace = w.trace ++ List.replicate used.length (parkCall h t) ∧
        w'.clock = w.clock + elapsedSum used ∧
        ((b = true ∧ (∀ ev ∈ used, ev.ret.hard = false) ∧
            ∃ wPre, wPre.word o = 1 ∧ compareAndSwap wPre h.fFutex 1 0 = some (true, w')) ∨
         (b = false ∧ ∃ pre ev, used = pre ++ [ev] ∧ (∀ x ∈ pre, x.ret.hard = false) ∧
            ev.ret.hard = true ∧ ev.ret = ParkRet.failed w'.errno)) := by
  intro env
  induction env with
  | nil =>
    intro w b h' w' rest hm hr
    by_cases hv : w.word o = 1
    · rw [waitLoop_pending h t w o [] hm hv] at hr
      injection hr with e1 e2 e3 e4
      subst e1 e2 e3 e4
      refine ⟨rfl, rfl, rfl, [], rfl, by simp, by simp [elapsedSum], Or.inl ⟨rfl, by simp, w, hv, ?_⟩⟩
      exact cas_hit w h.fFutex o 1 0 hm hv
    · rw [waitLoop_nil_miss h t w o hm hv] at hr
      cases hr
  | cons ev env ih =>
    intro w b h' w' rest hm hr
    by_cases hv : w.word o = 1
    · rw [waitLoop_pending h t w o (ev :: env) hm hv] at hr
      injection hr with e1 e2 e3 e4
      subst e1 e2 e3 e4
      refine ⟨rfl, rfl, rfl, [], rfl, by simp, by simp [elapsedSum], Or.inl ⟨rfl, by simp, w, hv, ?_⟩⟩
      exact cas_hit w h.fFutex o 1 0 hm hv
    · cases hh : ev.ret.hard with
      | true =>
        rw [waitLoop_cons_hard h t w o ev env hm hv hh] at hr
        injection hr with e1 e2 e3 e4
        subst e1 e2 e3 e4
        refine ⟨rfl, futexWaitReturn_maps _ _ _ _ _ _, futexWaitReturn_log _ _ _ _ _ _, [ev], rfl,
          ?_, ?_, Or.inr ⟨rfl, [], ev, rfl, by simp, hh, ?_⟩⟩
        · simp [futexWaitReturn_trace, parkCall]
        · simp [futexWaitReturn_clock, elapsedSum]
        · cases he : ev.ret with
          | woke => rw [he] at hh; simp [ParkRet.hard] at hh
          | failed e => rw [futexWaitReturn_errno _ _ _ _ _ _ e he]
      | false =>
        rw [waitLoop_cons_benign h t w o ev env hm hv hh] at hr
        have hm2 : (futexWaitReturn w h.fFutex h.fPrivate 0 t ev).2.maps h.fFutex = some o := by
          rw [futexWaitReturn_maps]; exact hm
        obtain ⟨e1, e2, e3, used, hu, ht, hc, hcase⟩ := ih _ b h' w' rest hm2 hr
        refine ⟨e1, ?_, ?_, ev :: used, by simp [hu], ?_, ?_, ?_⟩
        · rw [e2, futexWaitReturn_maps]
        · rw [e3, futexWaitReturn_log]
        · rw [ht, futexWaitReturn_trace]
          simp [List.replicate_succ, parkCall]
        · rw [hc, futexWaitReturn_clock]
          simp [elapsedSum, Nat.add_assoc]
        · rcases hcase with ⟨hb, hall, hw⟩ | ⟨hb, pre, x, hpre, hall, hx, herr⟩
          · refine Or.inl ⟨hb, ?_, hw⟩
            intro y hy
            rcases List.mem_cons.mp hy with rfl | hy
            · exact hh
            · exact hall y hy
          · refine Or.inr ⟨hb, ev :: pre, x, by simp [hpre], ?_, hx, herr⟩
            intro y hy
            rcases List.mem_cons.mp hy with rfl | hy
            · exact hh
            · exact hall y hy

/-- The wait loop on a mapped word never faults, and what it has issued so far
extends the trace it started from. -/
theorem waitLoop_trace (h : JackLinuxFutex) (t : Option Timespec) (o : Nat) :
    ∀ (env : List ParkEvent) (w : World), w.maps h.fFutex = some o →
      ∃ more, (waitLoop h t w env).trace? = some (w.trace ++ more) := by
  intro env
  induction env with
  | nil =>
    intro w hm
    by_cases hv : w.word o = 1
    · rw [waitLoop_pending h t w o [] hm hv]
      exact ⟨[], by simp [Outcome.trace?, Outcome.world?]⟩
    · rw [waitLoop_nil_miss h t w o hm hv]
      exact ⟨[parkCall h t], by simp [Outcome.trace?, Outcome.world?]⟩
  | cons ev env ih =>
    intro w hm
    by_cases hv : w.word o = 1
    · rw [waitLoop_pending h t w o (ev :: env) hm hv]
      exact ⟨[], by simp [Outcome.trace?, Outcome.world?]⟩
    · cases hh : ev.ret.hard with
      | true =>
        rw [waitLoop_cons_hard h t w o ev env hm hv hh]
        exact ⟨[parkCall h t], by simp [Outcome.trace?, Outcome.world?, futexWaitReturn_trace, parkCall]⟩
      | false =>
        rw [waitLoop_cons_benign h t w o ev env hm hv hh]
        have hm2 : (futexWaitReturn w h.fFutex h.fPrivate 0 t ev).2.maps h.fFutex = some o := by
          rw [futexWaitReturn_maps]; exact hm
        obtain ⟨more, hmore⟩ := ih _ hm2
        refine ⟨parkCall h t :: more, ?_⟩
        rw [hmore, futexWaitReturn_trace]
        simp [parkCall]

theorem cas_true_inv (w w' : World) (p : Nat) (a b : Int)
    (hc : compareAndSwap w p a b = some (true, w')) :
    ∃ o, w.maps p = some o ∧ w.word o = a ∧ w' = w.store o b := by
  unfold compareAndSwap at hc
  cases hm : w.maps p with
  | none => simp [hm] at hc
  | some o =>
    simp only [hm] at hc
    by_cases hv : w.word o = a
    · simp only [hv, if_true, Option.some.injEq, Prod.mk.injEq, true_and] at hc
      exact ⟨o, rfl, hv, hc.symm⟩
    · simp [hv] at hc

/-- A wait loop that finds the word different from 1 issues a park call next. -/
theorem waitLoop_miss_trace (h : JackLinuxFutex) (t : Option Timespec) (o : Nat)
    (env : List ParkEvent) (w : World) (hm : w.maps h.fFutex = some o) (hv : w.word o ≠ 1) :
    ∃ more, (waitLoop h t w env).trace? = some (w.trace ++ parkCall h t :: more) := by
  cases env with
  | nil =>
    rw [waitLoop_nil_miss h t w o hm hv]
    exact ⟨[], by simp [Outcome.trace?, Outcome.world?]⟩
  | cons ev env =>
    cases hh : ev.ret.hard with
    | true =>
      rw [waitLoop_cons_hard h t w o ev env hm hv hh]
      exact ⟨[], by simp [Outcome.trace?, Outcome.world?, futexWaitReturn_trace, parkCall]⟩
    | false =>
      rw [waitLoop_cons_benign h t w o ev env hm hv hh]
      have hm2 : (futexWaitReturn w h.fFutex h.fPrivate 0 t ev).2.maps h.fFutex = some o := by
        rw [futexWaitReturn_maps]; exact hm
      obtain ⟨more, hmore⟩ := waitLoop_trace h t o env _ hm2
      refine ⟨more, ?_⟩
      rw [hmore, futexWaitReturn_trace]
      simp [parkCall]

theorem signal_pending (h : JackLinuxFutex) (w : World) (o : Nat) (a : Attached h w o)
    (nf : h.fFlush = false) (hv : w.word o ≠ 0) : Signal h w = some (true, h, w) := by
  obtain ⟨hn, hm⟩ := a
  simp [Signal, hn, nf, cas_miss w h.fFutex o 0 1 hm hv]

theorem signal_idle (h : JackLinuxFutex) (w : World) (o : Nat) (a : Attached h w o)
    (nf : h.fFlush = false) (hv : w.word o = 0) :
    Signal h w =
      some (true, h, (w.store o 1).issue (KCall.futexWake h.fFutex h.fPrivate 1)) := by
  obtain ⟨hn, hm⟩ := a
  simp [Signal, hn, nf, cas_hit w h.fFutex o 0 1 hm hv]

/-- A stretch of park calls that all come back benign while nobody writes the
word is spent re-parking: the loop goes on with the rest of the events. -/
theorem waitLoop_quiet_prefix (h : JackLinuxFutex) (t : Option Timespec) (o : Nat)
    (tail : List ParkEvent) :
    ∀ (pre : List ParkEvent) (w : World), w.maps h.fFutex = some o → w.word o ≠ 1 →
      (∀ x ∈ pre, x.ret.hard = false ∧ x.interfere = none) →
      ∃ w2, waitLoop h t w (pre ++ tail) = waitLoop h t w2 tail ∧ w2.maps = w.maps ∧
        w2.word o = w.word o ∧
        w2.trace = w.trace ++ List.replicate pre.length (parkCall h t) ∧
        w2.clock = w.clock + elapsedSum pre := by
  intro pre
  induction pre with
  | nil =>
    intro w _ _ _
    exact ⟨w, rfl, rfl, rfl, by simp, by simp [elapsedSum]⟩
  | cons ev pre ih =>
    intro w hm hv hq
    have hev := hq ev (List.mem_cons_self _ _)
    have hm2 : (futexWaitReturn w h.fFutex h.fPrivate 0 t ev).2.maps h.fFutex = some o := by
      rw [futexWaitReturn_maps]; exact hm
    have hw2 : (futexWaitReturn w h.fFutex h.fPrivate 0 t ev).2.word o = w.word o := by
      rw [futexWaitReturn_word w h.fFutex o h.fPrivate 0 t ev hm, hev.2]; rfl
    obtain ⟨w2, e1, e2, e3, e4, e5⟩ := ih _ hm2 (by rw [hw2]; exact hv)
      (fun x hx => hq x (List.mem_cons_of_mem _ hx))
    refine ⟨w2, ?_, ?_, ?_, ?_, ?_⟩
    · rw [List.cons_append, waitLoop_cons_benign h t w o ev _ hm hv hev.1]
      exact e1
    · rw [e2, futexWaitReturn_maps]
    · rw [e3, hw2]
    · rw [e4, futexWaitReturn_trace]
      simp [List.replicate_succ, parkCall]
    · rw [e5, futexWaitReturn_clock]
      simp [elapsedSum, Nat.add_assoc]

/-- For a timeout within the range of the 32-bit seconds the `timespec` of
lines 94-97 denotes exactly `usec` microseconds. -/
theorem timeoutOf_toNanos (usec : Int) (r0 : 0 ≤ usec) (r1 : usec < 4294967296 * 1000000) :
    (timeoutOf usec).toNanos = usec * 1000 := by
  unfold timeoutOf Timespec.toNanos toUInt32 toInt32
  simp only [Int.tdiv_eq_ediv r0 (by decide : (0 : Int) ≤ 1000000),
    Int.tmod_eq_emod r0 (by decide : (0 : Int) ≤ 1000000)]
  have q0 : 0 ≤ usec / 1000000 := by omega
  have q1 : usec / 1000000 < 4294967296 := by omega
  have m0 : 0 ≤ usec % 1000000 := by omega
  have m1 : usec % 1000000 < 1000000 := by omega
  rw [Int.emod_eq_of_lt q0 q1,
    Int.emod_eq_of_lt (by omega : 0 ≤ usec % 1000000 * 1000 + 2147483648) (by omega)]
  omega

/-! ## The race seen through its view -/

theorem futexKey_congr (w1 w2 : World) (p : Nat) (b : Bool) (e : w1.maps = w2.maps) :
    futexKey w1 p b = futexKey w2 p b := by
  simp [futexKey, e]

/-- Each step of the race is the step of its view, and leaves the mappings
alone. -/
theorem race_step_view (hW hS : JackLinuxFutex) (o : Nat) (nW : hW.fFutex ≠ NULL)
    (nS : hS.fFutex ≠ NULL) (nf : hS.fFlush = false) (st : Race)
    (mW : st.w.maps hW.fFutex = some o) (mS : st.w.maps hS.fFutex = some o)
    (key : futexKey st.w hS.fFutex hS.fPrivate = futexKey st.w hW.fFutex hW.fPrivate)
    (a : Actor) :
    (st.step hW hS a).view o = (st.view o).step a ∧ (st.step hW hS a).w.maps = st.w.maps := by
  obtain ⟨w, wp, sp⟩ := st
  simp only at mW mS key
  cases a with
  | waiter =>
    cases wp with
    | entry => simp [Race.step, stepWaiter, nW, Race.view, RaceView.step]
    | atCas =>
      by_cases hv : w.word o = 1
      · simp [Race.step, stepWaiter, Race.view, RaceView.step, cas_hit w hW.fFutex o 1 0 mW hv, hv]
      · simp [Race.step, stepWaiter, Race.view, RaceView.step, cas_miss w hW.fFutex o 1 0 mW hv, hv]
    | atPark =>
      by_cases hv : w.word o = 0
      · simp [Race.step, stepWaiter, Race.view, RaceView.step, World.deref, mW, hv,
          wakeCount_append, wakeCount, parkCall]
      · have ht := futexWaitReturn_test w hW.fFutex hW.fPrivate 0 none
          { ret := ParkRet.failed EWOULDBLOCK, interfere := none, elapsed := 0 }
        have hh : (ParkRet.failed EWOULDBLOCK).hard = false := by decide
        simp only [hh] at ht
        simp [Race.step, stepWaiter, Race.view, RaceView.step, World.deref, mW, hv, parkReturns,
          ht, futexWaitReturn_maps, futexWaitReturn_trace, wakeCount_append, wakeCount,
          futexWaitReturn_word w hW.fFutex o hW.fPrivate 0 none _ mW]
    | parked => simp [Race.step, stepWaiter, Race.view, RaceView.step]
    | returned b => simp [Race.step, stepWaiter, Race.view, RaceView.step]
    | faulted => simp [Race.step, stepWaiter, Race.view, RaceView.step]
  | signaler =>
    cases sp with
    | entry => simp [Race.step, stepSignaler, nS, nf, Race.view, RaceView.step]
    | atCas =>
      by_cases hv : w.word o = 0
      · simp [Race.step, stepSignaler, Race.view, RaceView.step, cas_hit w hS.fFutex o 0 1 mS hv, hv]
      · simp [Race.step, stepSignaler, Race.view, RaceView.step, cas_miss w hS.fFutex o 0 1 mS hv, hv]
    | atWake =>
      cases wp <;>
        simp [Race.step, stepSignaler, Race.view, RaceView.step, key, wakeSleeper,
          wakeCount_append, wakeCount]
    | returned b => simp [Race.step, stepSignaler, Race.view, RaceView.step]
    | faulted => simp [Race.step, stepSignaler, Race.view, RaceView.step]
  | kernel =>
    cases wp <;> simp [Race.step, wakeSleeper, Race.view, RaceView.step]

/-- The race along a schedule is the run of its view. -/
theorem race_run_view (hW hS : JackLinuxFutex) (o : Nat) (nW : hW.fFutex ≠ NULL)
    (nS : hS.fFutex ≠ NULL) (nf : hS.fFlush = false) :
    ∀ (sched : List Actor) (st : Race), st.w.maps hW.fFutex = some o →
      st.w.maps hS.fFutex = some o →
      futexKey st.w hS.fFutex hS.fPrivate = futexKey st.w hW.fFutex hW.fPrivate →
      (st.run hW hS sched).view o = (st.view o).run sched ∧
      (st.run hW hS sched).w.maps = st.w.maps := by
  intro sched
  induction sched with
  | nil => intro st _ _ _; exact ⟨rfl, rfl⟩
  | cons a sched ih =>
    intro st mW mS key
    obtain ⟨e1, e2⟩ := race_step_view hW hS o nW nS nf st mW mS key a
    have key2 : futexKey (st.step hW hS a).w hS.fFutex hS.fPrivate =
        futexKey (st.step hW hS a).w hW.fFutex hW.fPrivate := by
      rw [futexKey_congr _ st.w _ _ e2, futexKey_congr _ st.w _ _ e2]; exact key
    obtain ⟨e3, e4⟩ := ih (st.step hW hS a) (by rw [e2]; exact mW) (by rw [e2]; exact mS) key2
    refine ⟨?_, ?_⟩
    · simp only [Race.run, RaceView.run, List.foldl_cons] at e3 ⊢
      rw [e3, e1]
    · simp only [Race.run, List.foldl_cons] at e4 ⊢
      rw [e4, e2]

theorem view_ok_step (k : Nat) (v : RaceView) (a : Actor) (h : v.ok k) : (v.step a).ok k := by
  obtain ⟨sp, wp, x, n⟩ := v
  cases a <;> rcases sp with _ | _ | _ | ⟨_ | _⟩ | _ <;>
    rcases wp with _ | _ | _ | _ | ⟨_ | _⟩ | _ <;>
    simp only [RaceView.ok, RaceView.step, WaitPc.awake] at h ⊢ <;>
    (try split_ifs) <;> simp_all

theorem view_ok_run (k : Nat) : ∀ (sched : List Actor) (v : RaceView), v.ok k →
    (v.run sched).ok k := by
  intro sched
  induction sched with
  | nil => intro v h; exact h
  | cons a sched ih =>
    intro v h
    exact ih (v.step a) (view_ok_step k v a h)

theorem turns_cons (a b : Actor) (sched : List Actor) :
    turns a (b :: sched) = turns a sched + if b = a then 1 else 0 := by
  simp only [turns, List.count_cons, beq_iff_eq]

/-- Every turn of the signalling thread brings it one step nearer to its
return, and nobody else moves it. -/
theorem view_signaler_step (v : RaceView) (a : Actor) :
    (v.step a).signaler.todo ≤ v.signaler.todo - if a = Actor.signaler then 1 else 0 := by
  obtain ⟨sp, wp, x, n⟩ := v
  cases a <;> rcases sp with _ | _ | _ | ⟨_ | _⟩ | _ <;>
    rcases wp with _ | _ | _ | _ | ⟨_ | _⟩ | _ <;>
    simp only [RaceView.step, SignalPc.todo] <;>
    (try split_ifs) <;> simp_all [SignalPc.todo]

theorem view_signaler_run : ∀ (sched : List Actor) (v : RaceView),
    (v.run sched).signaler.todo ≤ v.signaler.todo - turns Actor.signaler sched := by
  intro sched
  induction sched with
  | nil => intro v; simp [RaceView.run, turns]
  | cons a sched ih =>
    intro v
    have h1 := ih (v.step a)
    have h2 := view_signaler_step v a
    rw [turns_cons]
    simp only [RaceView.run, List.foldl_cons] at h1 ⊢
    omega

/-- Once the signal is out, every turn of the waiting thread brings it one step
nearer to its return. -/
theorem view_waiter_step (k : Nat) (v : RaceView) (a : Actor) (h : v.ok k)
    (hs : v.signaler = SignalPc.returned true) :
    (v.step a).signaler = SignalPc.returned true ∧
    (v.step a).waiter.todo ≤ v.waiter.todo - if a = Actor.waiter then 1 else 0 := by
  obtain ⟨sp, wp, x, n⟩ := v
  simp only at hs
  subst hs
  cases a <;> rcases wp with _ | _ | _ | _ | ⟨_ | _⟩ | _ <;>
    simp [RaceView.ok, RaceView.step, WaitPc.awake, WaitPc.todo] at h ⊢ <;>
    (try split_ifs) <;> simp_all [WaitPc.todo]

theorem view_waiter_run (k : Nat) : ∀ (sched : List Actor) (v : RaceView), v.ok k →
    v.signaler = SignalPc.returned true →
    (v.run sched).waiter.todo ≤ v.waiter.todo - turns Actor.waiter sched := by
  intro sched
  induction sched with
  | nil => intro v _ _; simp [RaceView.run, turns]
  | cons a sched ih =>
    intro v h hs
    obtain ⟨h2, h3⟩ := view_waiter_step k v a h hs
    have h1 := ih (v.step a) (view_ok_step k v a h) h2
    rw [turns_cons]
    simp only [RaceView.run, List.foldl_cons] at h1 ⊢
    omega

theorem view_run_append (v : RaceView) (s1 s2 : List Actor) :
    v.run (s1 ++ s2) = (v.run s1).run s2 := by
  simp [RaceView.run, List.foldl_append]

/-- In the view: after three turns of the signalling thread and then two turns
of the waiting thread, `Wait` has returned true. -/
theorem view_wait_returns (k : Nat) (v : RaceView) (s1 s2 : List Actor) (h : v.ok k)
    (t1 : 3 ≤ turns Actor.signaler s1) (t2 : 2 ≤ turns Actor.waiter s2) :
    (v.run (s1 ++ s2)).waiter = WaitPc.returned true := by
  rw [view_run_append]
  have ok1 := view_ok_run k s1 v h
  have sg := view_signaler_run s1 v
  have sg0 : (v.run s1).signaler.todo = 0 := by
    have : v.signaler.todo ≤ 3 := by cases v.signaler <;> simp [SignalPc.todo]
    omega
  have hs : (v.run s1).signaler = SignalPc.returned true := by
    generalize v.run s1 = u at ok1 sg0
    obtain ⟨sp, wp, x, n⟩ := u
    rcases sp with _ | _ | _ | ⟨_ | _⟩ | _ <;> simp_all [SignalPc.todo, RaceView.ok]
  have ok2 := view_ok_run k s2 _ ok1
  have wt := view_waiter_run k s2 _ ok1 hs
  have hs2 : ((v.run s1).run s2).signaler = SignalPc.returned true := by
    have : ∀ (s : List Actor) (u : RaceView), u.ok k → u.signaler = SignalPc.returned true →
        (u.run s).signaler = SignalPc.returned true := by
      intro s
      induction s with
      | nil => intro u _ hu; exact hu
      | cons a s ih =>
        intro u hk hu
        exact ih (u.step a) (view_ok_step k u a hk) (view_waiter_step k u a hk hu).1
    exact this s2 _ ok1 hs
  have wt0 : ((v.run s1).run s2).waiter.todo = 0 := by
    have : (v.run s1).waiter.todo ≤ 2 := by cases (v.run s1).waiter <;> simp [WaitPc.todo]
    omega
  generalize (v.run s1).run s2 = u at ok2 hs2 wt0
  obtain ⟨sp, wp, x, n⟩ := u
  simp only at hs2
  subst hs2
  rcases wp with _ | _ | _ | _ | ⟨_ | _⟩ | _ <;>
    simp_all [WaitPc.todo, RaceView.ok, WaitPc.awake]

/-! ## Decimal numbers and names -/

theorem digitOf_ne_underscore (d : Nat) (h : d < 10) : digitOf d ≠ '_' := by
  unfold digitOf
  interval_cases d <;> decide

theorem digitOf_ne_minus (d : Nat) (h : d < 10) : digitOf d ≠ '-' := by
  unfold digitOf
  interval_cases d <;> decide

theorem digitVal_digitOf (d : Nat) (h : d < 10) : digitVal (digitOf d) = d := by
  unfold digitVal digitOf
  interval_cases d <;> rfl

theorem digitsFuel_chars : ∀ (fuel n : Nat) (c : Char), c ∈ digitsFuel fuel n →
    ∃ d, d < 10 ∧ c = digitOf d := by
  intro fuel
  induction fuel with
  | zero => intro n c hc; simp [digitsFuel] at hc
  | succ fuel ih =>
    intro n c hc
    unfold digitsFuel at hc
    by_cases hn : n < 10
    · simp only [hn, if_true, List.mem_singleton] at hc
      exact ⟨n, hn, hc⟩
    · simp only [hn, if_false, List.mem_append, List.mem_singleton] at hc
      rcases hc with hc | hc
      · exact ih _ c hc
      · exact ⟨n % 10, Nat.mod_lt _ (by decide), hc⟩

theorem parseNat_snoc (l : List Char) (c : Char) :
    parseNat (l ++ [c]) = parseNat l * 10 + digitVal c := by
  simp [parseNat, List.foldl_append]

theorem parseNat_digitsFuel : ∀ (fuel n : Nat), n < fuel → parseNat (digitsFuel fuel n) = n := by
  intro fuel
  induction fuel with
  | zero => intro n h; omega
  | succ fuel ih =>
    intro n h
    unfold digitsFuel
    by_cases hn : n < 10
    · simp only [hn, if_true]
      simp [parseNat, digitVal_digitOf n hn]
    · simp only [hn, if_false]
      rw [parseNat_snoc, ih (n / 10) (by omega), digitVal_digitOf _ (Nat.mod_lt _ (by decide))]
      omega

theorem formatNat_injective (a b : Nat) (h : formatNat a = formatNat b) : a = b := by
  have ha := parseNat_digitsFuel (a + 1) a (by omega)
  have hb := parseNat_digitsFuel (b + 1) b (by omega)
  unfold formatNat at h
  rw [h, hb] at ha
  exact ha.symm

theorem formatNat_ne_nil (n : Nat) : formatNat n ≠ [] := by
  unfold formatNat digitsFuel
  by_cases hn : n < 10 <;> simp [hn]

theorem formatNat_chars (n : Nat) (c : Char) (hc : c ∈ formatNat n) :
    ∃ d, d < 10 ∧ c = digitOf d :=
  digitsFuel_chars _ _ c hc

theorem formatNat_head_ne_minus (n : Nat) (t : List Char) : formatNat n ≠ '-' :: t := by
  intro h
  obtain ⟨d, hd, hc⟩ := formatNat_chars n '-' (by rw [h]; exact List.mem_cons_self _ _)
  exact digitOf_ne_minus d hd hc.symm

theorem formatInt_injective (a b : Int) (h : formatInt a = formatInt b) : a = b := by
  cases a with
  | ofNat m =>
    cases b with
    | ofNat n => rw [formatNat_injective m n h]
    | negSucc n => exact absurd h (formatNat_head_ne_minus m _)
  | negSucc m =>
    cases b with
    | ofNat n => exact absurd h.symm (formatNat_head_ne_minus n _)
    | negSucc n =>
      have h1 : formatNat (m + 1) = formatNat (n + 1) := by
        simpa [formatInt] using h
      have h2 := formatNat_injective _ _ h1
      have h3 : m = n := by omega
      rw [h3]

theorem formatInt_no_underscore (a : Int) : '_' ∉ formatInt a := by
  intro h
  cases a with
  | ofNat m =>
    obtain ⟨d, hd, hc⟩ := formatNat_chars m '_' h
    exact digitOf_ne_underscore d hd hc.symm
  | negSucc m =>
    simp only [formatInt, List.mem_cons] at h
    rcases h with h | h
    · exact absurd h (by decide)
    · obtain ⟨d, hd, hc⟩ := formatNat_chars _ '_' h
      exact digitOf_ne_underscore d hd hc.symm

/-- Two texts cut at the first separator: equal texts have equal parts. -/
theorem sep_split (c : Char) : ∀ (a b x y : List Char), c ∉ a → c ∉ b →
    a ++ c :: x = b ++ c :: y → a = b ∧ x = y := by
  intro a
  induction a with
  | nil =>
    intro b x y _ hb h
    cases b with
    | nil => simpa using h
    | cons d b =>
      simp only [List.nil_append, List.cons_append, List.cons.injEq] at h
      exact absurd (List.mem_cons.mpr (Or.inl h.1)) hb
  | cons e a ih =>
    intro b x y ha hb h
    cases b with
    | nil =>
      simp only [List.nil_append, List.cons_append, List.cons.injEq] at h
      exact absurd (List.mem_cons.mpr (Or.inl h.1.symm)) ha
    | cons d b =>
      simp only [List.cons_append, List.cons.injEq] at h
      obtain ⟨e1, e2⟩ := ih b x y (fun hm => ha (List.mem_cons_of_mem _ hm))
        (fun hm => hb (List.mem_cons_of_mem _ hm)) h.2
      exact ⟨by rw [h.1, e1], e2⟩

/-- Two texts cut to `m` characters, each long enough to show its part before
the first separator: equal cuts have equal first parts. -/
theorem sep_split_take (c : Char) : ∀ (a b x y : List Char) (m : Nat), c ∉ a → c ∉ b →
    a.length ≤ m → b.length ≤ m →
    (a ++ c :: x).take m = (b ++ c :: y).take m → a = b := by
  intro a
  induction a with
  | nil =>
    intro b x y m _ hb _ hbl h
    cases b with
    | nil => rfl
    | cons d b =>
      obtain ⟨k, rfl⟩ : ∃ k, m = k + 1 := ⟨m - 1, by simp at hbl; omega⟩
      simp only [List.nil_append, List.cons_append, List.take_succ_cons, List.cons.injEq] at h
      exact absurd (List.mem_cons.mpr (Or.inl h.1)) hb
  | cons e a ih =>
    intro b x y m ha hb hal hbl h
    obtain ⟨k, rfl⟩ : ∃ k, m = k + 1 := ⟨m - 1, by simp at hal; omega⟩
    cases b with
    | nil =>
      simp only [List.nil_append, List.cons_append, List.take_succ_cons, List.cons.injEq] at h
      exact absurd (List.mem_cons.mpr (Or.inl h.1.symm)) ha
    | cons d b =>
      simp only [List.cons_append, List.take_succ_cons, List.cons.injEq] at h
      have e1 := ih b x y k (fun hm => ha (List.mem_cons_of_mem _ hm))
        (fun hm => hb (List.mem_cons_of_mem _ hm)) (by simp at hal; omega)
        (by simp at hbl; omega) h.2
      rw [h.1, e1]

theorem take_lead (p l : List Char) (n : Nat) (h : p.length ≤ n) :
    (p ++ l).take n = p ++ l.take (n - p.length) := by
  rw [List.take_append_eq_append_take, List.take_of_length_le h]

/-- `BuildName` cuts the formatted text to the buffer. -/
theorem buildName_eq (cfg : NameCfg) (client server res : List Char) (size : Nat) :
    BuildName cfg client server res size = snprintf res size (fullName cfg client server) := by
  unfold BuildName fullName
  cases cfg.promiscuous <;> simp [List.append_assoc]

theorem buildName_pos (cfg : NameCfg) (client server res : List Char) (size : Nat)
    (pos : 0 < size) :
    BuildName cfg client server res size = (fullName cfg client server).take (size - 1) := by
  rw [buildName_eq, snprintf, if_neg (by omega)]

/-! ## The system calls of the lifecycle -/

@[simp] theorem store_names (w : World) (o : Nat) (v : Int) : (w.store o v).names = w.names := rfl
@[simp] theorem store_fds (w : World) (o : Nat) (v : Int) : (w.store o v).fds = w.fds := rfl
@[simp] theorem store_size (w : World) (o : Nat) (v : Int) : (w.store o v).size = w.size := rfl

theorem shm_open_err (w : World) (n : List Char) (c : Bool) (e : Nat) :
    shm_open w n c (SysAnswer.err e) = (-1, { w with errno := e }) := rfl

theorem shm_open_absent (w : World) (n : List Char) (fd : Nat) (hn : w.names n = none) :
    shm_open w n false (SysAnswer.ok fd) = (-1, { w with errno := ENOENT }) := by
  simp [shm_open, hn]

theorem shm_open_existing (w : World) (n : List Char) (c : Bool) (fd o : Nat)
    (hn : w.names n = some o) :
    shm_open w n c (SysAnswer.ok fd) =
      ((fd : Int), { w with fds := fun x => if x = (fd : Int) then some o else w.fds x }) := by
  simp [shm_open, hn]

theorem shm_open_creat_ok (w : World) (n : List Char) (fd : Nat) :
    (shm_open w n true (SysAnswer.ok fd)).1 = (fd : Int) ∧
    (shm_open w n true (SysAnswer.ok fd)).2.maps = w.maps ∧
    ∃ o, (shm_open w n true (SysAnswer.ok fd)).2.names n = some o ∧
      (shm_open w n true (SysAnswer.ok fd)).2.fds (fd : Int) = some o ∧
      (∀ o0, w.names n = some o0 → o = o0) ∧
      (w.names n = none → (shm_open w n true (SysAnswer.ok fd)).2.size o = 0) ∧
      (∀ o0, w.names n = some o0 → (shm_open w n true (SysAnswer.ok fd)).2.size o = w.size o0) := by
  unfold shm_open
  cases hn : w.names n with
  | none => simp
  | some o => simp [hn]

theorem ftruncate_frame (w : World) (fd : Int) (len : Nat) (ans : SysAnswer) :
    (ftruncate w fd len ans).2.maps = w.maps ∧ (ftruncate w fd len ans).2.names = w.names ∧
    (ftruncate w fd len ans).2.fds = w.fds := by
  unfold ftruncate
  cases ans <;> cases w.fds fd <;> simp

theorem ftruncate_err (w : World) (fd : Int) (len e : Nat) :
    ftruncate w fd len (SysAnswer.err e) = (-1, { w with errno := e }) := rfl

theorem ftruncate_ok_size (w : World) (fd : Int) (len x o : Nat) (hf : w.fds fd = some o) :
    (ftruncate w fd len (SysAnswer.ok x)).2.size o = len := by
  simp [ftruncate, hf]

theorem mmap_err (w : World) (fd : Int) (e : Nat) :
    mmap w fd (SysAnswer.err e) = (MAP_FAILED, { w with errno := e }) := rfl

theorem mmap_ok (w : World) (fd : Int) (a o : Nat) (hf : w.fds fd = some o) :
    mmap w fd (SysAnswer.ok a) =
      (a, { w with maps := fun x =>
              if x = a then (if sizeofInt ≤ w.size o then some o else none) else w.maps x }) := by
  simp [mmap, hf]

/-! ## The lifecycle methods -/

/-- What is known when `Allocate` returns true. -/
theorem allocate_true_inv (cfg : NameCfg) (h h' : JackLinuxFutex) (name server : List Char)
    (value : Int) (w w' : World) (ans : SysAnswers) (wf : w.maps MAP_FAILED = none)
    (r : Allocate cfg h name server value w ans = some (true, h', w')) :
    h'.fName = BuildName cfg name server h.fName cfg.nameSize ∧ h'.fFutex ≠ NULL ∧
    h'.fPrivate = h.fPrivate ∧ h'.fFlush = h.fFlush ∧
    ∃ o, w'.names h'.fName = some o ∧ w'.maps h'.fFutex = some o ∧
      w'.fds h'.fSharedMem = some o ∧ w'.word o = value ∧ sizeofInt ≤ w'.size o ∧
      (∀ o0, w.names (BuildName cfg name server h.fName cfg.nameSize) = some o0 → o = o0) := by
  obtain ⟨a1, a2, a3⟩ := ans
  unfold Allocate at r
  simp only at r
  cases a1 with
  | err e => simp [shm_open] at r
  | ok fd =>
    obtain ⟨e1, m1, o, n1, f1, u1, _, _⟩ :=
      shm_open_creat_ok w (BuildName cfg name server h.fName cfg.nameSize) fd
    rw [e1] at r
    generalize (shm_open w (BuildName cfg name server h.fName cfg.nameSize) true
      (SysAnswer.ok fd)).2 = W1 at r m1 n1 f1
    obtain ⟨m2, n2, f2⟩ := ftruncate_frame W1 (fd : Int) sizeofInt a2
    generalize (ftruncate W1 (fd : Int) sizeofInt a2).2 = W2 at r m2 n2 f2
    have nn : ¬ ((fd : Int) < 0) := by omega
    simp only [nn, if_false] at r
    cases a3 with
    | err e =>
      rw [mmap_err] at r
      have hm : W2.maps MAP_FAILED = none := by rw [m2, m1]; exact wf
      have hne : MAP_FAILED ≠ NULL := by decide
      simp [hne, hm] at r
    | ok a =>
      rw [mmap_ok W2 (fd : Int) a o (by rw [f2]; exact f1)] at r
      by_cases ha : a = NULL
      · simp [ha] at r
      · by_cases hs : sizeofInt ≤ W2.size o
        · simp only [ha, if_false, if_true, hs] at r
          injection r with r
          injection r with _ r
          injection r with r1 r2
          subst r1 r2
          refine ⟨rfl, ha, rfl, rfl, o, ?_, ?_, ?_, ?_, ?_, u1⟩
          · simp only [store_names]
            rw [n2]; exact n1
          · simp
          · simp only [store_fds]
            rw [f2]; exact f1
          · simp
          · simpa using hs
        · simp [ha, hs] at r

/-- `Allocate` returns true when `shm_open` and `mmap` succeed and the object
holds an `int` at the time it is mapped. -/
theorem allocate_returns_true (cfg : NameCfg) (h : JackLinuxFutex) (name server : List Char)
    (value : Int) (w : World) (fd a : Nat) (a2 : SysAnswer) (ha : a ≠ NULL)
    (sized : (∃ x, a2 = SysAnswer.ok x) ∨
      ∃ o0, w.names (BuildName cfg name server h.fName cfg.nameSize) = some o0 ∧
        sizeofInt ≤ w.size o0) :
    ∃ h' w', Allocate cfg h name server value w
      { shmOpen := SysAnswer.ok fd, ftruncate := a2, mmap := SysAnswer.ok a } =
        some (true, h', w') := by
  unfold Allocate
  simp only
  obtain ⟨e1, _, o, _, f1, u1, _, z2⟩ :=
    shm_open_creat_ok w (BuildName cfg name server h.fName cfg.nameSize) fd
  rw [e1]
  generalize (shm_open w (BuildName cfg name server h.fName cfg.nameSize) true
    (SysAnswer.ok fd)).2 = W1 at f1 z2
  have nn : ¬ ((fd : Int) < 0) := by omega
  simp only [nn, if_false]
  have f2 : (ftruncate W1 (fd : Int) sizeofInt a2).2.fds (fd : Int) = some o := by
    rw [(ftruncate_frame W1 (fd : Int) sizeofInt a2).2.2]; exact f1
  have sz : sizeofInt ≤ (ftruncate W1 (fd : Int) sizeofInt a2).2.size o := by
    rcases sized with ⟨x, rfl⟩ | ⟨o0, hn, hs⟩
    · rw [ftruncate_ok_size W1 (fd : Int) sizeofInt x o f1]
    · cases a2 with
      | ok x => rw [ftruncate_ok_size W1 (fd : Int) sizeofInt x o f1]
      | err e =>
        rw [ftruncate_err]
        have : o = o0 := u1 o0 hn
        subst this
        simp only
        rw [z2 o hn]
        exact hs
  rw [mmap_ok _ (fd : Int) a o f2]
  simp [ha, sz]

/-- `Allocate` faults when `mmap` fails: the test of line 122 compares the
pointer with `NULL`, `MAP_FAILED` passes it and is written through. -/
theorem allocate_mmap_failed (cfg : NameCfg) (h : JackLinuxFutex) (name server : List Char)
    (value : Int) (w : World) (fd e : Nat) (a2 : SysAnswer) (wf : w.maps MAP_FAILED = none) :
    Allocate cfg h name server value w
      { shmOpen := SysAnswer.ok fd, ftruncate := a2, mmap := SysAnswer.err e } = none := by
  unfold Allocate
  simp only
  obtain ⟨e1, m1, _⟩ := shm_open_creat_ok w (BuildName cfg name server h.fName cfg.nameSize) fd
  rw [e1]
  generalize (shm_open w (BuildName cfg name server h.fName cfg.nameSize) true
    (SysAnswer.ok fd)).2 = W1 at m1
  have nn : ¬ ((fd : Int) < 0) := by omega
  have hm : (ftruncate W1 (fd : Int) sizeofInt a2).2.maps MAP_FAILED = none := by
    rw [(ftruncate_frame W1 (fd : Int) sizeofInt a2).1, m1]; exact wf
  have hne : MAP_FAILED ≠ NULL := by decide
  simp [nn, mmap_err, hne, hm]

/-- `Connect` on a deallocated handle whose name is published, when `shm_open`
and `mmap` succeed and the object holds an `int`. -/
theorem connect_attaches (cfg : NameCfg) (h : JackLinuxFutex) (name server : List Char)
    (w : World) (fd a o : Nat) (a2 : SysAnswer) (d : h.fFutex = NULL) (ha : a ≠ NULL)
    (hn : w.names (BuildName cfg name server h.fName cfg.nameSize) = some o)
    (hs : sizeofInt ≤ w.size o) :
    ConnectInput cfg h name server w
      { shmOpen := SysAnswer.ok fd, ftruncate := a2, mmap := SysAnswer.ok a } =
      (true,
       { h with fName := BuildName cfg name server h.fName cfg.nameSize,
                fSharedMem := (fd : Int), fFutex := a },
       { w with fds := fun x => if x = (fd : Int) then some o else w.fds x,
                maps := fun x => if x = a then some o else w.maps x }) := by
  unfold ConnectInput
  have nn : ¬ ((fd : Int) < 0) := by omega
  simp only [d, ne_eq, not_true_eq_false, if_false, shm_open_existing w _ false fd o hn, nn]
  rw [mmap_ok _ (fd : Int) a o (by simp)]
  simp [ha, hs]

theorem connect_name (cfg : NameCfg) (h : JackLinuxFutex) (name server : List Char)
    (w : World) (ans : SysAnswers) :
    (ConnectInput cfg h name server w ans).2.1.fName =
      BuildName cfg name server h.fName cfg.nameSize := by
  unfold ConnectInput
  simp only
  split_ifs <;> rfl

theorem allocate_name (cfg : NameCfg) (h h' : JackLinuxFutex) (name server : List Char)
    (value : Int) (w w' : World) (ans : SysAnswers) (b : Bool)
    (r : Allocate cfg h name server value w ans = some (b, h', w')) :
    h'.fName = BuildName cfg name server h.fName cfg.nameSize := by
  unfold Allocate at r
  simp only at r
  split_ifs at r
  · injection r with r
    injection r with _ r
    injection r with r _
    rw [← r]
  · injection r with r
    injection r with _ r
    injection r with r _
    rw [← r]
  · split at r
    · cases r
    · injection r with r
      injection r with _ r
      injection r with r _
      rw [← r]

/-! ## Teardown -/

theorem close_frame (w : World) (fd : Int) :
    (close w fd).names = w.names ∧ (close w fd).word = w.word ∧ (close w fd).size = w.size ∧
    (close w fd).maps = w.maps ∧ (close w fd).trace = w.trace ∧
    ∀ x, x ≠ fd → (close w fd).fds x = w.fds x := by
  unfold close
  cases w.fds fd with
  | none => exact ⟨rfl, rfl, rfl, rfl, rfl, fun _ _ => rfl⟩
  | some o =>
    refine ⟨rfl, rfl, rfl, rfl, rfl, fun x hx => ?_⟩
    simp [hx]

theorem shm_unlink_gone (w : World) (n : List Char) : (shm_unlink w n).names n = none := by
  unfold shm_unlink
  cases hn : w.names n with
  | none => exact hn
  | some o => simp

theorem disconnect_attached (h : JackLinuxFutex) (w : World) (att : h.fFutex ≠ NULL) :
    Disconnect h w =
      (true, { h with fFutex := NULL, fSharedMem := -1 },
        close (munmap w h.fFutex) h.fSharedMem) := by
  simp [Disconnect, att]

theorem destroy_attached (h : JackLinuxFutex) (w : World) (att : h.fFutex ≠ NULL) :
    Destroy h w =
      ({ h with fFutex := NULL, fSharedMem := -1 },
        shm_unlink (close (munmap w h.fFutex) h.fSharedMem) h.fName) := by
  simp [Destroy, att]

/-- `Connect` on a deallocated handle to a name that is not published. -/
theorem connectInput_absent (cfg : NameCfg) (h : JackLinuxFutex) (name server : List Char)
    (w : World) (ans : SysAnswers) (d : h.fFutex = NULL)
    (absent : w.names (BuildName cfg name server h.fName cfg.nameSize) = none) :
    (ConnectInput cfg h name server w ans).1 = false ∧
    (ConnectInput cfg h name server w ans).2.1.fFutex = NULL ∧
    (ConnectInput cfg h name server w ans).2.1.fSharedMem = -1 := by
  obtain ⟨a1, a2, a3⟩ := ans
  cases a1 with
  | err e => simp [ConnectInput, d, shm_open_err]
  | ok fd => simp [ConnectInput, d, shm_open_absent w _ fd absent]

/-! ## The shared word under the operations -/

theorem futexWaitReturn_word_quiet (w : World) (p : Nat) (pr : Bool) (v : Int)
    (t : Option Timespec) (ev : ParkEvent) (q : ev.interfere = none) :
    (futexWaitReturn w p pr v t ev).2.word = w.word := by
  unfold futexWaitReturn World.disturb
  rw [q]
  cases ev.ret <;> cases w.maps p <;> rfl

/-- The wait loop keeps the word of its object among 0 and 1 when the other
processes do. -/
theorem waitLoop_bit (h : JackLinuxFutex) (t : Option Timespec) (o : Nat) :
    ∀ (env : List ParkEvent) (w w' : World), w.maps h.fFutex = some o → isBit (w.word o) →
      (∀ ev ∈ env, ∀ v, ev.interfere = some v → isBit v) →
      (waitLoop h t w env).world? = some w' → isBit (w'.word o) := by
  intro env
  induction env with
  | nil =>
    intro w w' hm hb _ hr
    by_cases hv : w.word o = 1
    · rw [waitLoop_pending h t w o [] hm hv] at hr
      simp only [Outcome.world?, Option.some.injEq] at hr
      rw [← hr]
      exact Or.inl (by simp)
    · rw [waitLoop_nil_miss h t w o hm hv] at hr
      simp only [Outcome.world?, Option.some.injEq] at hr
      rw [← hr]
      exact hb
  | cons ev env ih =>
    intro w w' hm hb hnoise hr
    by_cases hv : w.word o = 1
    · rw [waitLoop_pending h t w o (ev :: env) hm hv] at hr
      simp only [Outcome.world?, Option.some.injEq] at hr
      rw [← hr]
      exact Or.inl (by simp)
    · have hb2 : isBit ((futexWaitReturn w h.fFutex h.fPrivate 0 t ev).2.word o) := by
        rw [futexWaitReturn_word w h.fFutex o h.fPrivate 0 t ev hm]
        cases hi : ev.interfere with
        | none => exact hb
        | some v => exact hnoise ev (List.mem_cons_self _ _) v hi
      cases hh : ev.ret.hard with
      | true =>
        rw [waitLoop_cons_hard h t w o ev env hm hv hh] at hr
        simp only [Outcome.world?, Option.some.injEq] at hr
        rw [← hr]
        exact hb2
      | false =>
        rw [waitLoop_cons_benign h t w o ev env hm hv hh] at hr
        exact ih _ w' (by rw [futexWaitReturn_maps]; exact hm) hb2
          (fun e he => hnoise e (List.mem_cons_of_mem _ he)) hr

/-- While no other process writes, the only write of the wait loop is the
exchange of 1 for 0. -/
theorem waitLoop_only_write (h : JackLinuxFutex) (t : Option Timespec) (o : Nat) :
    ∀ (env : List ParkEvent) (w w' : World), w.maps h.fFutex = some o →
      (∀ ev ∈ env, ev.interfere = none) →
      (waitLoop h t w env).world? = some w' →
      w'.word = w.word ∨ (w.word o = 1 ∧ w'.word = (w.store o 0).word) := by
  intro env
  induction env with
  | nil =>
    intro w w' hm _ hr
    by_cases hv : w.word o = 1
    · rw [waitLoop_pending h t w o [] hm hv] at hr
      simp only [Outcome.world?, Option.some.injEq] at hr
      rw [← hr]
      exact Or.inr ⟨hv, rfl⟩
    · rw [waitLoop_nil_miss h t w o hm hv] at hr
      simp only [Outcome.world?, Option.some.injEq] at hr
      rw [← hr]
      exact Or.inl rfl
  | cons ev env ih =>
    intro w w' hm hq hr
    by_cases hv : w.word o = 1
    · rw [waitLoop_pending h t w o (ev :: env) hm hv] at hr
      simp only [Outcome.world?, Option.some.injEq] at hr
      rw [← hr]
      exact Or.inr ⟨hv, rfl⟩
    · have hw := futexWaitReturn_word_quiet w h.fFutex h.fPrivate 0 t ev
        (hq ev (List.mem_cons_self _ _))
      cases hh : ev.ret.hard with
      | true =>
        rw [waitLoop_cons_hard h t w o ev env hm hv hh] at hr
        simp only [Outcome.world?, Option.some.injEq] at hr
        rw [← hr]
        exact Or.inl hw
      | false =>
        rw [waitLoop_cons_benign h t w o ev env hm hv hh] at hr
        rcases ih _ w' (by rw [futexWaitReturn_maps]; exact hm)
          (fun e he => hq e (List.mem_cons_of_mem _ he)) hr with e1 | ⟨e1, _⟩
        · exact Or.inl (by rw [e1, hw])
        · rw [hw] at e1
          exact absurd e1 hv

theorem shm_open_word (w : World) (n : List Char) (c : Bool) (a : SysAnswer) :
    (shm_open w n c a).2.word = w.word := by
  unfold shm_open
  cases a <;> cases w.names n <;> cases c <;> rfl

theorem mmap_word (w : World) (fd : Int) (a : SysAnswer) : (mmap w fd a).2.word = w.word := by
  unfold mmap
  cases a <;> cases w.fds fd <;> rfl

/-- `Connect` writes no shared word. -/
theorem connect_word (cfg : NameCfg) (h : JackLinuxFutex) (name server : List Char)
    (w : World) (ans : SysAnswers) :
    (ConnectInput cfg h name server w ans).2.2.word = w.word := by
  unfold ConnectInput
  simp only
  split_ifs
  · rfl
  · exact shm_open_word _ _ _ _
  · show (close _ _).word = w.word
    rw [(close_frame _ _).2.1]
    show (mmap _ _ _).2.word = w.word
    rw [mmap_word, shm_open_word]
  · show (mmap _ _ _).2.word = w.word
    rw [mmap_word, shm_open_word]

/-- `Disconnect` writes no shared word. -/
theorem disconnect_word (h : JackLinuxFutex) (w : World) : (Disconnect h w).2.2.word = w.word := by
  by_cases d : h.fFutex = NULL
  · simp [Disconnect, d]
  · rw [disconnect_attached h w d]
    exact (close_frame _ _).2.1

/-! ## A word that is neither 0 nor 1 -/

theorem view_stuck_step (x : Int) (k : Nat) (v : RaceView) (a : Actor) (x0 : x ≠ 0)
    (x1 : x ≠ 1) (h : v.stuck x k) : (v.step a).stuck x k := by
  obtain ⟨sp, wp, y, n⟩ := v
  obtain ⟨e1, e2, e3, e4⟩ := h
  simp only at e1 e2 e3 e4
  subst e1 e2
  cases a <;> rcases sp with _ | _ | _ | ⟨_ | _⟩ | _ <;>
    rcases wp with _ | _ | _ | _ | ⟨_ | _⟩ | _ <;>
    simp [RaceView.stuck, RaceView.step, WaitPc.awake, x0, x1] at e3 e4 ⊢

theorem view_stuck_run (x : Int) (k : Nat) (x0 : x ≠ 0) (x1 : x ≠ 1) :
    ∀ (sched : List Actor) (v : RaceView), v.stuck x k → (v.run sched).stuck x k := by
  intro sched
  induction sched with
  | nil => intro v h; exact h
  | cons a sched ih =>
    intro v h
    exact ih (v.step a) (view_stuck_step x k v a x0 x1 h)

/-- With the word different from 1 and no other process writing, the wait
loop never returns true. -/
theorem waitLoop_never_true (h : JackLinuxFutex) (t : Option Timespec) (o : Nat) :
    ∀ (env : List ParkEvent) (w : World), w.maps h.fFutex = some o → w.word o ≠ 1 →
      (∀ ev ∈ env, ev.interfere = none) →
      (waitLoop h t w env).result? ≠ some true := by
  intro env
  induction env with
  | nil =>
    intro w hm hv _
    rw [waitLoop_nil_miss h t w o hm hv]
    simp [Outcome.result?]
  | cons ev env ih =>
    intro w hm hv hq
    cases hh : ev.ret.hard with
    | true =>
      rw [waitLoop_cons_hard h t w o ev env hm hv hh]
      simp [Outcome.result?]
    | false =>
      rw [waitLoop_cons_benign h t w o ev env hm hv hh]
      refine ih _ (by rw [futexWaitReturn_maps]; exact hm) ?_
        (fun e he => hq e (List.mem_cons_of_mem _ he))
      rw [futexWaitReturn_word_quiet w h.fFutex h.fPrivate 0 t ev
        (hq ev (List.mem_cons_self _ _))]
      exact hv

/-! ## The parameters of the driver -/

theorem applyParam_nperiods (a a1 : ioaudio_driver_args_t) (p : jack_driver_param_t)
    (h : applyParam a p = some a1) :
    a1.user_nperiods = if p.character = 'n' then max 2 p.value.ui else a.user_nperiods := by
  unfold applyParam at h
  by_cases h_uC : p.character = 'C'
  · rw [if_pos h_uC] at h; cases h; exact (if_neg (by simp [*])).symm
  rw [if_neg h_uC] at h
  by_cases h_uP : p.character = 'P'
  · rw [if_pos h_uP] at h; cases h; exact (if_neg (by simp [*])).symm
  rw [if_neg h_uP] at h
  by_cases h_uD : p.character = 'D'
  · rw [if_pos h_uD] at h; cases h; exact (if_neg (by simp [*])).symm
  rw [if_neg h_uD] at h
  by_cases h_ld : p.character = 'd'
  · rw [if_pos h_ld] at h
    by_cases hs : p.value.str ≠ "none".toList
    · rw [if_pos hs] at h; cases h; exact (if_neg (by simp [*])).symm
    · rw [if_neg hs] at h; cases h; exact (if_neg (by simp [*])).symm
  rw [if_neg h_ld] at h
  by_cases h_uH : p.character = 'H'
  · rw [if_pos h_uH] at h; cases h; exact (if_neg (by simp [*])).symm
  rw [if_neg h_uH] at h
  by_cases h_lm : p.character = 'm'
  · rw [if_pos h_lm] at h; cases h; exact (if_neg (by simp [*])).symm
  rw [if_neg h_lm] at h
  by_cases h_uM : p.character = 'M'
  · rw [if_pos h_uM] at h; cases h; exact (if_neg (by simp [*])).symm
  rw [if_neg h_uM] at h
  by_cases h_lr : p.character = 'r'
  · rw [if_pos h_lr] at h; cases h; exact (if_neg (by simp [*])).symm
  rw [if_neg h_lr] at h
  by_cases h_lp : p.character = 'p'
  · rw [if_pos h_lp] at h; cases h; exact (if_neg (by simp [*])).symm
  rw [if_neg h_lp] at h
  by_cases h_ln : p.character = 'n'
  · rw [if_pos h_ln] at h; cases h; rw [if_pos h_ln]; simp only; split_ifs <;> omega
  rw [if_neg h_ln] at h
  by_cases h_ls : p.character = 's'
  · rw [if_pos h_ls] at h; cases h; exact (if_neg (by simp [*])).symm
  rw [if_neg h_ls] at h
  by_cases h_lz : p.character = 'z'
  · rw [if_pos h_lz] at h
    cases hd : dither_opt p.value.c with
    | none => rw [hd] at h; cases h
    | some d => rw [hd] at h; cases h; exact (if_neg (by simp [*])).symm
  rw [if_neg h_lz] at h
  by_cases h_li : p.character = 'i'
  · rw [if_pos h_li] at h; cases h; exact (if_neg (by simp [*])).symm
  rw [if_neg h_li] at h
  by_cases h_lo : p.character = 'o'
  · rw [if_pos h_lo] at h; cases h; exact (if_neg (by simp [*])).symm
  rw [if_neg h_lo] at h
  by_cases h_uS : p.character = 'S'
  · rw [if_pos h_uS] at h; cases h; exact (if_neg (by simp [*])).symm
  rw [if_neg h_uS] at h
  by_cases h_uI : p.character = 'I'
  · rw [if_pos h_uI] at h; cases h; exact (if_neg (by simp [*])).symm
  rw [if_neg h_uI] at h
  by_cases h_uO : p.character = 'O'
  · rw [if_pos h_uO] at h; cases h; exact (if_neg (by simp [*])).symm
  rw [if_neg h_uO] at h
  by_cases h_uX : p.character = 'X'
  · rw [if_pos h_uX] at h; cases h; exact (if_neg (by simp [*])).symm
  rw [if_neg h_uX] at h
  cases h; exact (if_neg (by simp [*])).symm

theorem applyParam_flags (a a1 : ioaudio_driver_args_t) (p : jack_driver_param_t)
    (h : applyParam a p = some a1) :
    a1.capture = (a.capture || decide (p.character = 'C') || decide (p.character = 'D')) ∧
    a1.playback = (a.playback || decide (p.character = 'P') || decide (p.character = 'D')) := by
  unfold applyParam at h
  by_cases h_uC : p.character = 'C'
  · rw [if_pos h_uC] at h; cases h; simp [*]
  rw [if_neg h_uC] at h
  by_cases h_uP : p.character = 'P'
  · rw [if_pos h_uP] at h; cases h; simp [*]
  rw [if_neg h_uP] at h
  by_cases h_uD : p.character = 'D'
  · rw [if_pos h_uD] at h; cases h; simp [*]
  rw [if_neg h_uD] at h
  by_cases h_ld : p.character = 'd'
  · rw [if_pos h_ld] at h
    by_cases hs : p.value.str ≠ "none".toList
    · rw [if_pos hs] at h; cases h; simp [*]
    · rw [if_neg hs] at h; cases h; simp [*]
  rw [if_neg h_ld] at h
  by_cases h_uH : p.character = 'H'
  · rw [if_pos h_uH] at h; cases h; simp [*]
  rw [if_neg h_uH] at h
  by_cases h_lm : p.character = 'm'
  · rw [if_pos h_lm] at h; cases h; simp [*]
  rw [if_neg h_lm] at h
  by_cases h_uM : p.character = 'M'
  · rw [if_pos h_uM] at h; cases h; simp [*]
  rw [if_neg h_uM] at h
  by_cases h_lr : p.character = 'r'
  · rw [if_pos h_lr] at h; cases h; simp [*]
  rw [if_neg h_lr] at h
  by_cases h_lp : p.character = 'p'
  · rw [if_pos h_lp] at h; cases h; simp [*]
  rw [if_neg h_lp] at h
  by_cases h_ln : p.character = 'n'
  · rw [if_pos h_ln] at h; cases h; simp [*]
  rw [if_neg h_ln] at h
  by_cases h_ls : p.character = 's'
  · rw [if_pos h_ls] at h; cases h; simp [*]
  rw [if_neg h_ls] at h
  by_cases h_lz : p.character = 'z'
  · rw [if_pos h_lz] at h
    cases hd : dither_opt p.value.c with
    | none => rw [hd] at h; cases h
    | some d => rw [hd] at h; cases h; simp [*]
  rw [if_neg h_lz] at h
  by_cases h_li : p.character = 'i'
  · rw [if_pos h_li] at h; cases h; simp [*]
  rw [if_neg h_li] at h
  by_cases h_lo : p.character = 'o'
  · rw [if_pos h_lo] at h; cases h; simp [*]
  rw [if_neg h_lo] at h
  by_cases h_uS : p.character = 'S'
  · rw [if_pos h_uS] at h; cases h; simp [*]
  rw [if_neg h_uS] at h
  by_cases h_uI : p.character = 'I'
  · rw [if_pos h_uI] at h; cases h; simp [*]
  rw [if_neg h_uI] at h
  by_cases h_uO : p.character = 'O'
  · rw [if_pos h_uO] at h; cases h; simp [*]
  rw [if_neg h_uO] at h
  by_cases h_uX : p.character = 'X'
  · rw [if_pos h_uX] at h; cases h; simp [*]
  rw [if_neg h_uX] at h
  cases h; simp [*]

theorem applyParam_total (a : ioaudio_driver_args_t) (p : jack_driver_param_t)
    (h : p.character = 'z' → (dither_opt p.value.c).isSome = true) :
    ∃ a1, applyParam a p = some a1 := by
  unfold applyParam
  by_cases h_uC : p.character = 'C'
  · rw [if_pos h_uC]; exact ⟨_, rfl⟩
  rw [if_neg h_uC]
  by_cases h_uP : p.character = 'P'
  · rw [if_pos h_uP]; exact ⟨_, rfl⟩
  rw [if_neg h_uP]
  by_cases h_uD : p.character = 'D'
  · rw [if_pos h_uD]; exact ⟨_, rfl⟩
  rw [if_neg h_uD]
  by_cases h_ld : p.character = 'd'
  · rw [if_pos h_ld]
    by_cases hs : p.value.str ≠ "none".toList
    · rw [if_pos hs]; exact ⟨_, rfl⟩
    · rw [if_neg hs]; exact ⟨_, rfl⟩
  rw [if_neg h_ld]
  by_cases h_uH : p.character = 'H'
  · rw [if_pos h_uH]; exact ⟨_, rfl⟩
  rw [if_neg h_uH]
  by_cases h_lm : p.character = 'm'
  · rw [if_pos h_lm]; exact ⟨_, rfl⟩
  rw [if_neg h_lm]
  by_cases h_uM : p.character = 'M'
  · rw [if_pos h_uM]; exact ⟨_, rfl⟩
  rw [if_neg h_uM]
  by_cases h_lr : p.character = 'r'
  · rw [if_pos h_lr]; exact ⟨_, rfl⟩
  rw [if_neg h_lr]
  by_cases h_lp : p.character = 'p'
  · rw [if_pos h_lp]; exact ⟨_, rfl⟩
  rw [if_neg h_lp]
  by_cases h_ln : p.character = 'n'
  · rw [if_pos h_ln]; exact ⟨_, rfl⟩
  rw [if_neg h_ln]
  by_cases h_ls : p.character = 's'
  · rw [if_pos h_ls]; exact ⟨_, rfl⟩
  rw [if_neg h_ls]
  by_cases h_lz : p.character = 'z'
  · rw [if_pos h_lz]
    have hz := h h_lz
    cases hd : dither_opt p.value.c with
    | none => rw [hd] at hz; cases hz
    | some d => exact ⟨_, rfl⟩
  rw [if_neg h_lz]
  by_cases h_li : p.character = 'i'
  · rw [if_pos h_li]; exact ⟨_, rfl⟩
  rw [if_neg h_li]
  by_cases h_lo : p.character = 'o'
  · rw [if_pos h_lo]; exact ⟨_, rfl⟩
  rw [if_neg h_lo]
  by_cases h_uS : p.character = 'S'
  · rw [if_pos h_uS]; exact ⟨_, rfl⟩
  rw [if_neg h_uS]
  by_cases h_uI : p.character = 'I'
  · rw [if_pos h_uI]; exact ⟨_, rfl⟩
  rw [if_neg h_uI]
  by_cases h_uO : p.character = 'O'
  · rw [if_pos h_uO]; exact ⟨_, rfl⟩
  rw [if_neg h_uO]
  by_cases h_uX : p.character = 'X'
  · rw [if_pos h_uX]; exact ⟨_, rfl⟩
  rw [if_neg h_uX]
  exact ⟨_, rfl⟩

/-- The periods after the loop, when it reaches its end. -/
theorem parseLoop_nperiods_none : ∀ (params : List jack_driver_param_t)
    (a a1 : ioaudio_driver_args_t), parseLoop params a = some a1 →
    (∀ p ∈ params, p.character ≠ 'n') → a1.user_nperiods = a.user_nperiods := by
  intro params
  induction params with
  | nil =>
    intro a a1 h _
    simp only [parseLoop, Option.some.injEq] at h
    rw [h]
  | cons p rest ih =>
    intro a a1 h hn
    simp only [parseLoop] at h
    cases hp : applyParam a p with
    | none => rw [hp] at h; cases h
    | some a2 =>
      rw [hp] at h
      have e2 := applyParam_nperiods a a2 p hp
      rw [if_neg (hn p (List.mem_cons_self _ _))] at e2
      rw [ih a2 a1 h (fun q hq => hn q (List.mem_cons_of_mem _ hq)), e2]

theorem parseLoop_append : ∀ (l1 l2 : List jack_driver_param_t) (a a1 : ioaudio_driver_args_t),
    parseLoop (l1 ++ l2) a = some a1 →
    ∃ a2, parseLoop l1 a = some a2 ∧ parseLoop l2 a2 = some a1 := by
  intro l1
  induction l1 with
  | nil => intro l2 a a1 h; exact ⟨a, rfl, h⟩
  | cons p rest ih =>
    intro l2 a a1 h
    simp only [List.cons_append, parseLoop] at h ⊢
    cases hp : applyParam a p with
    | none => rw [hp] at h; cases h
    | some a3 =>
      rw [hp] at h
      exact ih l2 a3 a1 h

theorem parseLoop_nperiods_ge : ∀ (params : List jack_driver_param_t)
    (a a1 : ioaudio_driver_args_t), parseLoop params a = some a1 → 2 ≤ a.user_nperiods →
    2 ≤ a1.user_nperiods := by
  intro params
  induction params with
  | nil =>
    intro a a1 h h2
    simp only [parseLoop, Option.some.injEq] at h
    rw [← h]; exact h2
  | cons p rest ih =>
    intro a a1 h h2
    simp only [parseLoop] at h
    cases hp : applyParam a p with
    | none => rw [hp] at h; cases h
    | some a2 =>
      rw [hp] at h
      have e2 := applyParam_nperiods a a2 p hp
      refine ih a2 a1 h ?_
      rw [e2]
      split_ifs
      · exact le_max_left _ _
      · exact h2

theorem hasOption_cons (c : Char) (p : jack_driver_param_t) (rest : List jack_driver_param_t) :
    hasOption c (p :: rest) ↔ p.character = c ∨ hasOption c rest := by
  simp only [hasOption, List.mem_cons, exists_eq_or_imp]

theorem parseLoop_flags : ∀ (params : List jack_driver_param_t)
    (a a1 : ioaudio_driver_args_t), parseLoop params a = some a1 →
    (a1.capture = true ↔ a.capture = true ∨ hasOption 'C' params ∨ hasOption 'D' params) ∧
    (a1.playback = true ↔ a.playback = true ∨ hasOption 'P' params ∨ hasOption 'D' params) := by
  intro params
  induction params with
  | nil =>
    intro a a1 h
    simp only [parseLoop, Option.some.injEq] at h
    subst h
    simp [hasOption]
  | cons p rest ih =>
    intro a a1 h
    simp only [parseLoop] at h
    cases hp : applyParam a p with
    | none => rw [hp] at h; cases h
    | some a2 =>
      rw [hp] at h
      obtain ⟨f1, f2⟩ := applyParam_flags a a2 p hp
      obtain ⟨i1, i2⟩ := ih a2 a1 h
      rw [i1, i2, f1, f2, hasOption_cons 'C', hasOption_cons 'D', hasOption_cons 'P']
      simp only [Bool.or_eq_true, decide_eq_true_eq]
      generalize hasOption 'C' rest = r1
      generalize hasOption 'D' rest = r2
      generalize hasOption 'P' rest = r3
      generalize (p.character = 'C') = x1
      generalize (p.character = 'D') = x2
      generalize (p.character = 'P') = x3
      generalize (a.capture = true) = c1
      generalize (a.playback = true) = c2
      clear f1 f2 i1 i2 ih hp h
      constructor <;> tauto

theorem parseLoop_total : ∀ (params : List jack_driver_param_t) (a : ioaudio_driver_args_t),
    (∀ p ∈ params, p.character = 'z' → (dither_opt p.value.c).isSome = true) →
    ∃ a1, parseLoop params a = some a1 := by
  intro params
  induction params with
  | nil => intro a _; exact ⟨a, rfl⟩
  | cons p rest ih =>
    intro a h
    obtain ⟨a2, h2⟩ := applyParam_total a p (h p (List.mem_cons_self _ _))
    obtain ⟨a1, h1⟩ := ih a2 (fun q hq => h q (List.mem_cons_of_mem _ hq))
    exact ⟨a1, by simp only [parseLoop, h2]; exact h1⟩

/-- What `driver_initialize` hands to `Open` is what the loop left, made
duplex when neither direction was asked for. -/
theorem driver_args_inv (params : List jack_driver_param_t) (args : ioaudio_driver_args_t)
    (h : driver_initialize_args params = some args) :
    ∃ a1, parseLoop params initialArgs = some a1 ∧
      args.user_nperiods = a1.user_nperiods ∧
      ((a1.capture = false ∧ a1.playback = false ∧ args.capture = true ∧ args.playback = true) ∨
       ((a1.capture = true ∨ a1.playback = true) ∧ args.capture = a1.capture ∧
          args.playback = a1.playback)) := by
  unfold driver_initialize_args at h
  cases hp : parseLoop params initialArgs with
  | none => rw [hp] at h; cases h
  | some a1 =>
    rw [hp] at h
    refine ⟨a1, rfl, ?_⟩
    cases hc : a1.capture <;> cases hq : a1.playback <;>
      simp only [hc, hq, Bool.not_false, Bool.not_true, Bool.and_self, Bool.and_false,
        Bool.and_true, if_true, Bool.false_eq_true, if_false, Option.some.injEq] at h <;>
      subst h <;> simp [hc, hq]

/-! ## Claims -/

/-- C1. On two allocated handles of the same shared object (or twice the same
handle) whose word is 0, with the signalling handle not flushing, `Signal`
followed by `Wait` returns true from both calls, the `Wait` returns on its first
compare-and-exchange (it uses no park event and adds no system call to the
trace, which holds exactly the one wake call of `Signal`), and the word is 0
afterwards. -/
theorem signal_then_wait (hS hC : JackLinuxFutex) (w : World) (o : Nat)
    (env : List ParkEvent) (aS : Attached hS w o) (aC : Attached hC w o)
    (nf : hS.fFlush = false) (z : w.word o = 0) :
    ∃ w1 w2, Signal hS w = some (true, hS, w1) ∧
      Wait hC w1 env = Outcome.returned true hC w2 env ∧
      w2.trace = w1.trace ∧
      w2.trace = w.trace ++ [KCall.futexWake hS.fFutex hS.fPrivate 1] ∧
      parkCount w2.trace = parkCount w.trace ∧
      w2.word o = 0 := by
  obtain ⟨nS, mS⟩ := aS
  obtain ⟨nC, mC⟩ := aC
  refine ⟨(w.store o 1).issue (KCall.futexWake hS.fFutex hS.fPrivate 1),
    ((w.store o 1).issue (KCall.futexWake hS.fFutex hS.fPrivate 1)).store o 0, ?_, ?_, ?_, ?_, ?_, ?_⟩
  · simp [Signal, nS, nf, cas_hit w hS.fFutex o 0 1 mS z]
  · simp only [Wait, if_neg nC]
    exact waitLoop_pending hC none _ o env (by simpa using mC) (by simp)
  · simp
  · simp
  · simp [parkCount_append, parkCount]
  · simp

/-- Witness of C1: the scenario of the server signalling and the client waiting. -/
theorem signal_then_wait_witness :
    ∃ w1 w2, Signal demoServer (demoWorld 0) = some (true, demoServer, w1) ∧
      Wait demoClient w1 [] = Outcome.returned true demoClient w2 [] ∧
      w2.trace = w1.trace ∧
      w2.trace = (demoWorld 0).trace ++ [KCall.futexWake demoServer.fFutex demoServer.fPrivate 1] ∧
      parkCount w2.trace = parkCount (demoWorld 0).trace ∧
      w2.word 7 = 0 :=
  signal_then_wait demoServer demoClient (demoWorld 0) 7 []
    ⟨by decide, by decide⟩ ⟨by decide, by decide⟩ rfl rfl

/-- C2. No lost wakeup. One `Wait` through `hW` and one `Signal` through `hS`,
two allocated handles of the same object with the same futex key, start
together on a word that holds 0. Whatever the interleaving of their atomic
steps and of spurious wakes by the kernel: once the signalling thread has had
its three turns, two more turns of the waiting thread make `Wait` return true.
Along every schedule `Wait` neither returns false nor faults; as long as
`Signal` has not made its update the word is 0 and no wake call has been
issued; when `Signal` stands before its wake call the update is made (the word
is 1, or `Wait` has consumed it and returned true) and a wake call is in the
trace only after `Signal` has returned; and a park call issued after the
update does not put the thread to sleep: it comes back to the
compare-and-exchange. -/
theorem no_lost_wakeup (hW hS : JackLinuxFutex) (w : World) (o : Nat)
    (aW : Attached hW w o) (aS : Attached hS w o) (nf : hS.fFlush = false)
    (key : futexKey w hS.fFutex hS.fPrivate = futexKey w hW.fFutex hW.fPrivate)
    (z : w.word o = 0) :
    (∀ s1 s2, 3 ≤ turns Actor.signaler s1 → 2 ≤ turns Actor.waiter s2 →
      ((Race.init w).run hW hS (s1 ++ s2)).waiter = WaitPc.returned true) ∧
    (∀ sched,
      ((Race.init w).run hW hS sched).waiter ≠ WaitPc.returned false ∧
      ((Race.init w).run hW hS sched).waiter ≠ WaitPc.faulted ∧
      ((((Race.init w).run hW hS sched).signaler = SignalPc.entry ∨
          ((Race.init w).run hW hS sched).signaler = SignalPc.atCas) →
        ((Race.init w).run hW hS sched).w.word o = 0 ∧
        wakeCount ((Race.init w).run hW hS sched).w.trace = wakeCount w.trace) ∧
      (((Race.init w).run hW hS sched).signaler = SignalPc.atWake →
        wakeCount ((Race.init w).run hW hS sched).w.trace = wakeCount w.trace ∧
        (((Race.init w).run hW hS sched).w.word o = 1 ∨
          ((Race.init w).run hW hS sched).waiter = WaitPc.returned true)) ∧
      (wakeCount ((Race.init w).run hW hS sched).w.trace ≠ wakeCount w.trace →
        ((Race.init w).run hW hS sched).signaler = SignalPc.returned true) ∧
      ((((Race.init w).run hW hS sched).signaler = SignalPc.atWake ∨
          ((Race.init w).run hW hS sched).signaler = SignalPc.returned true) →
        ((Race.init w).run hW hS sched).waiter = WaitPc.atPark →
        (stepWaiter hW ((Race.init w).run hW hS sched)).waiter = WaitPc.atCas)) := by
  obtain ⟨nW, mW⟩ := aW
  obtain ⟨nS, mS⟩ := aS
  have ok0 : ((Race.init w).view o).ok (wakeCount w.trace) := by
    simp [Race.init, Race.view, RaceView.ok, WaitPc.awake, z]
  have sim := fun sched => race_run_view hW hS o nW nS nf sched (Race.init w) mW mS key
  refine ⟨?_, ?_⟩
  · intro s1 s2 t1 t2
    have h := view_wait_returns (wakeCount w.trace) _ s1 s2 ok0 t1 t2
    rw [← (sim (s1 ++ s2)).1] at h
    exact h
  · intro sched
    obtain ⟨e1, e2⟩ := sim sched
    have ok1 := view_ok_run (wakeCount w.trace) sched _ ok0
    rw [← e1] at ok1
    have mW2 : ((Race.init w).run hW hS sched).w.maps hW.fFutex = some o := by
      rw [e2]; exact mW
    have mS2 : ((Race.init w).run hW hS sched).w.maps hS.fFutex = some o := by
      rw [e2]; exact mS
    have key2 : futexKey ((Race.init w).run hW hS sched).w hS.fFutex hS.fPrivate =
        futexKey ((Race.init w).run hW hS sched).w hW.fFutex hW.fPrivate := by
      rw [futexKey_congr _ (Race.init w).w _ _ e2, futexKey_congr _ (Race.init w).w _ _ e2]
      exact key
    have stp := (race_step_view hW hS o nW nS nf _ mW2 mS2 key2 Actor.waiter).1
    generalize (Race.init w).run hW hS sched = st at ok1 stp
    obtain ⟨w1, wp, sp⟩ := st
    have stp2 : (stepWaiter hW { w := w1, waiter := wp, signaler := sp }).waiter =
        ((Race.view o { w := w1, waiter := wp, signaler := sp }).step Actor.waiter).waiter := by
      rw [← stp]; rfl
    rw [stp2]
    clear stp stp2
    rcases sp with _ | _ | _ | ⟨_ | _⟩ | _ <;>
      rcases wp with _ | _ | _ | _ | ⟨_ | _⟩ | _ <;>
      simp [RaceView.ok, Race.view, WaitPc.awake, RaceView.step] at ok1 ⊢ <;>
      (try split_ifs) <;> simp_all

/-- Witness of C2: the client of the scenario goes to sleep before the server
signals; the wake call of the server brings it back and it returns true. -/
theorem no_lost_wakeup_witness :
    Attached demoClient (demoWorld 0) 7 ∧ Attached demoServer (demoWorld 0) 7 ∧
    ((Race.init (demoWorld 0)).run demoClient demoServer
      ([Actor.waiter, Actor.waiter, Actor.waiter, Actor.signaler, Actor.signaler,
        Actor.signaler] ++ [Actor.waiter, Actor.waiter])).waiter = WaitPc.returned true :=
  ⟨⟨by decide, by decide⟩, ⟨by decide, by decide⟩,
   (no_lost_wakeup demoClient demoServer (demoWorld 0) 7 ⟨by decide, by decide⟩
      ⟨by decide, by decide⟩ rfl rfl rfl).1 _ _ (by decide) (by decide)⟩

/-- C3. On an allocated, non-flushing handle a second `Signal` right after a
first one returns true and changes nothing: after two calls the result, the
shared word, the trace (hence the number of kernel wake calls) and the handle
are what they are after one call. -/
theorem signal_twice_as_once (h : JackLinuxFutex) (w : World) (o : Nat)
    (a : Attached h w o) (nf : h.fFlush = false) :
    ∃ h1 w1 h2 w2, Signal h w = some (true, h1, w1) ∧ Signal h1 w1 = some (true, h2, w2) ∧
      h2 = h1 ∧ w2.word o = w1.word o ∧ wakeCount w2.trace = wakeCount w1.trace ∧
      w2.trace = w1.trace ∧ w2.word = w1.word := by
  by_cases hv : w.word o = 0
  · refine ⟨h, (w.store o 1).issue (KCall.futexWake h.fFutex h.fPrivate 1), h,
      (w.store o 1).issue (KCall.futexWake h.fFutex h.fPrivate 1),
      signal_idle h w o a nf hv, ?_, rfl, rfl, rfl, rfl, rfl⟩
    exact signal_pending h _ o ⟨a.1, by simpa using a.2⟩ nf (by simp)
  · exact ⟨h, w, h, w, signal_pending h w o a nf hv, signal_pending h w o a nf hv,
      rfl, rfl, rfl, rfl, rfl⟩

/-- Witness of C3: two signals of the server on the idle object of the scenario. -/
theorem signal_twice_as_once_witness :
    ∃ h1 w1 h2 w2, Signal demoServer (demoWorld 0) = some (true, h1, w1) ∧
      Signal h1 w1 = some (true, h2, w2) ∧
      h2 = h1 ∧ w2.word 7 = w1.word 7 ∧ wakeCount w2.trace = wakeCount w1.trace ∧
      w2.trace = w1.trace ∧ w2.word = w1.word :=
  signal_twice_as_once demoServer (demoWorld 0) 7 ⟨by decide, by decide⟩ rfl

/-- C4. Whenever `Wait` returns true, the handle was allocated, the last step
was a successful compare-and-exchange of the shared word from 1 to 0, the word
is 0 on return, and a second `Wait` started in the world it left does not
return on its first check: the next system call is a park call, whatever the
kernel answers later, and with no answer the call stays parked. -/
theorem wait_true_consumes_one (h h' : JackLinuxFutex) (w w' : World)
    (env rest : List ParkEvent) (r : Wait h w env = Outcome.returned true h' w' rest) :
    ∃ o, Attached h w o ∧ h' = h ∧
      (∃ wPre, wPre.word o = 1 ∧ compareAndSwap wPre h.fFutex 1 0 = some (true, w')) ∧
      w'.word o = 0 ∧
      Wait h' w' [] = Outcome.parked h' (w'.issue (parkCall h' none)) ∧
      ∀ env2, ∃ more, (Wait h' w' env2).trace? = some (w'.trace ++ parkCall h' none :: more) := by
  unfold Wait at r
  by_cases hn : h.fFutex = NULL
  · simp [hn] at r
  · rw [if_neg hn] at r
    cases hm : w.maps h.fFutex with
    | none => rw [waitLoop_unmapped h none w env hm] at r; cases r
    | some o =>
      obtain ⟨e1, e2, _, used, _, _, _, hcase⟩ := waitLoop_returned h none o env w true h' w' rest hm r
      rcases hcase with ⟨_, _, wPre, hp, hc⟩ | ⟨hb, _⟩
      · obtain ⟨o2, hm2, _, hst⟩ := cas_true_inv wPre w' h.fFutex 1 0 hc
        have hmaps : w'.maps h.fFutex = some o := by rw [e2]; exact hm
        have ho : o2 = o := by
          have : w'.maps h.fFutex = some o2 := by rw [hst]; simpa using hm2
          rw [hmaps] at this
          exact (Option.some.inj this).symm
        subst ho
        have hz : w'.word o2 = 0 := by rw [hst]; simp
        have hne : w'.word o2 ≠ 1 := by rw [hz]; decide
        subst e1
        refine ⟨o2, ⟨hn, hm⟩, rfl, ⟨wPre, hp, hc⟩, hz, ?_, ?_⟩
        · simp only [Wait, if_neg hn]
          exact waitLoop_nil_miss h' none w' o2 hmaps hne
        · intro env2
          simp only [Wait, if_neg hn]
          exact waitLoop_miss_trace h' none o2 env2 w' hmaps hne
      · cases hb

/-- Witness of C4: the client of the scenario waits on a pending signal. -/
theorem wait_true_consumes_one_witness :
    ∃ o, Attached demoClient (demoWorld 1) o ∧ demoClient = demoClient ∧
      (∃ wPre, wPre.word o = 1 ∧
        compareAndSwap wPre demoClient.fFutex 1 0 = some (true, (demoWorld 1).store 7 0)) ∧
      ((demoWorld 1).store 7 0).word o = 0 ∧
      Wait demoClient ((demoWorld 1).store 7 0) [] =
        Outcome.parked demoClient (((demoWorld 1).store 7 0).issue (parkCall demoClient none)) ∧
      ∀ env2, ∃ more, (Wait demoClient ((demoWorld 1).store 7 0) env2).trace? =
        some (((demoWorld 1).store 7 0).trace ++ parkCall demoClient none :: more) :=
  wait_true_consumes_one demoClient demoClient (demoWorld 1) ((demoWorld 1).store 7 0) [] [] rfl

/-- C5. On an allocated handle `Wait` never faults; when it returns, it returns
false if and only if one of the park calls it issued came back non-zero with an
error code other than `EWOULDBLOCK`; a park call that comes back so makes it
return false on the spot; a park call that comes back 0 or with `EWOULDBLOCK`
does not make it return: it goes round the loop, re-checks the word by
compare-and-exchange and, when the word is still not 1, issues a second park
call. -/
theorem wait_false_iff_hard_park (h : JackLinuxFutex) (w : World) (o : Nat)
    (a : Attached h w o) (env : List ParkEvent) :
    Wait h w env ≠ Outcome.fault ∧
    (∀ b h' w' rest, Wait h w env = Outcome.returned b h' w' rest →
      ∃ used, env = used ++ rest ∧
        w'.trace = w.trace ++ List.replicate used.length (parkCall h none) ∧
        (b = false ↔ ∃ ev ∈ used, ev.ret.hard = true)) ∧
    (∀ ev env', env = ev :: env' → w.word o ≠ 1 →
      (ev.ret.hard = true →
        Wait h w env =
          Outcome.returned false h (futexWaitReturn w h.fFutex h.fPrivate 0 none ev).2 env') ∧
      (ev.ret.hard = false →
        Wait h w env = Wait h (futexWaitReturn w h.fFutex h.fPrivate 0 none ev).2 env' ∧
        ((futexWaitReturn w h.fFutex h.fPrivate 0 none ev).2.word o ≠ 1 →
          ∃ more, (Wait h w env).trace? =
            some (w.trace ++ parkCall h none :: parkCall h none :: more)))) := by
  obtain ⟨hn, hm⟩ := a
  simp only [Wait, if_neg hn]
  refine ⟨?_, ?_, ?_⟩
  · intro hf
    obtain ⟨more, hmore⟩ := waitLoop_trace h none o env w hm
    rw [hf] at hmore
    simp [Outcome.trace?, Outcome.world?] at hmore
  · intro b h' w' rest hr
    obtain ⟨_, _, _, used, hu, ht, _, hcase⟩ := waitLoop_returned h none o env w b h' w' rest hm hr
    refine ⟨used, hu, ht, ?_⟩
    rcases hcase with ⟨hb, hall, _⟩ | ⟨hb, pre, ev, hpre, _, hev, _⟩
    · subst hb
      constructor
      · intro hc; cases hc
      · rintro ⟨ev, hmem, hev⟩
        rw [hall ev hmem] at hev
        cases hev
    · subst hb
      exact ⟨fun _ => ⟨ev, by simp [hpre], hev⟩, fun _ => rfl⟩
  · intro ev env' he hv
    subst he
    refine ⟨fun hh => waitLoop_cons_hard h none w o ev env' hm hv hh, fun hh => ?_⟩
    have hstep := waitLoop_cons_benign h none w o ev env' hm hv hh
    refine ⟨hstep, fun hv2 => ?_⟩
    have hm2 : (futexWaitReturn w h.fFutex h.fPrivate 0 none ev).2.maps h.fFutex = some o := by
      rw [futexWaitReturn_maps]; exact hm
    obtain ⟨more, hmore⟩ := waitLoop_miss_trace h none o env' _ hm2 hv2
    refine ⟨more, ?_⟩
    rw [hstep, hmore, futexWaitReturn_trace]
    simp [parkCall]

/-- Witness of C5: the client parks on the idle word, is woken spuriously,
parks again and is interrupted: it re-parked after the spurious wake. -/
theorem wait_false_iff_hard_park_witness :
    Attached demoClient (demoWorld 0) 7 ∧
    Wait demoClient (demoWorld 0) [evSpurious, evInterrupted] =
      Wait demoClient
        (futexWaitReturn (demoWorld 0) demoClient.fFutex demoClient.fPrivate 0 none evSpurious).2
        [evInterrupted] :=
  ⟨⟨by decide, by decide⟩,
   (((wait_false_iff_hard_park demoClient (demoWorld 0) 7 ⟨by decide, by decide⟩
      [evSpurious, evInterrupted]).2.2 evSpurious [evInterrupted] rfl (by decide)).2 rfl).1⟩

/-- C6. `TimedWait(usec)` on an allocated handle whose word is 0 and stays
untouched, with `0 ≤ usec < 2^32 * 10^6`: once a park call reports `ETIMEDOUT`
(after any number of park calls that came back 0 or with `EWOULDBLOCK`) the
method returns false; every park call it issued, the last one included, was
given the `timespec` of `usec`, which denotes exactly `usec` microseconds; the
shared word is still 0. -/
theorem timedWait_times_out (h : JackLinuxFutex) (w : World) (o : Nat) (usec : Int)
    (pre : List ParkEvent) (ev : ParkEvent) (rest : List ParkEvent)
    (a : Attached h w o) (z : w.word o = 0)
    (r0 : 0 ≤ usec) (r1 : usec < 4294967296 * 1000000)
    (quiet : ∀ x ∈ pre, x.ret.hard = false ∧ x.interfere = none)
    (expired : ev.ret = ParkRet.failed ETIMEDOUT) (untouched : ev.interfere = none) :
    ∃ w', TimedWait h usec w (pre ++ ev :: rest) = Outcome.returned false h w' rest ∧
      w'.word o = 0 ∧
      w'.trace = w.trace ++
        List.replicate (pre.length + 1) (parkCall h (some (timeoutOf usec))) ∧
      (timeoutOf usec).toNanos = usec * 1000 ∧
      w'.errno = ETIMEDOUT := by
  obtain ⟨hn, hm⟩ := a
  have hv : w.word o ≠ 1 := by rw [z]; decide
  obtain ⟨w2, e1, e2, e3, e4, _⟩ :=
    waitLoop_quiet_prefix h (some (timeoutOf usec)) o (ev :: rest) pre w hm hv quiet
  have hm2 : w2.maps h.fFutex = some o := by rw [e2]; exact hm
  have hv2 : w2.word o ≠ 1 := by rw [e3]; exact hv
  have hh : ev.ret.hard = true := by rw [expired]; decide
  refine ⟨(futexWaitReturn w2 h.fFutex h.fPrivate 0 (some (timeoutOf usec)) ev).2,
    ?_, ?_, ?_, timeoutOf_toNanos usec r0 r1, ?_⟩
  · simp only [TimedWait, if_neg hn]
    rw [e1, waitLoop_cons_hard h _ w2 o ev rest hm2 hv2 hh]
  · rw [futexWaitReturn_word w2 h.fFutex o h.fPrivate 0 _ ev hm2, untouched, e3, z]; rfl
  · rw [futexWaitReturn_trace, e4, List.replicate_succ']
    simp [parkCall]
  · exact futexWaitReturn_errno _ _ _ _ _ _ _ expired

/-- Witness of C6: the client waits 50000 microseconds on the idle word of the
scenario, is woken spuriously once, and then times out. -/
theorem timedWait_times_out_witness :
    ∃ w', TimedWait demoClient 50000 (demoWorld 0) ([evSpurious] ++ evTimeout :: []) =
        Outcome.returned false demoClient w' [] ∧
      w'.word 7 = 0 ∧
      w'.trace = (demoWorld 0).trace ++
        List.replicate ([evSpurious].length + 1) (parkCall demoClient (some (timeoutOf 50000))) ∧
      (timeoutOf 50000).toNanos = 50000 * 1000 ∧
      w'.errno = ETIMEDOUT :=
  timedWait_times_out demoClient (demoWorld 0) 7 50000 [evSpurious] evTimeout []
    ⟨by decide, by decide⟩ rfl (by decide) (by decide) (by decide) rfl rfl

/-- C7 fails as stated. On the idle word of the scenario a `TimedWait` that
times out and one that meets a hard kernel error (`EINTR`) return the same
value, false; only the delivered signal is told apart (true). -/
theorem timedWait_timeout_same_as_error :
    (TimedWait demoClient 50000 (demoWorld 0) [evTimeout]).result? = some false ∧
    (TimedWait demoClient 50000 (demoWorld 0) [evInterrupted]).result? = some false ∧
    (TimedWait demoClient 50000 (demoWorld 0) [evSignalled]).result? = some true ∧
    ¬ ((TimedWait demoClient 50000 (demoWorld 0) [evTimeout]).result? ≠
        (TimedWait demoClient 50000 (demoWorld 0) [evInterrupted]).result?) := by
  refine ⟨rfl, rfl, rfl, ?_⟩
  intro hne
  exact hne rfl

/-- C7 as amended. For a `TimedWait` parked on a word that is not 1: when the
park call is answered by a delivered signal the method returns true; when it is
answered by `ETIMEDOUT` or by any other error code except `EWOULDBLOCK` it
returns false in both cases, and the two differ only in the `errno` the kernel
left behind. -/
theorem timedWait_outcomes (h : JackLinuxFutex) (w : World) (o : Nat) (usec : Int)
    (ev : ParkEvent) (rest : List ParkEvent) (a : Attached h w o) (hv : w.word o ≠ 1) :
    (ev.ret.hard = false → ev.interfere = some 1 →
      (TimedWait h usec w (ev :: rest)).result? = some true) ∧
    (ev.ret = ParkRet.failed ETIMEDOUT →
      (TimedWait h usec w (ev :: rest)).result? = some false ∧
      (TimedWait h usec w (ev :: rest)).world?.map World.errno = some ETIMEDOUT) ∧
    (∀ e, e ≠ EWOULDBLOCK → ev.ret = ParkRet.failed e →
      (TimedWait h usec w (ev :: rest)).result? = some false ∧
      (TimedWait h usec w (ev :: rest)).world?.map World.errno = some e) := by
  obtain ⟨hn, hm⟩ := a
  simp only [TimedWait, if_neg hn]
  have hard : ∀ e, e ≠ EWOULDBLOCK → ev.ret = ParkRet.failed e →
      (waitLoop h (some (timeoutOf usec)) w (ev :: rest)).result? = some false ∧
      (waitLoop h (some (timeoutOf usec)) w (ev :: rest)).world?.map World.errno = some e := by
    intro e hne he
    have hh : ev.ret.hard = true := by rw [he]; simpa [ParkRet.hard] using hne
    rw [waitLoop_cons_hard h _ w o ev rest hm hv hh]
    simp [Outcome.result?, Outcome.world?, futexWaitReturn_errno _ _ _ _ _ _ e he]
  refine ⟨?_, hard ETIMEDOUT (by decide), hard⟩
  intro hh hi
  have hm2 : (futexWaitReturn w h.fFutex h.fPrivate 0 (some (timeoutOf usec)) ev).2.maps
      h.fFutex = some o := by
    rw [futexWaitReturn_maps]; exact hm
  rw [waitLoop_cons_benign h _ w o ev rest hm hv hh,
    waitLoop_pending h _ _ o rest hm2
      (by rw [futexWaitReturn_word w h.fFutex o h.fPrivate 0 _ ev hm, hi]; rfl)]
  rfl

/-- Witness of C7 as amended: the client of the scenario, its park call
answered by a timeout. -/
theorem timedWait_outcomes_witness :
    Attached demoClient (demoWorld 0) 7 ∧ (demoWorld 0).word 7 ≠ 1 ∧
    (TimedWait demoClient 50000 (demoWorld 0) [evTimeout]).result? = some false ∧
    (TimedWait demoClient 50000 (demoWorld 0) [evTimeout]).world?.map World.errno =
      some ETIMEDOUT :=
  ⟨⟨by decide, by decide⟩, by decide,
   (timedWait_outcomes demoClient (demoWorld 0) 7 50000 evTimeout []
      ⟨by decide, by decide⟩ (by decide)).2.1 rfl⟩

/-- C8 fails as stated. The client waits 50000 microseconds on the idle word;
the first park call, given 50 ms, comes back spuriously after 40 ms; the second
park call is given the full 50 ms again, not the 10 ms that remain, and times
out: the call has spent 90 ms parked, more than its 50 ms. -/
theorem timedWait_rearms_full_timeout :
    ∃ w', TimedWait demoClient 50000 (demoWorld 0) [evSpurious, evTimeout] =
        Outcome.returned false demoClient w' [] ∧
      w'.trace = [parkCall demoClient (some { tv_sec := 0, tv_nsec := 50000000 }),
                  parkCall demoClient (some { tv_sec := 0, tv_nsec := 50000000 })] ∧
      (timeoutOf 50000).toNanos - (evSpurious.elapsed : Int) = 10000000 ∧
      w'.clock - (demoWorld 0).clock = 90000000 ∧
      ¬ ((w'.clock - (demoWorld 0).clock : Nat) ≤ 50000 * 1000) :=
  ⟨_, rfl, rfl, by decide, rfl, by decide⟩

/-- C8 as amended. `TimedWait(usec)` hands the same `timespec`, that of the full
`usec`, to every park call, also after park calls that came back 0 or with
`EWOULDBLOCK`: after any number of such returns (word untouched and not 1) it is
parked again with the full timeout, and it ends with false when a park call
reports `ETIMEDOUT`. The time spent parked is the sum over the park calls, so
when each call takes at most `N` the call that issued `n` of them is bounded by
`n * N`, not by `N`. -/
theorem timedWait_same_timeout_each_park (h : JackLinuxFutex) (w : World) (o : Nat)
    (usec : Int) (pre : List ParkEvent) (a : Attached h w o) (hv : w.word o ≠ 1)
    (quiet : ∀ x ∈ pre, x.ret.hard = false ∧ x.interfere = none) :
    (∃ w2, TimedWait h usec w pre = Outcome.parked h w2 ∧
      w2.trace = w.trace ++
        List.replicate (pre.length + 1) (parkCall h (some (timeoutOf usec))) ∧
      w2.clock = w.clock + elapsedSum pre) ∧
    (∀ ev rest, ev.ret = ParkRet.failed ETIMEDOUT →
      ∃ w', TimedWait h usec w (pre ++ ev :: rest) = Outcome.returned false h w' rest ∧
        w'.trace = w.trace ++
          List.replicate (pre.length + 1) (parkCall h (some (timeoutOf usec))) ∧
        w'.clock = w.clock + (elapsedSum pre + ev.elapsed)) ∧
    (∀ N, (∀ x ∈ pre, x.elapsed ≤ N) → elapsedSum pre ≤ pre.length * N) := by
  obtain ⟨hn, hm⟩ := a
  simp only [TimedWait, if_neg hn]
  refine ⟨?_, ?_, ?_⟩
  · obtain ⟨w2, e1, e2, e3, e4, e5⟩ :=
      waitLoop_quiet_prefix h (some (timeoutOf usec)) o [] pre w hm hv quiet
    have hm2 : w2.maps h.fFutex = some o := by rw [e2]; exact hm
    have hv2 : w2.word o ≠ 1 := by rw [e3]; exact hv
    rw [List.append_nil] at e1
    refine ⟨w2.issue (parkCall h (some (timeoutOf usec))), ?_, ?_, ?_⟩
    · rw [e1, waitLoop_nil_miss h _ w2 o hm2 hv2]
    · rw [issue_trace, e4, List.replicate_succ']
      simp
    · rw [issue_clock, e5]
  · intro ev rest hto
    obtain ⟨w2, e1, e2, e3, e4, e5⟩ :=
      waitLoop_quiet_prefix h (some (timeoutOf usec)) o (ev :: rest) pre w hm hv quiet
    have hm2 : w2.maps h.fFutex = some o := by rw [e2]; exact hm
    have hv2 : w2.word o ≠ 1 := by rw [e3]; exact hv
    have hh : ev.ret.hard = true := by rw [hto]; decide
    refine ⟨(futexWaitReturn w2 h.fFutex h.fPrivate 0 (some (timeoutOf usec)) ev).2, ?_, ?_, ?_⟩
    · rw [e1, waitLoop_cons_hard h _ w2 o ev rest hm2 hv2 hh]
    · rw [futexWaitReturn_trace, e4, List.replicate_succ']
      simp [parkCall]
    · rw [futexWaitReturn_clock, e5, Nat.add_assoc]
  · intro N
    clear quiet
    induction pre with
    | nil => intro _; simp [elapsedSum]
    | cons x t ih =>
      intro hb
      have h1 := hb x (List.mem_cons_self _ _)
      have h2 := ih (fun y hy => hb y (List.mem_cons_of_mem _ hy))
      simp only [elapsedSum, List.length_cons, Nat.succ_mul]
      omega

/-- Witness of C8 as amended: after one spurious wake the client is parked
again with the full timeout. -/
theorem timedWait_same_timeout_each_park_witness :
    Attached demoClient (demoWorld 0) 7 ∧ (demoWorld 0).word 7 ≠ 1 ∧
    (∀ x ∈ [evSpurious], x.ret.hard = false ∧ x.interfere = none) ∧
    ∃ w2, TimedWait demoClient 50000 (demoWorld 0) [evSpurious] = Outcome.parked demoClient w2 ∧
      w2.trace = (demoWorld 0).trace ++
        List.replicate ([evSpurious].length + 1) (parkCall demoClient (some (timeoutOf 50000))) ∧
      w2.clock = (demoWorld 0).clock + elapsedSum [evSpurious] :=
  ⟨⟨by decide, by decide⟩, by decide, by decide,
   (timedWait_same_timeout_each_park demoClient (demoWorld 0) 7 50000 [evSpurious]
      ⟨by decide, by decide⟩ (by decide) (by decide)).1⟩

/-- C9. On a deallocated handle (null `fFutex`) `Signal`, `SignalAll`, `Wait`
and `TimedWait` each return false, leave the handle as it was, issue no system
call, use no park event and touch neither the mappings nor any shared word; the
only effect is the line written through `jack_error`. -/
theorem deallocated_ops_fail (h : JackLinuxFutex) (w : World) (usec : Int)
    (env : List ParkEvent) (d : h.fFutex = NULL) :
    (∃ w', Signal h w = some (false, h, w') ∧
      w'.trace = w.trace ∧ w'.word = w.word ∧ w'.maps = w.maps) ∧
    (∃ w', SignalAll h w = some (false, h, w') ∧
      w'.trace = w.trace ∧ w'.word = w.word ∧ w'.maps = w.maps) ∧
    (∃ w', Wait h w env = Outcome.returned false h w' env ∧
      w'.trace = w.trace ∧ w'.word = w.word ∧ w'.maps = w.maps) ∧
    (∃ w', TimedWait h usec w env = Outcome.returned false h w' env ∧
      w'.trace = w.trace ∧ w'.word = w.word ∧ w'.maps = w.maps) := by
  refine ⟨⟨jack_error w (LogMsg.signalDeallocated h.fName), ?_, rfl, rfl, rfl⟩,
    ⟨jack_error w (LogMsg.signalDeallocated h.fName), ?_, rfl, rfl, rfl⟩,
    ⟨jack_error w (LogMsg.waitDeallocated h.fName), ?_, rfl, rfl, rfl⟩,
    ⟨jack_error w (LogMsg.timedWaitDeallocated h.fName), ?_, rfl, rfl, rfl⟩⟩
  · simp only [Signal, if_pos d]
  · simp only [SignalAll, Signal, if_pos d]
  · simp only [Wait, if_pos d]
  · simp only [TimedWait, if_pos d]

/-- Witness of C9: the server handle of the scenario after its pointer was
reset. -/
theorem deallocated_ops_fail_witness :
    ({ demoServer with fFutex := NULL }).fFutex = NULL ∧
    ∃ w', Signal { demoServer with fFutex := NULL } (demoWorld 0) =
        some (false, { demoServer with fFutex := NULL }, w') ∧
      w'.trace = (demoWorld 0).trace ∧ w'.word = (demoWorld 0).word ∧
      w'.maps = (demoWorld 0).maps :=
  ⟨rfl, (deallocated_ops_fail { demoServer with fFutex := NULL } (demoWorld 0) 0 [] rfl).1⟩

/-- C10. With the flush flag set on an allocated handle, `Signal` returns true
and leaves the world exactly as it was: the shared word keeps its value,
whatever it is, and no wake call is issued. -/
theorem signal_flushing (h : JackLinuxFutex) (w : World) (o : Nat)
    (a : Attached h w o) (fl : h.fFlush = true) :
    Signal h w = some (true, h, w) ∧
    ∃ w', Signal h w = some (true, h, w') ∧ w'.word o = w.word o ∧
      wakeCount w'.trace = wakeCount w.trace ∧ w'.trace = w.trace := by
  have e : Signal h w = some (true, h, w) := by
    simp [Signal, a.1, fl]
  exact ⟨e, w, e, rfl, rfl, rfl⟩

/-- Witness of C10: the flushing server signals on a word that holds 0. -/
theorem signal_flushing_witness :
    Attached { demoServer with fFlush := true } (demoWorld 0) 7 ∧
    Signal { demoServer with fFlush := true } (demoWorld 0) =
      some (true, { demoServer with fFlush := true }, demoWorld 0) :=
  ⟨⟨by decide, by decide⟩,
   (signal_flushing { demoServer with fFlush := true } (demoWorld 0) 7
      ⟨by decide, by decide⟩ rfl).1⟩

/-- C11. For a fixed naming environment (user id, mode, `RewriteName`, a
buffer of at least one byte) the stored name depends on the client and server
names only: whatever the handles, the worlds and the answers of the system,
`Connect` stores the formatted text cut to the buffer, and so does `Allocate`
whenever it returns. After an `Allocate` that returned true, a `Connect` of a
deallocated handle with the same names, whose system calls succeed, returns
true and both handles have the same object mapped, the one published under
that name. -/
theorem allocate_connect_same_name (cfg : NameCfg) (hA hC : JackLinuxFutex)
    (client server : List Char) (value : Int) (wA wC : World) (ansA ansC : SysAnswers)
    (pos : 0 < cfg.nameSize) :
    (ConnectInput cfg hC client server wC ansC).2.1.fName =
      (fullName cfg client server).take (cfg.nameSize - 1) ∧
    (∀ b hA' wA', Allocate cfg hA client server value wA ansA = some (b, hA', wA') →
      hA'.fName = (fullName cfg client server).take (cfg.nameSize - 1) ∧
      hA'.fName = (ConnectInput cfg hC client server wC ansC).2.1.fName) ∧
    (∀ hA' wA' fd a x, wA.maps MAP_FAILED = none →
      Allocate cfg hA client server value wA ansA = some (true, hA', wA') →
      hC.fFutex = NULL → a ≠ NULL →
      (ConnectInput cfg hC client server wA'
        { shmOpen := SysAnswer.ok fd, ftruncate := x, mmap := SysAnswer.ok a }).1 = true ∧
      ∃ o,
        (ConnectInput cfg hC client server wA'
          { shmOpen := SysAnswer.ok fd, ftruncate := x, mmap := SysAnswer.ok a }).2.2.maps
          (ConnectInput cfg hC client server wA'
            { shmOpen := SysAnswer.ok fd, ftruncate := x, mmap := SysAnswer.ok a }).2.1.fFutex =
          some o ∧
        (ConnectInput cfg hC client server wA'
          { shmOpen := SysAnswer.ok fd, ftruncate := x, mmap := SysAnswer.ok a }).2.2.maps
          hA'.fFutex = some o ∧
        (ConnectInput cfg hC client server wA'
          { shmOpen := SysAnswer.ok fd, ftruncate := x, mmap := SysAnswer.ok a }).2.2.names
          hA'.fName = some o) := by
  have nC : ∀ w ans, (ConnectInput cfg hC client server w ans).2.1.fName =
      (fullName cfg client server).take (cfg.nameSize - 1) := by
    intro w ans
    rw [connect_name, buildName_pos cfg client server _ _ pos]
  refine ⟨nC wC ansC, ?_, ?_⟩
  · intro b hA' wA' r
    have e := allocate_name cfg hA hA' client server value wA wA' ansA b r
    rw [buildName_pos cfg client server _ _ pos] at e
    exact ⟨e, by rw [e, nC]⟩
  · intro hA' wA' fd a x wf r d ha
    obtain ⟨e1, _, _, _, o, n1, m1, _, _, s1, _⟩ :=
      allocate_true_inv cfg hA hA' client server value wA wA' ansA wf r
    have eN : BuildName cfg client server hC.fName cfg.nameSize = hA'.fName := by
      rw [e1, buildName_pos cfg client server _ _ pos, buildName_pos cfg client server _ _ pos]
    rw [connect_attaches cfg hC client server wA' fd a o x d ha (by rw [eN]; exact n1) s1]
    refine ⟨rfl, o, by simp, ?_, ?_⟩
    · simp only
      by_cases hp : hA'.fFutex = a
      · simp [hp]
      · simp [hp, m1]
    · exact n1

/-- Witness of C11: the server allocates "srv_cli" for the server "default" in
an empty namespace and the client connects. -/
theorem allocate_connect_same_name_witness :
    0 < demoCfg.nameSize ∧
    (ConnectInput demoCfg demoFresh "srv_cli".toList "default".toList (demoWorld 0)
        demoAnswers).2.1.fName =
      (fullName demoCfg "srv_cli".toList "default".toList).take (demoCfg.nameSize - 1) :=
  ⟨by decide,
   (allocate_connect_same_name demoCfg demoFresh demoFresh "srv_cli".toList "default".toList 0
      (demoWorld 0) (demoWorld 0) demoAnswers demoAnswers (by decide)).1⟩

/-- C12 fails as stated. For user 1000 in the default mode, the pair (client
"c", server "a_b") and the pair (client "b_c", server "a") are different and
get the same name, "jack_sem.1000_a_b_c", whatever `RewriteName` is as long as
it leaves these two client names as they are; none of the names is cut. -/
theorem buildName_collides_on_underscore :
    ("c".toList, "a_b".toList) ≠ ("b_c".toList, "a".toList) ∧
    ∀ rw : List Char → List Char, rw "c".toList = "c".toList →
      rw "b_c".toList = "b_c".toList →
      BuildName { rewriteName := rw, uid := 1000, promiscuous := false, nameSize := 256 }
          "c".toList "a_b".toList [] 256 = "jack_sem.1000_a_b_c".toList ∧
      BuildName { rewriteName := rw, uid := 1000, promiscuous := false, nameSize := 256 }
          "b_c".toList "a".toList [] 256 = "jack_sem.1000_a_b_c".toList := by
  refine ⟨by decide, ?_⟩
  intro rw h1 h2
  constructor
  · simp only [BuildName, h1]
    rfl
  · simp only [BuildName, h2]
    rfl

/-- C12 as amended. For a fixed user id and naming mode, two pairs whose
server names hold no underscore and whose names are not cut get the same name
only if the server names are equal and the rewritten client names are equal;
the client names are then equal as far as `RewriteName` is injective. -/
theorem buildName_injective_without_underscore (cfg : NameCfg)
    (c1 s1 c2 s2 res1 res2 : List Char) (n1 : '_' ∉ s1) (n2 : '_' ∉ s2)
    (f1 : (fullName cfg c1 s1).length < cfg.nameSize)
    (f2 : (fullName cfg c2 s2).length < cfg.nameSize)
    (e : BuildName cfg c1 s1 res1 cfg.nameSize = BuildName cfg c2 s2 res2 cfg.nameSize) :
    s1 = s2 ∧ cfg.rewriteName c1 = cfg.rewriteName c2 ∧
    (Function.Injective cfg.rewriteName → (c1, s1) = (c2, s2)) := by
  rw [buildName_pos cfg c1 s1 res1 _ (by omega), buildName_pos cfg c2 s2 res2 _ (by omega),
    List.take_of_length_le (by omega), List.take_of_length_le (by omega)] at e
  have key : s1 = s2 ∧ cfg.rewriteName c1 = cfg.rewriteName c2 := by
    unfold fullName at e
    cases hp : cfg.promiscuous with
    | true =>
      simp only [hp, if_true] at e
      exact sep_split '_' s1 s2 _ _ n1 n2 (List.append_cancel_left e)
    | false =>
      simp only [hp] at e
      have e2 := List.append_cancel_left (List.append_cancel_left e)
      simp only [List.cons.injEq, true_and] at e2
      exact sep_split '_' s1 s2 _ _ n1 n2 e2
  refine ⟨key.1, key.2, fun inj => ?_⟩
  rw [inj key.2, key.1]

/-- Witness of C12 as amended: client "cli" of server "default". -/
theorem buildName_injective_without_underscore_witness :
    '_' ∉ "default".toList ∧
    (fullName demoCfg "cli".toList "default".toList).length < demoCfg.nameSize ∧
    "default".toList = "default".toList ∧
    demoCfg.rewriteName "cli".toList = demoCfg.rewriteName "cli".toList :=
  ⟨by decide, by decide,
   (buildName_injective_without_underscore demoCfg "cli".toList "default".toList
      "cli".toList "default".toList [] [] (by decide) (by decide) (by decide) (by decide)
      rfl).1,
   (buildName_injective_without_underscore demoCfg "cli".toList "default".toList
      "cli".toList "default".toList [] [] (by decide) (by decide) (by decide) (by decide)
      rfl).2.1⟩

/-- C13. In the default mode, for every client name and server name, two
different user ids get different names, given a buffer that holds "jack_sem."
and the digits of either id (and the terminating zero). -/
theorem buildName_separates_users (cfg : NameCfg) (u1 u2 : Int)
    (client server res1 res2 : List Char) (mode : cfg.promiscuous = false) (ne : u1 ≠ u2)
    (fit1 : 9 + (formatInt u1).length < cfg.nameSize)
    (fit2 : 9 + (formatInt u2).length < cfg.nameSize) :
    BuildName { cfg with uid := u1 } client server res1 cfg.nameSize ≠
      BuildName { cfg with uid := u2 } client server res2 cfg.nameSize := by
  intro e
  rw [buildName_pos _ client server res1 _ (by omega),
    buildName_pos _ client server res2 _ (by omega)] at e
  simp only [fullName, mode, Bool.false_eq_true, if_false] at e
  have l9 : "jack_sem.".toList.length = 9 := by decide
  rw [take_lead "jack_sem.".toList
      (formatInt u1 ++ '_' :: (server ++ '_' :: cfg.rewriteName client)) _ (by rw [l9]; omega),
    take_lead "jack_sem.".toList
      (formatInt u2 ++ '_' :: (server ++ '_' :: cfg.rewriteName client)) _ (by rw [l9]; omega)]
    at e
  have e2 := List.append_cancel_left e
  rw [l9] at e2
  have e3 := sep_split_take '_' (formatInt u1) (formatInt u2) _ _ _
    (formatInt_no_underscore u1) (formatInt_no_underscore u2) (by omega) (by omega) e2
  exact ne (formatInt_injective u1 u2 e3)

/-- Witness of C13: users 1000 and 1001 with the client "cli" of the server
"default". -/
theorem buildName_separates_users_witness :
    demoCfg.promiscuous = false ∧ (1000 : Int) ≠ 1001 ∧
    BuildName { demoCfg with uid := 1000 } "cli".toList "default".toList [] demoCfg.nameSize ≠
      BuildName { demoCfg with uid := 1001 } "cli".toList "default".toList [] demoCfg.nameSize :=
  ⟨rfl, by decide,
   buildName_separates_users demoCfg 1000 1001 "cli".toList "default".toList [] [] rfl
     (by decide) (by decide) (by decide)⟩

/-- C14. In promiscuous mode the name does not depend on the user id: for the
same client and server names any two user ids get the same name, which is the
text "jack_sem.", the server name, "_", the rewritten client name, cut to the
buffer. -/
theorem buildName_promiscuous_ignores_uid (cfg : NameCfg) (u1 u2 : Int)
    (client server res : List Char) (mode : cfg.promiscuous = true) :
    BuildName { cfg with uid := u1 } client server res cfg.nameSize =
      BuildName { cfg with uid := u2 } client server res cfg.nameSize ∧
    BuildName { cfg with uid := u1 } client server res cfg.nameSize =
      snprintf res cfg.nameSize
        ("jack_sem.".toList ++ server ++ "_".toList ++ cfg.rewriteName client) := by
  simp [BuildName, mode]

/-- Witness of C14: users 1000 and 1001 in promiscuous mode. -/
theorem buildName_promiscuous_ignores_uid_witness :
    ({ demoCfg with promiscuous := true } : NameCfg).promiscuous = true ∧
    BuildName { demoCfg with promiscuous := true, uid := 1000 } "cli".toList "default".toList []
        demoCfg.nameSize =
      BuildName { demoCfg with promiscuous := true, uid := 1001 } "cli".toList "default".toList []
        demoCfg.nameSize :=
  ⟨rfl,
   (buildName_promiscuous_ignores_uid { demoCfg with promiscuous := true } 1000 1001
      "cli".toList "default".toList [] rfl).1⟩

/-- C15 fails as stated. The client of the scenario is attached and holds the
name "jack_sem.1000_default_srv_cli"; `Connect` with the server name "other"
returns true and the stored name is no longer that one, whatever
`RewriteName` is: its first fifteen characters are now "jack_sem.1000_o". -/
theorem connect_again_renames :
    demoClient.fFutex ≠ NULL ∧
    ∀ rw : List Char → List Char,
      (Connect { rewriteName := rw, uid := 1000, promiscuous := false, nameSize := 256 }
        demoClient "srv_cli".toList "other".toList (demoWorld 0) demoAnswers).1 = true ∧
      (Connect { rewriteName := rw, uid := 1000, promiscuous := false, nameSize := 256 }
        demoClient "srv_cli".toList "other".toList (demoWorld 0) demoAnswers).2.1.fName ≠
        demoClient.fName := by
  refine ⟨by decide, fun rw => ⟨rfl, ?_⟩⟩
  intro e
  have e2 := congrArg (List.take 15) e
  rw [Connect, connect_name, buildName_pos _ _ _ _ _ (by show (0 : Nat) < 256; decide)] at e2
  simp only [fullName, Bool.false_eq_true, if_false] at e2
  rw [List.take_take] at e2
  have e3 : List.take 15 ("jack_sem.".toList ++
      (formatInt 1000 ++ '_' :: ("other".toList ++ '_' :: rw "srv_cli".toList))) =
      "jack_sem.1000_o".toList := by
    have : "jack_sem.".toList ++
        (formatInt 1000 ++ '_' :: ("other".toList ++ '_' :: rw "srv_cli".toList)) =
        "jack_sem.1000_o".toList ++ ("ther_".toList ++ rw "srv_cli".toList) := by
      have f : formatInt 1000 = "1000".toList := by decide
      rw [f]
      rfl
    rw [this]
    exact List.take_left' rfl
  have e4 : min 15 (256 - 1) = 15 := by decide
  rw [e4, e3] at e2
  revert e2
  decide

/-- C15 as amended. `Connect` on a handle that is already attached returns
true for every pair of name inputs and makes no system call: the world, hence
the shared word, and the descriptor, the pointer and the flags of the handle
are unchanged; the stored name is replaced by the name built from the
inputs. -/
theorem connect_again (cfg : NameCfg) (h : JackLinuxFutex) (name server : List Char)
    (w : World) (ans : SysAnswers) (att : h.fFutex ≠ NULL) :
    Connect cfg h name server w ans =
      (true, { h with fName := BuildName cfg name server h.fName cfg.nameSize }, w) := by
  simp [Connect, ConnectInput, att]

/-- Witness of C15 as amended: the attached client connects once more. -/
theorem connect_again_witness :
    demoClient.fFutex ≠ NULL ∧
    Connect demoCfg demoClient "srv_cli".toList "default".toList (demoWorld 0) demoAnswers =
      (true,
       { demoClient with
          fName := BuildName demoCfg "srv_cli".toList "default".toList demoClient.fName
            demoCfg.nameSize },
       demoWorld 0) :=
  ⟨by decide,
   connect_again demoCfg demoClient "srv_cli".toList "default".toList (demoWorld 0) demoAnswers
     (by decide)⟩

/-- C16. `Connect` on a deallocated handle, when no object is published under
the name built from the inputs, returns false whatever the system answers; the
handle has a null pointer and the descriptor -1, and the world differs only in
`errno` and the error log: no object is created, nothing is opened or
mapped. -/
theorem connect_absent_fails (cfg : NameCfg) (h : JackLinuxFutex) (name server : List Char)
    (w : World) (ans : SysAnswers) (d : h.fFutex = NULL)
    (absent : w.names (BuildName cfg name server h.fName cfg.nameSize) = none) :
    ∃ e, Connect cfg h name server w ans =
      (false,
       { h with fName := BuildName cfg name server h.fName cfg.nameSize, fSharedMem := -1 },
       jack_error { w with errno := e }
         (LogMsg.connectFailed (BuildName cfg name server h.fName cfg.nameSize))) ∧
      (Connect cfg h name server w ans).2.1.fFutex = NULL ∧
      (Connect cfg h name server w ans).2.2.names = w.names ∧
      (Connect cfg h name server w ans).2.2.nextObj = w.nextObj ∧
      (Connect cfg h name server w ans).2.2.fds = w.fds ∧
      (Connect cfg h name server w ans).2.2.maps = w.maps := by
  obtain ⟨a1, a2, a3⟩ := ans
  cases a1 with
  | err e =>
    have r : Connect cfg h name server w { shmOpen := SysAnswer.err e, ftruncate := a2, mmap := a3 } =
        (false,
         { h with fName := BuildName cfg name server h.fName cfg.nameSize, fSharedMem := -1 },
         jack_error { w with errno := e }
           (LogMsg.connectFailed (BuildName cfg name server h.fName cfg.nameSize))) := by
      simp [Connect, ConnectInput, d, shm_open_err]
    refine ⟨e, r, ?_⟩
    rw [r]
    exact ⟨d, rfl, rfl, rfl, rfl⟩
  | ok fd =>
    have r : Connect cfg h name server w { shmOpen := SysAnswer.ok fd, ftruncate := a2, mmap := a3 } =
        (false,
         { h with fName := BuildName cfg name server h.fName cfg.nameSize, fSharedMem := -1 },
         jack_error { w with errno := ENOENT }
           (LogMsg.connectFailed (BuildName cfg name server h.fName cfg.nameSize))) := by
      simp [Connect, ConnectInput, d, shm_open_absent w _ fd absent]
    refine ⟨ENOENT, r, ?_⟩
    rw [r]
    exact ⟨d, rfl, rfl, rfl, rfl⟩

/-- Witness of C16: a fresh handle connects to "nobody", which is not
published. -/
theorem connect_absent_fails_witness :
    demoFresh.fFutex = NULL ∧
    (demoWorld 0).names
      (BuildName demoCfg "nobody".toList "default".toList demoFresh.fName demoCfg.nameSize) =
      none ∧
    ∃ e, Connect demoCfg demoFresh "nobody".toList "default".toList (demoWorld 0) demoAnswers =
      (false,
       { demoFresh with
          fName := BuildName demoCfg "nobody".toList "default".toList demoFresh.fName
            demoCfg.nameSize,
          fSharedMem := -1 },
       jack_error { demoWorld 0 with errno := e }
         (LogMsg.connectFailed
           (BuildName demoCfg "nobody".toList "default".toList demoFresh.fName
             demoCfg.nameSize))) :=
  ⟨rfl, by decide,
   (connect_absent_fails demoCfg demoFresh "nobody".toList "default".toList (demoWorld 0)
      demoAnswers rfl (by decide)).imp (fun _ hx => hx.1)⟩

/-- C17, what the code does. On a deallocated handle whose name is published,
when `shm_open` succeeds and `mmap` fails, `Connect` returns true: the pointer
`MAP_FAILED` is not `NULL`, so the test of line 151 lets it through. The handle
then holds `MAP_FAILED` as its pointer and the descriptor, which stays open;
a later `Signal` (not flushing) or `Wait` dereferences the pointer and
faults. -/
theorem connect_mmap_failure_undetected (cfg : NameCfg) (h : JackLinuxFutex)
    (name server : List Char) (w : World) (fd e o : Nat) (a2 : SysAnswer)
    (env : List ParkEvent) (d : h.fFutex = NULL)
    (ex : w.names (BuildName cfg name server h.fName cfg.nameSize) = some o)
    (wf : w.maps MAP_FAILED = none) :
    Connect cfg h name server w
        { shmOpen := SysAnswer.ok fd, ftruncate := a2, mmap := SysAnswer.err e } =
      (true,
       { h with fName := BuildName cfg name server h.fName cfg.nameSize,
                fSharedMem := (fd : Int), fFutex := MAP_FAILED },
       { w with fds := fun x => if x = (fd : Int) then some o else w.fds x, errno := e }) ∧
    (Connect cfg h name server w
        { shmOpen := SysAnswer.ok fd, ftruncate := a2, mmap := SysAnswer.err e }).2.2.fds
      (fd : Int) = some o ∧
    (h.fFlush = false →
      Signal
        (Connect cfg h name server w
          { shmOpen := SysAnswer.ok fd, ftruncate := a2, mmap := SysAnswer.err e }).2.1
        (Connect cfg h name server w
          { shmOpen := SysAnswer.ok fd, ftruncate := a2, mmap := SysAnswer.err e }).2.2 = none) ∧
    Wait
      (Connect cfg h name server w
        { shmOpen := SysAnswer.ok fd, ftruncate := a2, mmap := SysAnswer.err e }).2.1
      (Connect cfg h name server w
        { shmOpen := SysAnswer.ok fd, ftruncate := a2, mmap := SysAnswer.err e }).2.2 env =
      Outcome.fault := by
  have hne : MAP_FAILED ≠ NULL := by decide
  have nn : ¬ ((fd : Int) < 0) := by omega
  have r : Connect cfg h name server w
        { shmOpen := SysAnswer.ok fd, ftruncate := a2, mmap := SysAnswer.err e } =
      (true,
       { h with fName := BuildName cfg name server h.fName cfg.nameSize,
                fSharedMem := (fd : Int), fFutex := MAP_FAILED },
       { w with fds := fun x => if x = (fd : Int) then some o else w.fds x, errno := e }) := by
    unfold Connect ConnectInput
    simp only [d, ne_eq, not_true_eq_false, if_false, shm_open_existing w _ false fd o ex, nn,
      mmap_err, hne]
  rw [r]
  refine ⟨rfl, by simp, ?_, ?_⟩
  · intro nf
    simp [Signal, hne, nf, compareAndSwap, wf]
  · simp only [Wait, if_neg hne]
    exact waitLoop_unmapped _ none _ env wf

/-- Witness of C17: a fresh handle connects to the published "srv_cli" while
`mmap` fails with `ENOMEM`. -/
theorem connect_mmap_failure_undetected_witness :
    demoFresh.fFutex = NULL ∧ (demoWorld 0).maps MAP_FAILED = none ∧
    Connect demoCfg demoFresh "srv_cli".toList "default".toList (demoWorld 0) demoNoMap =
      (true,
       { demoFresh with
          fName := BuildName demoCfg "srv_cli".toList "default".toList demoFresh.fName
            demoCfg.nameSize,
          fSharedMem := 9, fFutex := MAP_FAILED },
       { demoWorld 0 with fds := fun x => if x = 9 then some 7 else (demoWorld 0).fds x,
                          errno := 12 }) :=
  ⟨rfl, by decide,
   (connect_mmap_failure_undetected demoCfg demoFresh "srv_cli".toList "default".toList
      (demoWorld 0) 9 12 7 (SysAnswer.ok 0) [] rfl (by decide) (by decide)).1⟩

/-- C18, what the code does. When `shm_open` fails, `Allocate` returns false
and the world differs only in `errno` and the error log. When `shm_open`
succeeds and `mmap` fails, `Allocate` does not return false: `MAP_FAILED` passes
the test of line 122 and the store of line 130 faults. When `ftruncate` fails
its result is not looked at: on an object that was published before and holds
an `int`, `Allocate` returns true; on a new object, which is empty, the store
of line 130 faults. -/
theorem allocate_failures_undetected (cfg : NameCfg) (h : JackLinuxFutex)
    (name server : List Char) (value : Int) (w : World) (fd e : Nat)
    (wf : w.maps MAP_FAILED = none) :
    (∀ a2 a3, Allocate cfg h name server value w
        { shmOpen := SysAnswer.err e, ftruncate := a2, mmap := a3 } =
      some (false,
        { h with fName := BuildName cfg name server h.fName cfg.nameSize, fSharedMem := -1 },
        jack_error { w with errno := e }
          (LogMsg.allocateFailed (BuildName cfg name server h.fName cfg.nameSize)))) ∧
    (∀ a2, Allocate cfg h name server value w
        { shmOpen := SysAnswer.ok fd, ftruncate := a2, mmap := SysAnswer.err e } = none) ∧
    (∀ a o0, a ≠ NULL →
      w.names (BuildName cfg name server h.fName cfg.nameSize) = some o0 →
      sizeofInt ≤ w.size o0 →
      ∃ h' w', Allocate cfg h name server value w
        { shmOpen := SysAnswer.ok fd, ftruncate := SysAnswer.err e, mmap := SysAnswer.ok a } =
          some (true, h', w')) ∧
    (∀ a, a ≠ NULL → w.names (BuildName cfg name server h.fName cfg.nameSize) = none →
      Allocate cfg h name server value w
        { shmOpen := SysAnswer.ok fd, ftruncate := SysAnswer.err e, mmap := SysAnswer.ok a } =
          none) := by
  refine ⟨?_, ?_, ?_, ?_⟩
  · intro a2 a3
    simp [Allocate, shm_open_err]
  · intro a2
    exact allocate_mmap_failed cfg h name server value w fd e a2 wf
  · intro a o0 ha hn hs
    exact allocate_returns_true cfg h name server value w fd a _ ha (Or.inr ⟨o0, hn, hs⟩)
  · intro a ha hn
    have nn : ¬ ((fd : Int) < 0) := by omega
    simp [Allocate, shm_open, hn, nn, ftruncate_err, mmap, ha, sizeofInt]

/-- Witness of C18: a fresh handle allocates "cli" while `mmap` fails with
`ENOMEM`; the call faults. -/
theorem allocate_failures_undetected_witness :
    (demoWorld 0).maps MAP_FAILED = none ∧
    Allocate demoCfg demoFresh "cli".toList "default".toList 0 (demoWorld 0)
      { shmOpen := SysAnswer.ok 9, ftruncate := SysAnswer.ok 0, mmap := SysAnswer.err 12 } =
      none :=
  ⟨by decide,
   (allocate_failures_undetected demoCfg demoFresh "cli".toList "default".toList 0
      (demoWorld 0) 9 12 (by decide)).2.1 (SysAnswer.ok 0)⟩

/-- C19. Whenever `Allocate` returns true (in a world where nothing is mapped
at `MAP_FAILED`), the handle stores the name built from the inputs, its
pointer is not null and maps the object published under that name, its
descriptor is open on that object, and the shared word equals the initial
value passed in; when an object was published under that name before, it is
that object, whatever its word was. And `Allocate` does return true when its
three system calls succeed with a non-null address. -/
theorem allocate_success (cfg : NameCfg) (h : JackLinuxFutex) (name server : List Char)
    (value : Int) (w : World) (wf : w.maps MAP_FAILED = none) :
    (∀ ans h' w', Allocate cfg h name server value w ans = some (true, h', w') →
      h'.fName = BuildName cfg name server h.fName cfg.nameSize ∧ h'.fFutex ≠ NULL ∧
      ∃ o, w'.names h'.fName = some o ∧ w'.maps h'.fFutex = some o ∧
        w'.fds h'.fSharedMem = some o ∧ w'.word o = value ∧
        (∀ o0, w.names (BuildName cfg name server h.fName cfg.nameSize) = some o0 → o = o0)) ∧
    (∀ fd x a, a ≠ NULL →
      ∃ h' w', Allocate cfg h name server value w
        { shmOpen := SysAnswer.ok fd, ftruncate := SysAnswer.ok x, mmap := SysAnswer.ok a } =
          some (true, h', w')) := by
  refine ⟨?_, ?_⟩
  · intro ans h' w' r
    obtain ⟨e1, e2, _, _, o, n1, m1, f1, v1, _, u1⟩ :=
      allocate_true_inv cfg h h' name server value w w' ans wf r
    exact ⟨e1, e2, o, n1, m1, f1, v1, u1⟩
  · intro fd x a ha
    exact allocate_returns_true cfg h name server value w fd a _ ha (Or.inl ⟨x, rfl⟩)

/-- Witness of C19: the server allocates over the published "srv_cli", whose
word holds a pending signal, with the initial value 0. -/
theorem allocate_success_witness :
    (demoWorld 1).maps MAP_FAILED = none ∧
    ∃ h' w', Allocate demoCfg demoFresh "srv_cli".toList "default".toList 0 (demoWorld 1)
      { shmOpen := SysAnswer.ok 9, ftruncate := SysAnswer.ok 0, mmap := SysAnswer.ok 12288 } =
        some (true, h', w') :=
  ⟨by decide,
   (allocate_success demoCfg demoFresh "srv_cli".toList "default".toList 0 (demoWorld 1)
      (by decide)).2 9 0 12288 (by decide)⟩

/-- C20. Teardown is idempotent. `Disconnect` always returns true. On a
handle whose pointer is null `Disconnect` and `Destroy` leave handle and world
as they are. `Disconnect` after `Disconnect` is `Disconnect`, `Destroy` after
`Destroy` is `Destroy`. After either one the pointer is null, and the
descriptor is -1 when the handle was attached or was deallocated with the
descriptor -1. -/
theorem teardown_idempotent (h : JackLinuxFutex) (w : World) :
    (Disconnect h w).1 = true ∧
    (h.fFutex = NULL → Disconnect h w = (true, h, w) ∧ Destroy h w = (h, w)) ∧
    Disconnect (Disconnect h w).2.1 (Disconnect h w).2.2 = Disconnect h w ∧
    Destroy (Destroy h w).1 (Destroy h w).2 = Destroy h w ∧
    (Disconnect h w).2.1.fFutex = NULL ∧ (Destroy h w).1.fFutex = NULL ∧
    ((h.fFutex ≠ NULL ∨ h.fSharedMem = -1) →
      (Disconnect h w).2.1.fSharedMem = -1 ∧ (Destroy h w).1.fSharedMem = -1) := by
  by_cases d : h.fFutex = NULL
  · have e1 : Disconnect h w = (true, h, w) := by simp [Disconnect, d]
    have e2 : Destroy h w = (h, w) := by simp [Destroy, d]
    refine ⟨by rw [e1], fun _ => ⟨e1, e2⟩, ?_, ?_, by rw [e1]; exact d, by rw [e2]; exact d, ?_⟩
    · rw [e1]; exact e1
    · rw [e2]; exact e2
    · rintro (hh | hh)
      · exact absurd d hh
      · rw [e1, e2]; exact ⟨hh, hh⟩
  · refine ⟨by simp [Disconnect, d], fun hh => absurd hh d, ?_, ?_, ?_, ?_, ?_⟩
    · simp [Disconnect, d]
    · simp [Destroy, d]
    · simp [Disconnect, d]
    · simp [Destroy, d]
    · intro _
      simp [Disconnect, Destroy, d]

/-- Witness of C20: on a fresh handle both teardown methods change nothing. -/
theorem teardown_idempotent_witness :
    demoFresh.fFutex = NULL ∧
    Disconnect demoFresh (demoWorld 0) = (true, demoFresh, demoWorld 0) ∧
    Destroy demoFresh (demoWorld 0) = (demoFresh, demoWorld 0) :=
  ⟨rfl, (teardown_idempotent demoFresh (demoWorld 0)).2.1 rfl⟩

/-- C21. `Disconnect` on a handle attached to the object published under its
name returns true and leaves the namespace, the sizes and every shared word as
they are. A `Connect` of the same handle with name inputs that build the stored
name, its `shm_open` and `mmap` succeeding, returns true, maps the same object
and reads the word as it was before the `Disconnect`, whatever its value.
Mappings of the object at other addresses and descriptors other than the
handle's own survive the `Disconnect` and the `Connect`. -/
theorem disconnect_keeps_object (cfg : NameCfg) (h : JackLinuxFutex)
    (client server : List Char) (w : World) (o fd a : Nat) (x : SysAnswer)
    (att : Attached h w o) (pub : w.names h.fName = some o) (sized : sizeofInt ≤ w.size o)
    (same : BuildName cfg client server h.fName cfg.nameSize = h.fName) (ha : a ≠ NULL) :
    (Disconnect h w).1 = true ∧
    (Disconnect h w).2.2.names = w.names ∧ (Disconnect h w).2.2.word = w.word ∧
    (Disconnect h w).2.2.size = w.size ∧
    (Connect cfg (Disconnect h w).2.1 client server (Disconnect h w).2.2
      { shmOpen := SysAnswer.ok fd, ftruncate := x, mmap := SysAnswer.ok a }).1 = true ∧
    (Connect cfg (Disconnect h w).2.1 client server (Disconnect h w).2.2
      { shmOpen := SysAnswer.ok fd, ftruncate := x, mmap := SysAnswer.ok a }).2.2.maps
      (Connect cfg (Disconnect h w).2.1 client server (Disconnect h w).2.2
        { shmOpen := SysAnswer.ok fd, ftruncate := x, mmap := SysAnswer.ok a }).2.1.fFutex =
      some o ∧
    (Connect cfg (Disconnect h w).2.1 client server (Disconnect h w).2.2
      { shmOpen := SysAnswer.ok fd, ftruncate := x, mmap := SysAnswer.ok a }).2.2.deref
      (Connect cfg (Disconnect h w).2.1 client server (Disconnect h w).2.2
        { shmOpen := SysAnswer.ok fd, ftruncate := x, mmap := SysAnswer.ok a }).2.1.fFutex =
      some (w.word o) ∧
    (Connect cfg (Disconnect h w).2.1 client server (Disconnect h w).2.2
      { shmOpen := SysAnswer.ok fd, ftruncate := x, mmap := SysAnswer.ok a }).2.2.names =
      w.names ∧
    (∀ p, p ≠ h.fFutex → w.maps p = some o →
      (Disconnect h w).2.2.maps p = some o ∧
      (Connect cfg (Disconnect h w).2.1 client server (Disconnect h w).2.2
        { shmOpen := SysAnswer.ok fd, ftruncate := x, mmap := SysAnswer.ok a }).2.2.maps p =
        some o) ∧
    (∀ d, d ≠ h.fSharedMem → (Disconnect h w).2.2.fds d = w.fds d) := by
  obtain ⟨hn, _⟩ := att
  obtain ⟨c1, c2, c3, c4, _, c6⟩ := close_frame (munmap w h.fFutex) h.fSharedMem
  have c1 : (close (munmap w h.fFutex) h.fSharedMem).names = w.names := c1
  have c2 : (close (munmap w h.fFutex) h.fSharedMem).word = w.word := c2
  have c3 : (close (munmap w h.fFutex) h.fSharedMem).size = w.size := c3
  have c6 : ∀ d, d ≠ h.fSharedMem →
      (close (munmap w h.fFutex) h.fSharedMem).fds d = w.fds d := c6
  rw [disconnect_attached h w hn]
  simp only
  have pub1 : (close (munmap w h.fFutex) h.fSharedMem).names
      (BuildName cfg client server h.fName cfg.nameSize) = some o := by
    rw [same, c1]; exact pub
  have sized1 : sizeofInt ≤ (close (munmap w h.fFutex) h.fSharedMem).size o := by
    rw [c3]; exact sized
  have r := connect_attaches cfg { h with fFutex := NULL, fSharedMem := -1 } client server
    (close (munmap w h.fFutex) h.fSharedMem) fd a o x rfl ha pub1 sized1
  simp only [Connect]
  rw [r]
  refine ⟨trivial, c1, c2, c3, rfl, by simp, ?_, c1, ?_, ?_⟩
  · simp [World.deref, c2]
  · intro p hp hm
    have m1 : (close (munmap w h.fFutex) h.fSharedMem).maps p = some o := by
      rw [c4]; simp [munmap, hp, hm]
    refine ⟨m1, ?_⟩
    simp only
    by_cases hpa : p = a
    · simp [hpa]
    · simp [hpa, m1]
  · intro d hd
    exact c6 d hd

/-- Witness of C21: the client of the scenario disconnects and connects again
while a signal is pending. -/
theorem disconnect_keeps_object_witness :
    Attached demoClient (demoWorld 1) 7 ∧
    (demoWorld 1).names demoClient.fName = some 7 ∧
    BuildName demoCfg "srv_cli".toList "default".toList demoClient.fName demoCfg.nameSize =
      demoClient.fName ∧
    (Connect demoCfg (Disconnect demoClient (demoWorld 1)).2.1 "srv_cli".toList
      "default".toList (Disconnect demoClient (demoWorld 1)).2.2
      { shmOpen := SysAnswer.ok 9, ftruncate := SysAnswer.ok 0,
        mmap := SysAnswer.ok 12288 }).2.2.deref
      (Connect demoCfg (Disconnect demoClient (demoWorld 1)).2.1 "srv_cli".toList
        "default".toList (Disconnect demoClient (demoWorld 1)).2.2
        { shmOpen := SysAnswer.ok 9, ftruncate := SysAnswer.ok 0,
          mmap := SysAnswer.ok 12288 }).2.1.fFutex =
      some ((demoWorld 1).word 7) :=
  ⟨⟨by decide, by decide⟩, by decide, by decide,
   (disconnect_keeps_object demoCfg demoClient "srv_cli".toList "default".toList (demoWorld 1)
      7 9 12288 (SysAnswer.ok 0) ⟨by decide, by decide⟩ (by decide) (by decide) (by decide)
      (by decide)).2.2.2.2.2.2.1⟩

/-- C22. After `Destroy` on an attached handle no object is published under
the handle's name, and a `Connect` of a deallocated handle with name inputs
that build that name returns false, whatever the system answers, and leaves
that handle deallocated. -/
theorem destroy_unpublishes (cfg : NameCfg) (h h3 : JackLinuxFutex)
    (client server : List Char) (w : World) (ans : SysAnswers)
    (att : h.fFutex ≠ NULL) (d3 : h3.fFutex = NULL)
    (same : BuildName cfg client server h3.fName cfg.nameSize = h.fName) :
    (Destroy h w).1.fName = h.fName ∧ (Destroy h w).1.fFutex = NULL ∧
    (Destroy h w).2.names h.fName = none ∧
    (Connect cfg h3 client server (Destroy h w).2 ans).1 = false ∧
    (Connect cfg h3 client server (Destroy h w).2 ans).2.1.fFutex = NULL := by
  rw [destroy_attached h w att]
  have gone := shm_unlink_gone (close (munmap w h.fFutex) h.fSharedMem) h.fName
  have r := connectInput_absent cfg h3 client server
    (shm_unlink (close (munmap w h.fFutex) h.fSharedMem) h.fName) ans d3
    (by rw [same]; exact gone)
  exact ⟨rfl, rfl, gone, r.1, r.2.1⟩

/-- Witness of C22: the server of the scenario destroys "srv_cli" and a fresh
handle tries to connect to it. -/
theorem destroy_unpublishes_witness :
    demoServer.fFutex ≠ NULL ∧ demoFresh.fFutex = NULL ∧
    BuildName demoCfg "srv_cli".toList "default".toList demoFresh.fName demoCfg.nameSize =
      demoServer.fName ∧
    (Connect demoCfg demoFresh "srv_cli".toList "default".toList
      (Destroy demoServer (demoWorld 0)).2 demoAnswers).1 = false :=
  ⟨by decide, rfl, by decide,
   (destroy_unpublishes demoCfg demoServer demoFresh "srv_cli".toList "default".toList
      (demoWorld 0) demoAnswers (by decide) rfl (by decide)).2.2.2.1⟩

/-- C23. The shared word stays among 0 and 1. On a handle attached to an
object whose word is 0 or 1: `Signal` and `SignalAll` leave it 0 or 1 and write
nothing but 1 over 0; `Wait` and `TimedWait` leave it 0 or 1 as long as the
values other processes leave are 0 or 1, and with no other process writing
they write nothing but 0 over 1; `Connect` and `Disconnect`, through any
handle, write no word at all. An `Allocate` that returns true with an initial
value of 0 or 1 leaves the word of the object it attached at 0 or 1. -/
theorem word_stays_bit (h : JackLinuxFutex) (w : World) (o : Nat) (att : Attached h w o)
    (bit : isBit (w.word o)) :
    (∀ b h' w', Signal h w = some (b, h', w') →
      isBit (w'.word o) ∧
      (w'.word = w.word ∨ (w.word o = 0 ∧ w'.word = (w.store o 1).word))) ∧
    (∀ b h' w', SignalAll h w = some (b, h', w') →
      isBit (w'.word o) ∧
      (w'.word = w.word ∨ (w.word o = 0 ∧ w'.word = (w.store o 1).word))) ∧
    (∀ env w', (∀ ev ∈ env, ∀ v, ev.interfere = some v → isBit v) →
      (Wait h w env).world? = some w' → isBit (w'.word o)) ∧
    (∀ usec env w', (∀ ev ∈ env, ∀ v, ev.interfere = some v → isBit v) →
      (TimedWait h usec w env).world? = some w' → isBit (w'.word o)) ∧
    (∀ env w', (∀ ev ∈ env, ev.interfere = none) → (Wait h w env).world? = some w' →
      w'.word = w.word ∨ (w.word o = 1 ∧ w'.word = (w.store o 0).word)) ∧
    (∀ usec env w', (∀ ev ∈ env, ev.interfere = none) →
      (TimedWait h usec w env).world? = some w' →
      w'.word = w.word ∨ (w.word o = 1 ∧ w'.word = (w.store o 0).word)) ∧
    (∀ cfg hx name server ans, (Connect cfg hx name server w ans).2.2.word = w.word) ∧
    (∀ hx, (Disconnect hx w).2.2.word = w.word) ∧
    (∀ cfg hA name server value wA ans hA' wA', wA.maps MAP_FAILED = none → isBit value →
      Allocate cfg hA name server value wA ans = some (true, hA', wA') →
      ∃ oA, wA'.maps hA'.fFutex = some oA ∧ isBit (wA'.word oA)) := by
  have sig : ∀ b h' w', Signal h w = some (b, h', w') →
      isBit (w'.word o) ∧
      (w'.word = w.word ∨ (w.word o = 0 ∧ w'.word = (w.store o 1).word)) := by
    intro b h' w' r
    cases nf : h.fFlush with
    | true =>
      have e : Signal h w = some (true, h, w) := by simp [Signal, att.1, nf]
      rw [e] at r
      injection r with r
      injection r with _ r
      injection r with _ r
      subst r
      exact ⟨bit, Or.inl rfl⟩
    | false =>
      by_cases hv : w.word o = 0
      · rw [signal_idle h w o att nf hv] at r
        injection r with r
        injection r with _ r
        injection r with _ r
        subst r
        exact ⟨Or.inr (by simp), Or.inr ⟨hv, rfl⟩⟩
      · rw [signal_pending h w o att nf hv] at r
        injection r with r
        injection r with _ r
        injection r with _ r
        subst r
        exact ⟨bit, Or.inl rfl⟩
  obtain ⟨hn, hm⟩ := att
  refine ⟨sig, sig, ?_, ?_, ?_, ?_, ?_, ?_, ?_⟩
  · intro env w' hnoise hr
    simp only [Wait, if_neg hn] at hr
    exact waitLoop_bit h none o env w w' hm bit hnoise hr
  · intro usec env w' hnoise hr
    simp only [TimedWait, if_neg hn] at hr
    exact waitLoop_bit h _ o env w w' hm bit hnoise hr
  · intro env w' hq hr
    simp only [Wait, if_neg hn] at hr
    exact waitLoop_only_write h none o env w w' hm hq hr
  · intro usec env w' hq hr
    simp only [TimedWait, if_neg hn] at hr
    exact waitLoop_only_write h _ o env w w' hm hq hr
  · intro cfg hx name server ans
    exact connect_word cfg hx name server w ans
  · intro hx
    exact disconnect_word hx w
  · intro cfg hA name server value wA ans hA' wA' wf hb r
    obtain ⟨_, _, _, _, oA, _, m1, _, v1, _, _⟩ :=
      allocate_true_inv cfg hA hA' name server value wA wA' ans wf r
    exact ⟨oA, m1, by rw [v1]; exact hb⟩

/-- Witness of C23: the server of the scenario signals on the idle word. -/
theorem word_stays_bit_witness :
    Attached demoServer (demoWorld 0) 7 ∧ isBit ((demoWorld 0).word 7) ∧
    isBit (((demoWorld 0).store 7 1).word 7) :=
  ⟨⟨by decide, by decide⟩, Or.inl rfl,
   ((word_stays_bit demoServer (demoWorld 0) 7 ⟨by decide, by decide⟩ (Or.inl rfl)).1
      true demoServer
      (((demoWorld 0).store 7 1).issue (KCall.futexWake demoServer.fFutex demoServer.fPrivate 1))
      rfl).1⟩

/-- C24. On an allocated, non-flushing handle `Signal` returns true. When the
word is 0 it becomes 1 and exactly one wake call, for one waiter, is added to
the trace; when the word is not 0 the world is unchanged: no call, same word.
So a wake call is issued if and only if the word was 0. Cut into its atomic
steps, the compare-and-exchange comes first (the word is 1 and the trace
untouched before the wake step) and the wake step adds the call. -/
theorem signal_wakes_iff_idle (h : JackLinuxFutex) (w : World) (o : Nat)
    (att : Attached h w o) (nf : h.fFlush = false) :
    (w.word o = 0 →
      Signal h w =
        some (true, h, (w.store o 1).issue (KCall.futexWake h.fFutex h.fPrivate 1))) ∧
    (w.word o ≠ 0 → Signal h w = some (true, h, w)) ∧
    (∃ w', Signal h w = some (true, h, w') ∧
      (w.word o = 0 →
        w'.trace = w.trace ++ [KCall.futexWake h.fFutex h.fPrivate 1] ∧ w'.word o = 1) ∧
      (w.word o ≠ 0 → w'.trace = w.trace ∧ w'.word = w.word) ∧
      (wakeCount w'.trace = wakeCount w.trace + 1 ↔ w.word o = 0) ∧
      wakeCount w'.trace ≤ wakeCount w.trace + 1 ∧
      parkCount w'.trace = parkCount w.trace) ∧
    (∀ hW wp, w.word o = 0 →
      stepSignaler hW h { w := w, waiter := wp, signaler := SignalPc.atCas } =
        { w := w.store o 1, waiter := wp, signaler := SignalPc.atWake }) ∧
    (∀ hW wp w1,
      (stepSignaler hW h { w := w1, waiter := wp, signaler := SignalPc.atWake }).w.trace =
        w1.trace ++ [KCall.futexWake h.fFutex h.fPrivate 1]) := by
  refine ⟨fun hv => signal_idle h w o att nf hv, fun hv => signal_pending h w o att nf hv,
    ?_, ?_, ?_⟩
  · by_cases hv : w.word o = 0
    · refine ⟨_, signal_idle h w o att nf hv, fun _ => ⟨rfl, by simp⟩,
        fun hne => absurd hv hne, ?_, ?_, ?_⟩
      · simp [wakeCount_append, wakeCount, hv]
      · simp [wakeCount_append, wakeCount]
      · simp [parkCount_append, parkCount]
    · refine ⟨w, signal_pending h w o att nf hv, fun h0 => absurd h0 hv,
        fun _ => ⟨rfl, rfl⟩, ?_, by omega, rfl⟩
      constructor
      · intro e; omega
      · intro h0; exact absurd h0 hv
  · intro hW wp hv
    simp [stepSignaler, cas_hit w h.fFutex o 0 1 att.2 hv]
  · intro hW wp w1
    simp only [stepSignaler]
    split_ifs <;> cases wp <;> simp [wakeSleeper]

/-- Witness of C24: the server of the scenario signals on the idle word. -/
theorem signal_wakes_iff_idle_witness :
    Attached demoServer (demoWorld 0) 7 ∧ demoServer.fFlush = false ∧
    (demoWorld 0).word 7 = 0 ∧
    Signal demoServer (demoWorld 0) =
      some (true, demoServer,
        ((demoWorld 0).store 7 1).issue
          (KCall.futexWake demoServer.fFutex demoServer.fPrivate 1)) :=
  ⟨⟨by decide, by decide⟩, rfl, rfl,
   (signal_wakes_iff_idle demoServer (demoWorld 0) 7 ⟨by decide, by decide⟩ rfl).1 rfl⟩

/-- C25. For `0 ≤ usec < 2^32 * 10^6` the `timespec` that `TimedWait` hands to
the kernel denotes exactly `usec` microseconds: `tv_sec` is `usec / 1000000`,
`tv_nsec` is `(usec % 1000000) * 1000`, between 0 and `10^9`, and
`tv_sec * 10^9 + tv_nsec = usec * 1000`; the conversions to the 32-bit
unsigned seconds and to the `int` nanoseconds lose nothing; and the park call
of `TimedWait` carries this `timespec`. -/
theorem timeout_exact (usec : Int) (r0 : 0 ≤ usec) (r1 : usec < 4294967296 * 1000000) :
    (timeoutOf usec).tv_sec = usec / 1000000 ∧
    (timeoutOf usec).tv_nsec = usec % 1000000 * 1000 ∧
    0 ≤ (timeoutOf usec).tv_nsec ∧ (timeoutOf usec).tv_nsec < 1000000000 ∧
    (timeoutOf usec).tv_sec * 1000000000 + (timeoutOf usec).tv_nsec = usec * 1000 ∧
    toUInt32 (usec.tdiv 1000000) = usec.tdiv 1000000 ∧
    toInt32 (usec.tmod 1000000 * 1000) = usec.tmod 1000000 * 1000 ∧
    (∀ h w o, Attached h w o → w.word o ≠ 1 →
      TimedWait h usec w [] =
        Outcome.parked h
          (w.issue (KCall.futexWait h.fFutex h.fPrivate 0 (some (timeoutOf usec))))) := by
  have d1 : usec.tdiv 1000000 = usec / 1000000 := Int.tdiv_eq_ediv r0 (by decide)
  have d2 : usec.tmod 1000000 = usec % 1000000 := Int.tmod_eq_emod r0 (by decide)
  have q0 : 0 ≤ usec / 1000000 := by omega
  have q1 : usec / 1000000 < 4294967296 := by omega
  have m0 : 0 ≤ usec % 1000000 := by omega
  have m1 : usec % 1000000 < 1000000 := by omega
  have u1 : toUInt32 (usec.tdiv 1000000) = usec.tdiv 1000000 := by
    rw [d1, toUInt32, Int.emod_eq_of_lt q0 q1]
  have u2 : toInt32 (usec.tmod 1000000 * 1000) = usec.tmod 1000000 * 1000 := by
    rw [d2, toInt32, Int.emod_eq_of_lt (by omega) (by omega)]
    omega
  have s1 : (timeoutOf usec).tv_sec = usec / 1000000 := by
    show toUInt32 (usec.tdiv 1000000) = usec / 1000000
    rw [u1, d1]
  have s2 : (timeoutOf usec).tv_nsec = usec % 1000000 * 1000 := by
    show toInt32 (usec.tmod 1000000 * 1000) = usec % 1000000 * 1000
    rw [u2, d2]
  refine ⟨s1, s2, by rw [s2]; omega, by rw [s2]; omega, by rw [s1, s2]; omega, u1, u2, ?_⟩
  intro h w o att hv
  simp only [TimedWait, if_neg att.1]
  exact waitLoop_nil_miss h _ w o att.2 hv

/-- Witness of C25: a timeout of 1.5 seconds. -/
theorem timeout_exact_witness :
    (0 : Int) ≤ 1500000 ∧ (1500000 : Int) < 4294967296 * 1000000 ∧
    (timeoutOf 1500000).tv_sec = 1500000 / 1000000 ∧
    (timeoutOf 1500000).tv_nsec = 1500000 % 1000000 * 1000 :=
  ⟨by decide, by decide, (timeout_exact 1500000 (by decide) (by decide)).1,
   (timeout_exact 1500000 (by decide) (by decide)).2.1⟩

/-- C26. When the shared word holds a value that is neither 0 nor 1 the
primitive is stuck. `Signal` on an allocated, non-flushing handle returns true
and leaves the world as it is. `Wait` on an allocated handle never returns
true as long as no other process writes the word; answered with
`EWOULDBLOCK` each time, it does not return at all: after `n` such answers it
has issued `n + 1` park calls. In the race of one `Wait` and one `Signal`,
along every schedule the word keeps its value, no wake call is issued, and the
waiting thread neither returns nor sleeps: its compare-and-exchange fails and
leads to the park call, and the park call, the word not being 0, comes back at
once to the compare-and-exchange. -/
theorem odd_word_is_stuck (hW hS : JackLinuxFutex) (w : World) (o : Nat)
    (aW : Attached hW w o) (aS : Attached hS w o) (nf : hS.fFlush = false)
    (key : futexKey w hS.fFutex hS.fPrivate = futexKey w hW.fFutex hW.fPrivate)
    (n0 : w.word o ≠ 0) (n1 : w.word o ≠ 1) :
    Signal hS w = some (true, hS, w) ∧
    (∀ env, (∀ ev ∈ env, ev.interfere = none) → (Wait hW w env).result? ≠ some true) ∧
    (∀ env, (∀ ev ∈ env, ev.ret = ParkRet.failed EWOULDBLOCK ∧ ev.interfere = none) →
      ∃ w', Wait hW w env = Outcome.parked hW w' ∧
        w'.trace = w.trace ++ List.replicate (env.length + 1) (parkCall hW none)) ∧
    (∀ sched,
      ((Race.init w).run hW hS sched).w.word o = w.word o ∧
      wakeCount ((Race.init w).run hW hS sched).w.trace = wakeCount w.trace ∧
      ((Race.init w).run hW hS sched).waiter.awake = true ∧
      (∀ b, ((Race.init w).run hW hS sched).waiter ≠ WaitPc.returned b) ∧
      (((Race.init w).run hW hS sched).waiter = WaitPc.atCas →
        (stepWaiter hW ((Race.init w).run hW hS sched)).waiter = WaitPc.atPark) ∧
      (((Race.init w).run hW hS sched).waiter = WaitPc.atPark →
        (stepWaiter hW ((Race.init w).run hW hS sched)).waiter = WaitPc.atCas)) := by
  obtain ⟨nW, mW⟩ := aW
  refine ⟨signal_pending hS w o aS nf n0, ?_, ?_, ?_⟩
  · intro env hq
    simp only [Wait, if_neg nW]
    exact waitLoop_never_true hW none o env w mW n1 hq
  · intro env hq
    simp only [Wait, if_neg nW]
    obtain ⟨w2, e1, e2, e3, e4, _⟩ := waitLoop_quiet_prefix hW none o [] env w mW n1
      (fun x hx => ⟨by rw [(hq x hx).1]; decide, (hq x hx).2⟩)
    rw [List.append_nil] at e1
    rw [e1, waitLoop_nil_miss hW none w2 o (by rw [e2]; exact mW) (by rw [e3]; exact n1)]
    refine ⟨_, rfl, ?_⟩
    rw [issue_trace, e4, List.replicate_succ']
    simp
  · intro sched
    obtain ⟨nS, mS⟩ := aS
    obtain ⟨e1, e2⟩ := race_run_view hW hS o nW nS nf sched (Race.init w) mW mS key
    have st0 : ((Race.init w).view o).stuck (w.word o) (wakeCount w.trace) := by
      simp [Race.init, Race.view, RaceView.stuck, WaitPc.awake]
    have st1 := view_stuck_run (w.word o) (wakeCount w.trace) n0 n1 sched _ st0
    rw [← e1] at st1
    have mW2 : ((Race.init w).run hW hS sched).w.maps hW.fFutex = some o := by
      rw [e2]; exact mW
    have mS2 : ((Race.init w).run hW hS sched).w.maps hS.fFutex = some o := by
      rw [e2]; exact mS
    have key2 : futexKey ((Race.init w).run hW hS sched).w hS.fFutex hS.fPrivate =
        futexKey ((Race.init w).run hW hS sched).w hW.fFutex hW.fPrivate := by
      rw [futexKey_congr _ (Race.init w).w _ _ e2, futexKey_congr _ (Race.init w).w _ _ e2]
      exact key
    have stp := (race_step_view hW hS o nW nS nf _ mW2 mS2 key2 Actor.waiter).1
    generalize (Race.init w).run hW hS sched = st at st1 stp
    obtain ⟨w1, wp, sp⟩ := st
    have stp2 : (stepWaiter hW { w := w1, waiter := wp, signaler := sp }).waiter =
        ((Race.view o { w := w1, waiter := wp, signaler := sp }).step Actor.waiter).waiter := by
      rw [← stp]; rfl
    rw [stp2]
    clear stp stp2
    obtain ⟨s1, s2, s3, _⟩ := st1
    simp only [Race.view] at s1 s2 s3
    refine ⟨s1, s2, s3, ?_, ?_, ?_⟩
    · intro b hb
      simp only at hb
      rw [hb] at s3
      simp [WaitPc.awake] at s3
    · intro hc
      simp only at hc
      subst hc
      simp [Race.view, RaceView.step, s1, n1]
    · intro hc
      simp only at hc
      subst hc
      simp [Race.view, RaceView.step, s1, n0]

/-- Witness of C26: the word of the scenario holds 2, as after an `Allocate`
with the initial value 2. -/
theorem odd_word_is_stuck_witness :
    (∃ h' w', Allocate demoCfg demoFresh "srv_cli".toList "default".toList 2 (demoWorld 0)
      demoAnswers = some (true, h', w') ∧ w'.word 7 = 2) ∧
    Attached demoClient (demoWorld 2) 7 ∧ Attached demoServer (demoWorld 2) 7 ∧
    (demoWorld 2).word 7 ≠ 0 ∧ (demoWorld 2).word 7 ≠ 1 ∧
    Signal demoServer (demoWorld 2) = some (true, demoServer, demoWorld 2) :=
  ⟨⟨_, _, rfl, rfl⟩, ⟨by decide, by decide⟩, ⟨by decide, by decide⟩, by decide, by decide,
   (odd_word_is_stuck demoClient demoServer (demoWorld 2) 7 ⟨by decide, by decide⟩
      ⟨by decide, by decide⟩ rfl rfl (by decide) (by decide)).1⟩


/-- C27. For every parameter list, the number of periods among the `args`
that `driver_initialize` hands to `Open` is at least 2: it is 2 when the list
has no 'n' parameter, and the larger of 2 and `v` when the last 'n' parameter
has the value `v`. And `args` are handed over for every list whose 'z'
parameters, if any, name a dithering mode. -/
theorem nperiods_at_least_two (params : List jack_driver_param_t) :
    (∀ args, driver_initialize_args params = some args →
      2 ≤ args.user_nperiods ∧
      (¬ hasOption 'n' params → args.user_nperiods = 2) ∧
      (∀ pre p post, params = pre ++ p :: post → p.character = 'n' → ¬ hasOption 'n' post →
        args.user_nperiods = max 2 p.value.ui)) ∧
    ((∀ p ∈ params, p.character = 'z' → (dither_opt p.value.c).isSome = true) →
      ∃ args, driver_initialize_args params = some args) := by
  refine ⟨?_, ?_⟩
  · intro args h
    obtain ⟨a1, hp, en, _⟩ := driver_args_inv params args h
    rw [en]
    refine ⟨parseLoop_nperiods_ge params initialArgs a1 hp (le_refl 2), ?_, ?_⟩
    · intro hno
      exact parseLoop_nperiods_none params initialArgs a1 hp
        (fun p hp2 hc => hno ⟨p, hp2, hc⟩)
    · intro pre p post e hc hno
      subst e
      obtain ⟨a2, _, h2⟩ := parseLoop_append pre (p :: post) initialArgs a1 hp
      simp only [parseLoop] at h2
      cases hq : applyParam a2 p with
      | none => rw [hq] at h2; cases h2
      | some a3 =>
        rw [hq] at h2
        have e3 := applyParam_nperiods a2 a3 p hq
        rw [if_pos hc] at e3
        rw [parseLoop_nperiods_none post a3 a1 h2 (fun q hq2 hc2 => hno ⟨q, hq2, hc2⟩), e3]
  · intro hz
    obtain ⟨a1, h1⟩ := parseLoop_total params initialArgs hz
    unfold driver_initialize_args
    rw [h1]
    simp only
    split_ifs <;> exact ⟨_, rfl⟩

/-- Witness of C27: the list `-n 5 -n 1` gives 2 periods. -/
theorem nperiods_at_least_two_witness :
    driver_initialize_args [demoParam 'n' 5, demoParam 'n' 1] =
      some { initialArgs with capture := true, playback := true } ∧
    ({ initialArgs with capture := true, playback := true } :
      ioaudio_driver_args_t).user_nperiods = max 2 (demoParam 'n' 1).value.ui :=
  ⟨by decide,
   ((nperiods_at_least_two [demoParam 'n' 5, demoParam 'n' 1]).1 _ (by decide)).2.2
     [demoParam 'n' 5] (demoParam 'n' 1) [] rfl rfl (by simp [hasOption])⟩

/-- C28. For every parameter list, among the `args` that `driver_initialize`
hands to `Open` at least one of capture and playback is enabled: both when the
list has none of the 'C', 'P', 'D' parameters or has 'D'; capture alone when
it has 'C' and neither 'P' nor 'D'; playback alone when it has 'P' and neither
'C' nor 'D'. -/
theorem capture_or_playback (params : List jack_driver_param_t)
    (args : ioaudio_driver_args_t) (h : driver_initialize_args params = some args) :
    (args.capture = true ∨ args.playback = true) ∧
    (¬ hasOption 'C' params → ¬ hasOption 'P' params → ¬ hasOption 'D' params →
      args.capture = true ∧ args.playback = true) ∧
    (hasOption 'D' params → args.capture = true ∧ args.playback = true) ∧
    (hasOption 'C' params → ¬ hasOption 'P' params → ¬ hasOption 'D' params →
      args.capture = true ∧ args.playback = false) ∧
    (hasOption 'P' params → ¬ hasOption 'C' params → ¬ hasOption 'D' params →
      args.capture = false ∧ args.playback = true) := by
  obtain ⟨a1, hp, _, hcase⟩ := driver_args_inv params args h
  obtain ⟨f1, f2⟩ := parseLoop_flags params initialArgs a1 hp
  have i1 : initialArgs.capture = false := rfl
  have i2 : initialArgs.playback = false := rfl
  rw [i1] at f1
  rw [i2] at f2
  generalize hasOption 'C' params = oc at f1 f2 ⊢
  generalize hasOption 'P' params = op at f1 f2 ⊢
  generalize hasOption 'D' params = od at f1 f2 ⊢
  clear hp h i1 i2
  rcases hcase with ⟨c1, c2, c3, c4⟩ | ⟨c1, c2, c3⟩
  · rw [c1] at f1
    rw [c2] at f2
    rw [c3, c4]
    simp only [Bool.false_eq_true, false_or, false_iff, not_or] at f1 f2
    simp only [true_or, true_and, and_self, implies_true, Bool.true_eq_false, and_false,
      and_true, false_and]
    exact ⟨fun hc _ _ => f1.1 hc, fun hq _ _ => f2.1 hq⟩
  · rw [c2, c3]
    simp only [Bool.false_eq_true, false_or] at f1 f2
    refine ⟨c1, ?_, ?_, ?_, ?_⟩
    · intro n1 n2 n3
      rcases c1 with c1 | c1
      · exact absurd (f1.mp c1) (by tauto)
      · exact absurd (f2.mp c1) (by tauto)
    · intro hd
      exact ⟨f1.mpr (Or.inr hd), f2.mpr (Or.inr hd)⟩
    · intro hc n2 n3
      refine ⟨f1.mpr (Or.inl hc), ?_⟩
      cases hq : a1.playback with
      | false => rfl
      | true => exact absurd (f2.mp hq) (by tauto)
    · intro hq n1 n3
      refine ⟨?_, f2.mpr (Or.inl hq)⟩
      cases hc : a1.capture with
      | false => rfl
      | true => exact absurd (f1.mp hc) (by tauto)

/-- Witness of C28: the list `-C` enables capture alone. -/
theorem capture_or_playback_witness :
    driver_initialize_args [demoParam 'C' 0] = some { initialArgs with capture := true } ∧
    (({ initialArgs with capture := true } : ioaudio_driver_args_t).capture = true ∨
      ({ initialArgs with capture := true } : ioaudio_driver_args_t).playback = true) :=
  ⟨by decide, (capture_or_playback [demoParam 'C' 0] _ (by decide)).1⟩

/-- C29. `SetBufferSize` is atomic on failure. It returns the result of the
first `ioaudio_driver_reset_parameters`, which is called with the requested
size and the period count and frame rate of the backend record. When that
result is 0, the generic `JackAudioDriver::SetBufferSize` is run with the
requested size and then `UpdateLatencies`: the latency calls of the state so
reached are issued, and the engine buffer size is the requested size when the
generic function stores its argument there. When the result is not 0, the
engine buffer size and the latencies are as before, and the backend is reset
exactly once more, with the previous engine buffer size and the period count
and frame rate of the record, which are those of the first reset when the
failed reset has left these two members as they were. -/
theorem setBufferSize_atomic_on_failure (env : Backend) (d : JackIoAudioDriver) (n : Nat) :
    (d.SetBufferSize env n).1 =
      (env.ioaudio_driver_reset_parameters d.fDriver n d.fDriver.user_nperiods
        d.fDriver.frame_rate).1 ∧
    ((d.SetBufferSize env n).1 = 0 →
      ∃ e, e = env.JackAudioDriver_SetBufferSize
          { d with
            fDriver := (env.ioaudio_driver_reset_parameters d.fDriver n
              d.fDriver.user_nperiods d.fDriver.frame_rate).2
            resets := d.resets ++ [⟨n, d.fDriver.user_nperiods, d.fDriver.frame_rate⟩]
            jack_log := d.jack_log ++ [n] } n ∧
        (d.SetBufferSize env n).2 = e.UpdateLatencies ∧
        (d.SetBufferSize env n).2.latencies =
          e.latencies ++ captureLatencies e ++ playbackLatencies e ∧
        (d.SetBufferSize env n).2.fBufferSize = e.fBufferSize ∧
        (d.SetBufferSize env n).2.resets = e.resets ∧
        ((∀ x k, (env.JackAudioDriver_SetBufferSize x k).fBufferSize = k) →
          (d.SetBufferSize env n).2.fBufferSize = n)) ∧
    ((d.SetBufferSize env n).1 ≠ 0 →
      ∃ hw, hw = (env.ioaudio_driver_reset_parameters d.fDriver n d.fDriver.user_nperiods
          d.fDriver.frame_rate).2 ∧
        (d.SetBufferSize env n).2.fBufferSize = d.fBufferSize ∧
        (d.SetBufferSize env n).2.latencies = d.latencies ∧
        (d.SetBufferSize env n).2.fSyncMode = d.fSyncMode ∧
        (d.SetBufferSize env n).2.resets =
          d.resets ++ [⟨n, d.fDriver.user_nperiods, d.fDriver.frame_rate⟩,
            ⟨d.fBufferSize, hw.user_nperiods, hw.frame_rate⟩] ∧
        (d.SetBufferSize env n).2.fDriver =
          (env.ioaudio_driver_reset_parameters hw d.fBufferSize hw.user_nperiods
            hw.frame_rate).2 ∧
        (hw.user_nperiods = d.fDriver.user_nperiods → hw.frame_rate = d.fDriver.frame_rate →
          (d.SetBufferSize env n).2.resets =
            d.resets ++ [⟨n, d.fDriver.user_nperiods, d.fDriver.frame_rate⟩,
              ⟨d.fBufferSize, d.fDriver.user_nperiods, d.fDriver.frame_rate⟩])) := by
  unfold JackIoAudioDriver.SetBufferSize
  simp only
  by_cases h0 : (env.ioaudio_driver_reset_parameters d.fDriver n d.fDriver.user_nperiods
      d.fDriver.frame_rate).1 = 0
  · rw [if_pos h0]
    refine ⟨rfl, fun _ => ⟨_, rfl, rfl, rfl, rfl, rfl, fun hb => hb _ _⟩, fun hne => absurd h0 hne⟩
  · rw [if_neg h0]
    refine ⟨rfl, fun he => absurd he h0, fun _ => ⟨_, rfl, rfl, rfl, rfl, ?_, rfl, ?_⟩⟩
    · simp only [List.append_assoc, List.singleton_append]
    · intro e1 e2
      simp only [List.append_assoc, List.singleton_append, e1, e2]

/-- Witness of C29: on the backend that takes at most 4096 frames, a request
of 8192 frames fails, leaves the engine at 1024 frames and resets the backend
to 1024 frames; a request of 2048 frames succeeds and is stored. -/
theorem setBufferSize_atomic_on_failure_witness :
    (demoDriver.SetBufferSize demoBackend 8192).1 = -1 ∧
    (demoDriver.SetBufferSize demoBackend 8192).2.fBufferSize = 1024 ∧
    (demoDriver.SetBufferSize demoBackend 8192).2.resets =
      [⟨8192, 2, 48000⟩, ⟨1024, 2, 48000⟩] ∧
    (demoDriver.SetBufferSize demoBackend 8192).2.fDriver = demoHw ∧
    (demoDriver.SetBufferSize demoBackend 2048).1 = 0 ∧
    (demoDriver.SetBufferSize demoBackend 2048).2.fBufferSize = 2048 ∧
    (demoDriver.SetBufferSize demoBackend 2048).2.latencies =
      [⟨1, jack_latency_callback_mode_t.JackCaptureLatency, 2048⟩,
       ⟨2, jack_latency_callback_mode_t.JackCaptureLatency, 2048⟩,
       ⟨3, jack_latency_callback_mode_t.JackPlaybackLatency, 4096⟩,
       ⟨4, jack_latency_callback_mode_t.JackPlaybackLatency, 4096⟩] ∧
    (demoDriver.SetBufferSize demoBackend 8192).1 =
      (demoBackend.ioaudio_driver_reset_parameters demoDriver.fDriver 8192
        demoDriver.fDriver.user_nperiods demoDriver.fDriver.frame_rate).1 :=
  ⟨by decide, by decide, by decide, by decide, by decide, by decide, by decide,
   (setBufferSize_atomic_on_failure demoBackend demoDriver 8192).1⟩

end Jack
